import Mathlib

/-!
# Scene animation runtime of `illustrations-lab.js`

A shallow embedding of the shared runtime of `src/illustrations-lab.js`
(registration, `resizeScene`, `updatePerformance`, `tick`) and of the ring
relaxation of `createCharterScene`.

Conventions of the embedding:

* JavaScript numbers are modelled as rationals with exact arithmetic.
* Module level variables (`prefersReducedMotion`, `scrolling`, `lastTime`,
  `frameTimes`, `lowPower`, `scenes`, the error overlay) are the fields of
  `Runtime`; every handler is a function from `Runtime` to `Runtime`, and one
  iteration of the registration loop returns `Except String (Runtime σ)` since
  it can throw.
* The table `sceneFactories` is a function from names to the factory the
  lookup finds, `Object` under the inherited name `constructor` included; the
  other names inherited from `Object.prototype` are `inheritedNonFactories`.
* A scene's `render` closure is a function of the render arguments and of the
  scene's private state; it returns the private state it leaves behind and the
  message of the error it throws, if it throws.
* `renderLog` and `resizeHookCalls` are ghost fields: they record the
  invocations of `render` and of `onResize` and are read by no code.
* `Math.sin`, `Math.cos` and `Math.hypot` are parameters of the charter scene
  (`JsMath`); division by zero does not occur on the inputs considered (a
  canvas of positive width and height has `ringGap > 0`).
-/

namespace IllustrationsLab

/-! ## Utilities -/

/-- `clamp(value, min, max) = Math.min(max, Math.max(min, value))`. -/
def clamp (value lo hi : ℚ) : ℚ := min hi (max lo value)

/-- `lerp(a, b, t) = a + (b - a) * t`. -/
def lerp (a b t : ℚ) : ℚ := a + (b - a) * t

/-! ## Data model -/

/-- The record `scene.pointer`: smoothed offset `x, y`, raw target `tx, ty`
and the `active` flag set by `pointermove` and cleared by `pointerleave`. -/
structure Pointer where
  x : ℚ
  y : ℚ
  tx : ℚ
  ty : ℚ
  active : Bool
  deriving DecidableEq, Repr

/-- The argument record of `scene.render`. -/
structure RenderArgs where
  w : ℚ
  h : ℚ
  time : ℚ
  pointer : Pointer
  paused : Bool
  lowPower : Bool
  deriving DecidableEq, Repr

/-- What a scene factory returns: the private state captured by the closures,
the `render` method and the optional `onResize` hook. -/
structure Factory (σ : Type) where
  init : σ
  render : RenderArgs → σ → σ × Option String
  onResize : Option (σ → σ)

/-- A registered scene: the object returned by the factory together with the
fields the registration loop adds to it. -/
structure Scene (σ : Type) where
  name : String
  priv : σ
  render : RenderArgs → σ → σ × Option String
  onResize : Option (σ → σ)
  w : ℚ
  h : ℚ
  dpr : ℚ
  canvasWidth : ℚ
  canvasHeight : ℚ
  ctxScale : ℚ
  pointer : Pointer
  time : ℚ
  active : Bool
  needsRender : Bool
  pausedFrameRendered : Bool
  renderLog : List RenderArgs
  resizeHookCalls : ℕ

/-- The rolling window `frameTimes` and the flag `lowPower`. -/
structure Governor where
  frameTimes : List ℚ
  lowPower : Bool
  deriving DecidableEq, Repr

/-- The module level state of the runtime. `devicePixelRatio` is `none` when
`window.devicePixelRatio` is missing; `overlay` is the text of the debug
overlay, `none` while it has not been created. -/
structure Runtime (σ : Type) where
  prefersReducedMotion : Bool
  scrolling : Bool
  lastTime : ℚ
  gov : Governor
  scenes : List (Scene σ)
  overlay : Option String
  devicePixelRatio : Option ℚ

/-- An illustration container as the registration loop sees it: its
`data-scene` name, whether it has a `canvas` child, whether
`canvas.getContext("2d", ...)` yields a context, and the size of its bounding
rectangle. -/
structure Container where
  scene : String
  hasCanvas : Bool
  hasContext : Bool
  width : ℚ
  height : ℚ
  deriving DecidableEq, Repr

/-! ## Resize, registration and event handlers -/

/-- `window.devicePixelRatio || 1`. -/
def dprOrOne : Option ℚ → ℚ
  | none => 1
  | some v => if v = 0 then 1 else v

/-- `resizeScene(scene, width, height)`. -/
def resizeScene {σ : Type} (devicePixelRatio : Option ℚ) (scene : Scene σ) (width height : ℚ) :
    Scene σ :=
  let w : ℚ := max 1 (⌊width⌋ : ℚ)
  let h : ℚ := max 1 (⌊height⌋ : ℚ)
  let dpr : ℚ := min 2 (dprOrOne devicePixelRatio)
  let scene : Scene σ :=
    { scene with
      w := w, h := h, dpr := dpr,
      canvasWidth := (⌊w * dpr⌋ : ℚ), canvasHeight := (⌊h * dpr⌋ : ℚ), ctxScale := dpr }
  let scene : Scene σ :=
    match scene.onResize with
    | some hook =>
      { scene with priv := hook scene.priv, resizeHookCalls := scene.resizeHookCalls + 1 }
    | none => scene
  { scene with needsRender := true }

/-- The scene object as the registration loop leaves it just before
`attachPointer` and the first `resizeScene`. -/
def newScene {σ : Type} (name : String) (f : Factory σ) : Scene σ :=
  { name := name, priv := f.init, render := f.render, onResize := f.onResize,
    w := 0, h := 0, dpr := 0, canvasWidth := 0, canvasHeight := 0, ctxScale := 0,
    pointer := { x := 0, y := 0, tx := 0, ty := 0, active := false },
    time := 0, active := true, needsRender := true, pausedFrameRendered := false,
    renderLog := [], resizeHookCalls := 0 }

/-- The names, `constructor` apart, that a table written as an object literal
inherits from `Object.prototype`. The lookup `sceneFactories[name]` of such a
name gives a truthy value that is not a scene factory: called as
`factory({ container, canvas, ctx })` it throws a `TypeError`, or (`toString`)
returns a string, on which the first `resizeScene` throws. -/
def inheritedNonFactories : List String :=
  ["__defineGetter__", "__defineSetter__", "__lookupGetter__", "__lookupSetter__", "__proto__",
    "hasOwnProperty", "isPrototypeOf", "propertyIsEnumerable", "toLocaleString", "toString",
    "valueOf"]

/-- The function `Object` used as a scene factory, which the lookup of the
inherited name `constructor` gives: it returns its argument, an object that
has no `render` method and no `onResize` hook, so that every `scene.render(...)`
throws. The private state of such a scene is never read. -/
def objectFactory {σ : Type} (priv : σ) : Factory σ :=
  { init := priv,
    render := fun _ state => (state, some "TypeError: scene.render is not a function"),
    onResize := none }

/-- One iteration of `document.querySelectorAll(".canvas").forEach(...)`.
The argument `sceneFactories` gives the scene factory that the lookup
`sceneFactories[name]` finds: the factory stored under an own key of the
table, or `objectFactory` for the inherited name `constructor`; for the names
of `inheritedNonFactories` that are not own keys the lookup is truthy but no
factory, and for every other name it is `undefined`. A container whose lookup
is `undefined`, or whose canvas yields no drawing context, is skipped; the
others are pushed on `scenes` and sized from their bounding rectangle. When
the lookup is truthy and the container has no `canvas` child,
`canvas.getContext` is called on `null` and throws. -/
def register {σ : Type} (sceneFactories : String → Option (Factory σ)) (rt : Runtime σ)
    (container : Container) : Except String (Runtime σ) :=
  match sceneFactories container.scene with
  | none =>
    if container.scene ∈ inheritedNonFactories then
      if !container.hasCanvas then .error "TypeError: canvas is null"
      else if !container.hasContext then .ok rt
      else .error "TypeError: the inherited property is not a scene factory"
    else .ok rt
  | some factory =>
    if !container.hasCanvas then .error "TypeError: canvas is null"
    else if !container.hasContext then .ok rt
    else
      let scene := newScene container.scene factory
      .ok { rt with
        scenes := rt.scenes ++
          [resizeScene rt.devicePixelRatio scene container.width container.height] }

/-- The iteration of the registration loop for `container` does not throw. -/
def registersQuietly {σ : Type} (sceneFactories : String → Option (Factory σ))
    (container : Container) : Prop :=
  match sceneFactories container.scene with
  | none =>
    container.scene ∉ inheritedNonFactories ∨
      (container.hasCanvas = true ∧ container.hasContext = false)
  | some _ => container.hasCanvas = true

/-- The registration loop over the containers of the page, in document order;
an error thrown by one iteration ends the loop. -/
def registerAll {σ : Type} (sceneFactories : String → Option (Factory σ)) (rt : Runtime σ) :
    List Container → Except String (Runtime σ)
  | [] => .ok rt
  | container :: rest =>
    match register sceneFactories rt container with
    | .ok rt => registerAll sceneFactories rt rest
    | .error e => .error e

/-- The resize observer callback for the scene at position `i` of `scenes`. -/
def onResizeEntry {σ : Type} (rt : Runtime σ) (i : ℕ) (width height : ℚ) : Runtime σ :=
  { rt with
    scenes := rt.scenes.modify (fun scene => resizeScene rt.devicePixelRatio scene width height) i }

/-- The intersection observer callback for the scene at position `i`:
`scene.active = entry.isIntersecting`. -/
def onIntersection {σ : Type} (rt : Runtime σ) (i : ℕ) (isIntersecting : Bool) : Runtime σ :=
  { rt with scenes := rt.scenes.modify (fun scene => { scene with active := isIntersecting }) i }

/-- `handleReduceMotion(event)`. -/
def handleReduceMotion {σ : Type} (rt : Runtime σ) (matches_ : Bool) : Runtime σ :=
  { rt with
    prefersReducedMotion := matches_,
    scenes := rt.scenes.map (fun scene => { scene with needsRender := true }) }

/-- The `scroll` listener: `scrolling = true` (the timer is re-armed). -/
def onScroll {σ : Type} (rt : Runtime σ) : Runtime σ :=
  { rt with scrolling := true }

/-- The timeout callback armed by the `scroll` listener, 120 ms after the last
scroll event. -/
def onScrollSettled {σ : Type} (rt : Runtime σ) : Runtime σ :=
  { rt with
    scrolling := false,
    scenes := rt.scenes.map (fun scene => { scene with needsRender := true }) }

/-! ## Performance governor -/

/-- `updatePerformance(dt)`. -/
def updatePerformance (g : Governor) (dt : ℚ) : Governor :=
  let pushed := g.frameTimes ++ [dt]
  let frameTimes := if pushed.length > 45 then pushed.tail else pushed
  if !g.lowPower && frameTimes.length == 45 then
    let average := frameTimes.foldl (fun sum value => sum + value) 0 / (frameTimes.length : ℚ)
    if average > 42 then { frameTimes := frameTimes, lowPower := true }
    else { frameTimes := frameTimes, lowPower := g.lowPower }
  else { frameTimes := frameTimes, lowPower := g.lowPower }

/-- The governor at page load: `frameTimes = []`, `lowPower = false`. -/
def Governor.initial : Governor := { frameTimes := [], lowPower := false }

/-- Feeds a sequence of frame deltas to `updatePerformance`, oldest first. -/
def feed (g : Governor) (dts : List ℚ) : Governor := dts.foldl updatePerformance g

/-! ## Scheduler -/

/-- The body of `scenes.forEach` in `tick`, for one scene. Returns the scene
as the body leaves it and the message passed to `errorOverlay.show`, if any. -/
def tickScene {σ : Type} (prefersReducedMotion scrolling lowPower : Bool) (dt : ℚ)
    (scene : Scene σ) : Scene σ × Option String :=
  let pointer : Pointer :=
    { scene.pointer with
      x := scene.pointer.x + (scene.pointer.tx - scene.pointer.x) * (8 / 100),
      y := scene.pointer.y + (scene.pointer.ty - scene.pointer.y) * (8 / 100) }
  let scene : Scene σ := { scene with pointer := pointer }
  let paused := prefersReducedMotion || scrolling || lowPower
  let scene : Scene σ :=
    if !paused then { scene with time := scene.time + dt, pausedFrameRendered := false }
    else scene
  if paused && scene.pausedFrameRendered && !scene.needsRender then (scene, none)
  else
    let args : RenderArgs :=
      { w := scene.w, h := scene.h, time := scene.time, pointer := scene.pointer,
        paused := paused, lowPower := lowPower }
    let result := scene.render args scene.priv
    let scene : Scene σ :=
      { scene with priv := result.1, renderLog := scene.renderLog ++ [args] }
    match result.2 with
    | some message =>
      ({ scene with active := false },
        some ("Illustration error in " ++ scene.name ++ ": " ++ message))
    | none =>
      let scene : Scene σ := if paused then { scene with pausedFrameRendered := true } else scene
      ({ scene with needsRender := false }, none)

/-- The loop `scenes.forEach` of `tick`: scenes are processed in registration
order, the overlay text is threaded through. -/
def tickScenes {σ : Type} (prefersReducedMotion scrolling lowPower : Bool) (dt : ℚ) :
    List (Scene σ) → Option String → List (Scene σ) × Option String
  | [], overlay => ([], overlay)
  | scene :: rest, overlay =>
    let r := tickScene prefersReducedMotion scrolling lowPower dt scene
    let overlay := match r.2 with
      | some message => some message
      | none => overlay
    let rs := tickScenes prefersReducedMotion scrolling lowPower dt rest overlay
    (r.1 :: rs.1, rs.2)

/-- The frame delta of `tick`: `Math.min(60, now - lastTime)`. -/
def frameDelta {σ : Type} (rt : Runtime σ) (now : ℚ) : ℚ := min 60 (now - rt.lastTime)

/-- The governor as `tick` leaves it before the scene loop: fed with the frame
delta unless reduced motion or scrolling holds. -/
def tickGovernor {σ : Type} (rt : Runtime σ) (now : ℚ) : Governor :=
  if !rt.prefersReducedMotion && !rt.scrolling then updatePerformance rt.gov (frameDelta rt now)
  else rt.gov

/-- The value of `paused` computed inside the scene loop of `tick`. -/
def tickPaused {σ : Type} (rt : Runtime σ) (now : ℚ) : Bool :=
  rt.prefersReducedMotion || rt.scrolling || (tickGovernor rt now).lowPower

/-- `tick(now)`. -/
def tick {σ : Type} (rt : Runtime σ) (now : ℚ) : Runtime σ :=
  let dt := frameDelta rt now
  let gov := tickGovernor rt now
  let r := tickScenes rt.prefersReducedMotion rt.scrolling gov.lowPower dt rt.scenes rt.overlay
  { rt with lastTime := now, gov := gov, scenes := r.1, overlay := r.2 }

/-- Runs `tick` at each timestamp of `nows`, in order. -/
def run {σ : Type} (rt : Runtime σ) (nows : List ℚ) : Runtime σ := nows.foldl tick rt

/-- The runtime at page load, before any container is registered. -/
def Runtime.initial (σ : Type) (prefersReducedMotion : Bool) (devicePixelRatio : Option ℚ)
    (lastTime : ℚ) : Runtime σ :=
  { prefersReducedMotion := prefersReducedMotion, scrolling := false, lastTime := lastTime,
    gov := Governor.initial, scenes := [], overlay := none, devicePixelRatio := devicePixelRatio }

/-! ## The charter scene (elastic rings)

`Math.sin`, `Math.cos` and `Math.hypot` are not rational functions; the scene
is parameterised by the three functions, and theorems assume of them only what
`JsMath.Sound` states. -/

/-- The `Math` functions the charter scene calls. -/
structure JsMath where
  sin : ℚ → ℚ
  cos : ℚ → ℚ
  hypot : ℚ → ℚ → ℚ

/-- What is assumed of the `Math` functions: sine and cosine lie in `[-1, 1]`,
`hypot` is non-negative, and `hypot a b` is exact whenever the exact value is a
rational number. -/
def JsMath.Sound (M : JsMath) : Prop :=
  (∀ x, -1 ≤ M.sin x ∧ M.sin x ≤ 1) ∧
  (∀ x, -1 ≤ M.cos x ∧ M.cos x ≤ 1) ∧
  (∀ a b, 0 ≤ M.hypot a b) ∧
  (∀ a b c, 0 ≤ c → c * c = a * a + b * b → M.hypot a b = c)

/-- An instance of `JsMath` that meets `JsMath.Sound`: the float terms vanish
and `hypot` is the rational square root of the sum of squares. -/
def JsMath.flat : JsMath :=
  { sin := fun _ => 0, cos := fun _ => 0, hypot := fun a b => Rat.sqrt (a * a + b * b) }

/-- `ringCount` of `createCharterScene`. -/
def ringCount : ℕ := 9

/-- The closure state of `createCharterScene`: `ringRadii`, `lastW`, `lastH`. -/
structure CharterState where
  ringRadii : List ℚ
  lastW : ℚ
  lastH : ℚ
  deriving DecidableEq, Repr

/-- The closure state when `createCharterScene` returns. -/
def CharterState.initial : CharterState :=
  { ringRadii := List.replicate ringCount 0, lastW := 0, lastH := 0 }

/-- The constants `render` computes at the start of a frame. -/
structure CharterFrame where
  baseX : ℚ
  baseY : ℚ
  minRadius : ℚ
  ringGap : ℚ
  minGap : ℚ
  dotPadding : ℚ
  desiredDx : ℚ
  desiredDy : ℚ
  desiredDist : ℚ
  influenceBand : ℚ

/-- Lines 541-548 and 558-568 of `render`: geometry of the frame and the
desired focal point, from the pointer when it is active and from the autopilot
otherwise. -/
def charterFrame (M : JsMath) (a : RenderArgs) : CharterFrame :=
  let baseX := a.w * (5 / 10)
  let baseY := a.h * (5 / 10)
  let minDim := min a.w a.h
  let maxRadius := M.hypot a.w a.h * (5 / 10)
  let minRadius := minDim * (8 / 100)
  let ringGap := (maxRadius - minRadius) / ((ringCount : ℚ) - 1)
  let minGap := ringGap * (65 / 100)
  let dotPadding := ringGap * (4 / 10) + 6
  let autoPhase := a.time * (7 / 10000)
  let autoX := M.sin autoPhase * (85 / 100)
  let autoY := M.cos (autoPhase * (9 / 10) + 12 / 10) * (7 / 10)
  let motionX := if a.pointer.active then a.pointer.x else autoX
  let motionY := if a.pointer.active then a.pointer.y else autoY
  let desiredX := baseX + motionX * a.w * (18 / 100)
  let desiredY := baseY + motionY * a.h * (18 / 100)
  let desiredDx := desiredX - baseX
  let desiredDy := desiredY - baseY
  let desiredDist := M.hypot desiredDx desiredDy
  let influenceBand := ringGap * (22 / 10)
  { baseX := baseX, baseY := baseY, minRadius := minRadius, ringGap := ringGap,
    minGap := minGap, dotPadding := dotPadding, desiredDx := desiredDx,
    desiredDy := desiredDy, desiredDist := desiredDist, influenceBand := influenceBand }

/-- Lines 550-556 of `render`: the rings are reset to their base radii when the
size changed or the first radius is 0. -/
def resetRings (fr : CharterFrame) (a : RenderArgs) (st : CharterState) : CharterState :=
  if a.w ≠ st.lastW ∨ a.h ≠ st.lastH ∨ st.ringRadii.getD 0 0 = 0 then
    { ringRadii := (List.range ringCount).foldl
        (fun radii i => radii.set i (fr.minRadius + fr.ringGap * (i : ℚ))) st.ringRadii,
      lastW := a.w, lastH := a.h }
  else st

/-- The target radius of ring `i` (lines 571-584), given the radii as the loop
has updated them so far. -/
def ringTarget (M : JsMath) (fr : CharterFrame) (time : ℚ) (radii : List ℚ) (i : ℕ) : ℚ :=
  let baseRadius := fr.minRadius + fr.ringGap * (i : ℚ)
  let floatOffset :=
    M.sin (time * (3 / 10000) + (i : ℚ) * (14 / 10)) * fr.ringGap * (8 / 100) +
    M.cos (time * (17 / 100000) + (i : ℚ) * (9 / 10)) * fr.ringGap * (5 / 100)
  let delta := fr.desiredDist - baseRadius
  let influence := clamp (1 - |delta| / fr.influenceBand) 0 1
  let bump := delta * influence * (25 / 100)
  let target := baseRadius + floatOffset + bump
  if i = 0 then max target (fr.desiredDist + fr.dotPadding)
  else max target (radii.getD (i - 1) 0 + fr.minGap)

/-- The body of the relaxation loop (lines 570-587) for ring `i`:
`ringRadii[i] += (target - ringRadii[i]) * 0.12`. -/
def relaxRing (M : JsMath) (fr : CharterFrame) (time : ℚ) (radii : List ℚ) (i : ℕ) : List ℚ :=
  radii.set i (radii.getD i 0 + (ringTarget M fr time radii i - radii.getD i 0) * (12 / 100))

/-- The state part of `render` of the charter scene: reset if needed, then one
relaxation pass over the rings in increasing order. -/
def charterRender (M : JsMath) (a : RenderArgs) (st : CharterState) : CharterState :=
  let fr := charterFrame M a
  let st := resetRings fr a st
  { st with ringRadii := (List.range ringCount).foldl (relaxRing M fr a.time) st.ringRadii }

/-- Runs `render` of the charter scene on a sequence of argument records. -/
def charterRun (M : JsMath) (st : CharterState) (frames : List RenderArgs) : CharterState :=
  frames.foldl (fun st a => charterRender M a st) st

/-- The minimum gap property of the spec for one frame: every ring is at least
`minGap` above the ring below it. -/
def ringsKeepGap (minGap : ℚ) (radii : List ℚ) : Prop :=
  ∀ i, 0 < i → i < radii.length → radii.getD (i - 1) 0 + minGap ≤ radii.getD i 0

/-- Render arguments for an unpaused frame with an active pointer at `(x, y)`. -/
def pointerFrame (w h time x y : ℚ) : RenderArgs :=
  { w := w, h := h, time := time,
    pointer := { x := x, y := y, tx := x, ty := y, active := true },
    paused := false, lowPower := false }

/-- The frame constants of a 300 x 400 canvas with an active pointer at
`(3/4, 3/4)`, as `charterFrame` computes them (`charterFrame_demo`). -/
def demoFrame : CharterFrame :=
  { baseX := 150, baseY := 200, minRadius := 24, ringGap := 113 / 4, minGap := 1469 / 80,
    dotPadding := 173 / 10, desiredDx := 81 / 2, desiredDy := 54, desiredDist := 135 / 2,
    influenceBand := 1243 / 20 }

/-! ## Concrete scenes used to evaluate the runtime -/

/-- A scene whose `render` throws `Error("boom")` on every call. -/
def throwingFactory : Factory Unit :=
  { init := (), render := fun _ _ => ((), some "boom"), onResize := none }

/-- A scene whose `render` draws and never throws. -/
def quietFactory : Factory Unit :=
  { init := (), render := fun _ _ => ((), none), onResize := none }

/-- A factory table with the two scenes above as own keys `throwing` and
`quiet`; the inherited name `constructor` gives `Object`. -/
def demoFactories (name : String) : Option (Factory Unit) :=
  if name = "throwing" then some throwingFactory
  else if name = "quiet" then some quietFactory
  else if name = "constructor" then some (objectFactory ())
  else none

/-- The runtime after the registration loop has visited `containers`, on a
page loaded at time 0 with no reduced motion preference and a device pixel
ratio of 1 (the runtime at page load if the loop throws). -/
def demoRuntime (containers : List Container) : Runtime Unit :=
  match registerAll demoFactories (Runtime.initial Unit false (some 1) 0) containers with
  | .ok rt => rt
  | .error _ => Runtime.initial Unit false (some 1) 0

/-- A container of the given size, with a canvas and a drawing context,
declaring the scene `name`. -/
def sizedContainer (name : String) (width height : ℚ) : Container :=
  { scene := name, hasCanvas := true, hasContext := true, width := width, height := height }

/-- An 800 x 600 container declaring the scene `name`. -/
def demoContainer (name : String) : Container := sizedContainer name 800 600

/-- Frame timestamps `step, 2 * step, ..., n * step`. -/
def frameStamps (step : ℚ) (n : ℕ) : List ℚ :=
  (List.range n).map (fun k => step * ((k : ℚ) + 1))

/-- The frame constants of a 300 x 400 canvas with an active pointer at
`(24/25, 24/25)`, as `charterFrame` computes them (`charterFrame_corner`). -/
def cornerFrame : CharterFrame :=
  { baseX := 150, baseY := 200, minRadius := 24, ringGap := 113 / 4, minGap := 1469 / 80,
    dotPadding := 173 / 10, desiredDx := 1296 / 25, desiredDy := 1728 / 25,
    desiredDist := 432 / 5, influenceBand := 1243 / 20 }

/-- Ring 0 after `n` renders on `cornerFrame`, starting from the base radius:
each render moves it 12% of the way to its target `desiredDist + dotPadding`. -/
def leadRadius : ℕ → ℚ
  | 0 => 24
  | n + 1 => leadRadius n + (1037 / 10 - leadRadius n) * (12 / 100)

/-- An upper bound of ring 1 after `n` renders on `cornerFrame`: each render
moves it 12% of the way to a target that is at most 60 or the gap clamp. -/
def chaseBound : ℕ → ℚ
  | 0 => 209 / 4
  | n + 1 => chaseBound n + (max 60 (leadRadius (n + 1) + 1469 / 80) - chaseBound n) * (12 / 100)

/-- The ordering property of the spec for one frame: no ring is smaller than
the ring below it. -/
def ringsOrdered (radii : List ℚ) : Prop :=
  ∀ i, 0 < i → i < radii.length → radii.getD (i - 1) 0 ≤ radii.getD i 0

/-- Lines 589-593 of `render` of the charter scene: the position of the focal
dot, computed from the frame constants and the updated `ringRadii[0]`. -/
def charterDot (fr : CharterFrame) (radii : List ℚ) : ℚ × ℚ :=
  let maxDotDist := max (radii.getD 0 0 - fr.dotPadding) 0
  let clampedDist := min fr.desiredDist maxDotDist
  let ratio := if fr.desiredDist > 0 then clampedDist / fr.desiredDist else 0
  (fr.baseX + fr.desiredDx * ratio, fr.baseY + fr.desiredDy * ratio)

/-! ## Pointer tracker and events -/

/-- The handler `onMove` of `attachPointer`, for a `pointermove` event at
`(clientX, clientY)` on a container whose bounding rectangle has the given
left, top, width and height. -/
def onMove (pointer : Pointer) (clientX clientY left top width height : ℚ) : Pointer :=
  let x := (clientX - left) / width
  let y := (clientY - top) / height
  { pointer with
    tx := clamp (x * 2 - 1) (-1) 1, ty := clamp (y * 2 - 1) (-1) 1, active := true }

/-- The handler `onLeave` of `attachPointer`. -/
def onLeave (pointer : Pointer) : Pointer :=
  { pointer with tx := 0, ty := 0, active := false }

/-- The first two lines of the scene loop of `tick`:
`pointer.x += (pointer.tx - pointer.x) * 0.08`, and the same for `y`. -/
def smoothPointer (pointer : Pointer) : Pointer :=
  { pointer with
    x := pointer.x + (pointer.tx - pointer.x) * (8 / 100),
    y := pointer.y + (pointer.ty - pointer.y) * (8 / 100) }

/-- The events the runtime reacts to after registration, for the scene at
position `i` of `scenes` where one scene is concerned. -/
inductive Event where
  | pointermove (i : ℕ) (clientX clientY left top width height : ℚ)
  | pointerleave (i : ℕ)
  | frame (now : ℚ)

/-- The reaction of the runtime to one event. -/
def Event.run {σ : Type} (rt : Runtime σ) : Event → Runtime σ
  | .pointermove i clientX clientY left top width height =>
    { rt with
      scenes := rt.scenes.modify
        (fun scene =>
          { scene with pointer := onMove scene.pointer clientX clientY left top width height }) i }
  | .pointerleave i =>
    { rt with
      scenes := rt.scenes.modify (fun scene => { scene with pointer := onLeave scene.pointer }) i }
  | .frame now => tick rt now

/-- The reaction of the runtime to a sequence of events, in order. -/
def runEvents {σ : Type} (rt : Runtime σ) (events : List Event) : Runtime σ :=
  events.foldl Event.run rt

/-- A `pointermove` event is well formed when its container has positive
width and height. -/
def Event.WellFormed : Event → Prop
  | .pointermove _ _ _ _ _ width height => 0 < width ∧ 0 < height
  | .pointerleave _ => True
  | .frame _ => True

/-- Raw target and smoothed offset of a pointer all lie in `[-1, 1]`. -/
def Pointer.InRange (p : Pointer) : Prop :=
  (-1 ≤ p.x ∧ p.x ≤ 1) ∧ (-1 ≤ p.y ∧ p.y ≤ 1) ∧ (-1 ≤ p.tx ∧ p.tx ≤ 1) ∧ (-1 ≤ p.ty ∧ p.ty ≤ 1)

/-- The pointer of a scene and every pointer it has passed to `render` are in range. -/
def Scene.PointerInRange {σ : Type} (scene : Scene σ) : Prop :=
  scene.pointer.InRange ∧ ∀ a ∈ scene.renderLog, a.pointer.InRange

/-! ## Easing and Bezier utilities -/

/-- `easeInOut(t) = t < 0.5 ? 2 * t * t : 1 - Math.pow(-2 * t + 2, 2) / 2`. -/
def easeInOut (t : ℚ) : ℚ := if t < 5 / 10 then 2 * t * t else 1 - (-2 * t + 2) ^ 2 / 2

/-- A point `{ x, y }`. -/
structure Point where
  x : ℚ
  y : ℚ
  deriving DecidableEq, Repr

/-- `cubicPoint` of `createNfoScene` (lines 248-258). -/
def cubicPointNfo (p0 p1 p2 p3 : Point) (t : ℚ) : Point :=
  let u := 1 - t
  let tt := t * t
  let uu := u * u
  let uuu := uu * u
  let ttt := tt * t
  { x := uuu * p0.x + 3 * uu * t * p1.x + 3 * u * tt * p2.x + ttt * p3.x,
    y := uuu * p0.y + 3 * uu * t * p1.y + 3 * u * tt * p2.y + ttt * p3.y }

/-- `cubicPoint` of `createControlScene` (lines 1218-1228). -/
def cubicPointControl (p0 p1 p2 p3 : Point) (t : ℚ) : Point :=
  let u := 1 - t
  let tt := t * t
  let uu := u * u
  let uuu := uu * u
  let ttt := tt * t
  { x := uuu * p0.x + 3 * uu * t * p1.x + 3 * u * tt * p2.x + ttt * p3.x,
    y := uuu * p0.y + 3 * uu * t * p1.y + 3 * u * tt * p2.y + ttt * p3.y }

/-- A curve segment `{ start, c1, c2, end }` of the control scene. -/
structure CurveSegment where
  start : Point
  c1 : Point
  c2 : Point
  finish : Point
  deriving DecidableEq, Repr

/-- `sampleSegment(segment, t, reverse = false)` of `createControlScene`. -/
def sampleSegment (segment : CurveSegment) (t : ℚ) (reverse : Bool) : Point :=
  let localT := if reverse then 1 - t else t
  cubicPointControl segment.start segment.c1 segment.c2 segment.finish localT

/-- The de Casteljau construction of a cubic Bezier point by nested `lerp`. -/
def deCasteljau (p0 p1 p2 p3 : Point) (t : ℚ) : Point :=
  { x := lerp (lerp (lerp p0.x p1.x t) (lerp p1.x p2.x t) t)
        (lerp (lerp p1.x p2.x t) (lerp p2.x p3.x t) t) t,
    y := lerp (lerp (lerp p0.y p1.y t) (lerp p1.y p2.y t) t)
        (lerp (lerp p1.y p2.y t) (lerp p2.y p3.y t) t) t }

/-! ## Pseudo-random sequence generator

The generator returned by `makeRandom(seed)` is its closure variable `value`;
seeds are integers. -/

/-- The closure variable `value` when `makeRandom(seed)` returns:
`seed % 2147483647`, plus 2147483646 when that is not positive. `%` is the
remainder of JavaScript, with the sign of the dividend. -/
def makeRandom (seed : ℤ) : ℤ :=
  let value := Int.tmod seed 2147483647
  if value ≤ 0 then value + 2147483646 else value

/-- The assignment `value = (value * 16807) % 2147483647` of one call. -/
def nextValue (value : ℤ) : ℤ := Int.tmod (value * 16807) 2147483647

/-- The number one call returns, from the value it has just stored:
`(value - 1) / 2147483646`. -/
def randomOutput (value : ℤ) : ℚ := ((value : ℚ) - 1) / 2147483646

/-- The closure variable of `makeRandom(seed)` after `n` calls. -/
def valueAfter (seed : ℤ) (n : ℕ) : ℤ := nextValue^[n] (makeRandom seed)

/-- The number returned by the `n`-th call of `makeRandom(seed)`, for `n ≥ 1`. -/
def nthRandom (seed : ℤ) (n : ℕ) : ℚ := randomOutput (valueAfter seed n)

/-! ## Timelines -/

/-- JavaScript `a % b` on numbers: `a - b * trunc(a / b)`. -/
def jsMod (a b : ℚ) : ℚ :=
  a - b * (if 0 ≤ a / b then ((⌊a / b⌋ : ℤ) : ℚ) else ((⌈a / b⌉ : ℤ) : ℚ))

/-- The loop of `getState` and of `getSegment`: walks the durations, phase
`i` first, with `t` the time left; returns the phase index and the progress,
or `none` when the loop falls through. `zeroProgress` is the progress reported
for a phase of duration 0. -/
def phaseLoop (zeroProgress : ℚ) : List ℚ → ℕ → ℚ → Option (ℕ × ℚ)
  | [], _, _ => none
  | duration :: rest, i, t =>
    if t ≤ duration then some (i, if duration = 0 then zeroProgress else t / duration)
    else phaseLoop zeroProgress rest (i + 1) (t - duration)

/-- `stateDurations` of `createSpeedScene`. -/
def stateDurations : List ℚ := [1700, 1500, 1800, 1800]

/-- `totalDuration` of `createSpeedScene`. -/
def totalDuration : ℚ := stateDurations.foldl (fun sum value => sum + value) 0

/-- `getState(time)` of `createSpeedScene`: `(index, progress)`. -/
def getState (time : ℚ) : ℕ × ℚ :=
  match phaseLoop 0 stateDurations 0 (jsMod time totalDuration) with
  | some r => r
  | none => (0, 0)

/-- The durations of `segments` of `createPromiseScene`. -/
def segmentDurations : List ℚ := [1800, 1500, 2200, 1500]

/-- `totalDuration` of `createPromiseScene`. -/
def segmentTotal : ℚ := segmentDurations.foldl (fun sum value => sum + value) 0

/-- `getSegment(time)` of `createPromiseScene`: the index of the segment that
is returned and its `progress` (the other fields are those of the segment). -/
def getSegment (time : ℚ) : ℕ × ℚ :=
  match phaseLoop 1 segmentDurations 0 (jsMod time segmentTotal) with
  | some r => r
  | none => (0, 0)

/-- The time at which phase `i` of a timeline starts within the cycle. -/
def phaseStart (durations : List ℚ) (i : ℕ) : ℚ := (durations.take i).sum

/-! ## Ground scene: lattice and routes

`createGroundScene` builds a lattice of `rows * cols` points, picks the point
nearest the centre as the destination (`orangeIndex`), and sends packets along
routes built by `buildRoute`. The closure variables `route`, `segmentIndex`,
`segmentTimer`, `lastTime` and the state of the generator `random` are the
fields of `GroundState`. Reading a field of `grid[i]` for an `i` outside the
array is a `TypeError`; the functions that read the grid return an `Option`. -/

/-- A lattice point `{ row, col, x, y, jx, jy }`. -/
structure GridPoint where
  row : ℤ
  col : ℤ
  x : ℚ
  y : ℚ
  jx : ℚ
  jy : ℚ
  deriving DecidableEq, Repr

/-- `cols` of `createGroundScene`. -/
def cols : ℕ := 10

/-- `rows` of `createGroundScene`. -/
def rows : ℕ := 6

/-- `marginX` of `createGroundScene`. -/
def marginX : ℚ := 14 / 100

/-- `marginY` of `createGroundScene`. -/
def marginY : ℚ := 2 / 10

/-- `jitter` of `createGroundScene`. -/
def jitter : ℚ := 0

/-- The seed of `makeRandom(48)` in `createGroundScene`. -/
def groundSeed : ℤ := 48

/-- The array `grid`, filled row by row; the point pushed at row `r` and
column `c` consumes two draws of the generator. -/
def grid : List GridPoint :=
  (List.range rows).flatMap fun (r : ℕ) => (List.range cols).map fun (c : ℕ) =>
    { row := (r : ℤ),
      col := (c : ℤ),
      x := lerp marginX (1 - marginX) ((c : ℚ) / ((cols : ℚ) - 1)),
      y := lerp marginY (1 - marginY) ((r : ℚ) / ((rows : ℚ) - 1)),
      jx := (nthRandom groundSeed (2 * (r * cols + c) + 1) * 2 - 1) * jitter,
      jy := (nthRandom groundSeed (2 * (r * cols + c) + 2) * 2 - 1) * jitter }

/-- The element `grid[i]`, `none` for `undefined`. -/
def gridAt (i : ℤ) : Option GridPoint := if 0 ≤ i then grid.get? i.toNat else none

/-- `indexFor(row, col) = row * cols + col`. -/
def indexFor (row col : ℤ) : ℤ := row * cols + col

/-- The body of the `forEach` that finds the point nearest the centre: the
pair is `(orangeIndex, minDist)`, `none` for `Infinity`. -/
def nearestStep (acc : ℤ × Option ℚ) (entry : ℕ × GridPoint) : ℤ × Option ℚ :=
  let dx := entry.2.x - 1 / 2
  let dy := entry.2.y - 1 / 2
  let dist := dx * dx + dy * dy
  match acc.2 with
  | none => ((entry.1 : ℤ), some dist)
  | some minDist => if dist < minDist then ((entry.1 : ℤ), some dist) else acc

/-- `orangeIndex` of `createGroundScene`, in exact arithmetic. -/
def orangeIndex : ℤ := (grid.enum.foldl nearestStep (0, none)).1

/-- The start cell of a route from the number `u` that `random()` returned:
`Math.floor(u * grid.length)`, moved one cell on when it is the destination. -/
def chooseStart (orange : ℤ) (u : ℚ) : ℤ :=
  let start := ⌊u * (grid.length : ℚ)⌋
  if start = orange then Int.tmod (start + 1) grid.length else start

/-- The `while` loop of `buildRoute`. The first argument is what is left of
the guard, `rows * cols - guard`; `route` is the array built so far. -/
def routeLoop (target : GridPoint) : ℕ → ℤ → List ℤ → Option (List ℤ)
  | 0, current, route =>
    match gridAt current with
    | none => none
    | some _ => some route
  | budget + 1, current, route =>
    match gridAt current with
    | none => none
    | some point =>
      if point.row ≠ target.row ∨ point.col ≠ target.col then
        let stepRow := Int.sign (target.row - point.row)
        let stepCol := Int.sign (target.col - point.col)
        let nextRow := point.row + stepRow
        let nextCol := point.col + stepCol
        let next := indexFor nextRow nextCol
        routeLoop target budget next (route ++ [next])
      else some route

/-- The route that `buildRoute` builds from the cell `start`. -/
def routeFrom (orange start : ℤ) : Option (List ℤ) :=
  match gridAt orange with
  | none => none
  | some target => routeLoop target (rows * cols) start [start]

/-- The closure variables of a ground scene; `value` is the state of its
generator. -/
structure GroundState where
  value : ℤ
  route : List ℤ
  segmentIndex : ℕ
  segmentTimer : ℚ
  lastTime : ℚ
  deriving DecidableEq, Repr

/-- `buildRoute()`: one draw for the start cell, the walk to the destination,
and the reset of `segmentIndex` and `segmentTimer`. -/
def buildRoute (orange : ℤ) (st : GroundState) : Option GroundState :=
  let value := nextValue st.value
  let start := chooseStart orange (randomOutput value)
  match routeFrom orange start with
  | none => none
  | some route =>
    some { st with value := value, route := route, segmentIndex := 0, segmentTimer := 0 }

/-- The state of a ground scene when `createGroundScene` returns: the grid has
consumed `2 * rows * cols` draws, and `buildRoute()` has run once. -/
def createGroundScene (orange : ℤ) : Option GroundState :=
  buildRoute orange
    { value := valueAfter groundSeed (2 * rows * cols),
      route := [],
      segmentIndex := 0,
      segmentTimer := 0,
      lastTime := 0 }

/-- `burstDuration` of the ground scene's `render`. -/
def burstDuration : ℚ := 180

/-- `holdDuration` of the ground scene's `render`. -/
def holdDuration : ℚ := 90

/-- `segmentTotal` of the ground scene's `render`. -/
def groundSegmentTotal : ℚ := burstDuration + holdDuration

/-- The loop `while (segmentTimer >= segmentTotal)` of the ground scene's
`render`; the first argument bounds the number of iterations, and `none` is
also the result when it is used up. -/
def advanceSegments (orange : ℤ) : ℕ → GroundState → Option GroundState
  | 0, st => if st.segmentTimer ≥ groundSegmentTotal then none else some st
  | fuel + 1, st =>
    if st.segmentTimer ≥ groundSegmentTotal then
      let st1 := { st with
        segmentTimer := st.segmentTimer - groundSegmentTotal,
        segmentIndex := st.segmentIndex + 1 }
      if (st1.segmentIndex : ℤ) ≥ (st1.route.length : ℤ) - 1 then buildRoute orange st1
      else advanceSegments orange fuel st1
    else some st

/-- The state part of the ground scene's `render` at elapsed time `time`: the
frame delta, the segment timer, and the segment-advance loop. -/
def groundRender (orange : ℤ) (time : ℚ) (st : GroundState) : Option GroundState :=
  let lastTime := if st.lastTime = 0 then time else st.lastTime
  let dt := max 0 (time - lastTime)
  let st1 := { st with lastTime := time, segmentTimer := st.segmentTimer + dt }
  advanceSegments orange (⌊st1.segmentTimer / groundSegmentTotal⌋.toNat + 1) st1

/-- The two lattice points `grid[route[segmentIndex]]` and
`grid[route[segmentIndex + 1]]` between which the packet is drawn. -/
def packetEnds (st : GroundState) : Option (GridPoint × GridPoint) :=
  match st.route.get? st.segmentIndex, st.route.get? (st.segmentIndex + 1) with
  | some a, some b =>
    match gridAt a, gridAt b with
    | some source, some dest => some (source, dest)
    | _, _ => none
  | _, _ => none

/-- A sequence of `render` calls of the ground scene. -/
def groundRun (orange : ℤ) : List ℚ → GroundState → Option GroundState
  | [], st => some st
  | time :: times, st =>
    match groundRender orange time st with
    | none => none
    | some st1 => groundRun orange times st1

/-- The number of king moves between two lattice points: the larger of the
row offset and the column offset. -/
def chebyshev (a b : GridPoint) : ℕ := max (b.row - a.row).natAbs (b.col - a.col).natAbs

/-- One step of a route: both cells are on the grid, and the row and the
column each move by the sign of the offset that remains to the target. -/
def signStep (target : GridPoint) (a b : ℤ) : Bool :=
  match gridAt a, gridAt b with
  | some p, some q =>
    decide (q.row = p.row + Int.sign (target.row - p.row)) &&
      decide (q.col = p.col + Int.sign (target.col - p.col)) &&
      decide ((q.row - p.row).natAbs ≤ 1) && decide ((q.col - p.col).natAbs ≤ 1) &&
      decide (chebyshev q target + 1 = chebyshev p target)
  | _, _ => false

/-- Two cells a king move apart: both on the grid, rows and columns at most
one apart. -/
def kingAdjacent (a b : ℤ) : Bool :=
  match gridAt a, gridAt b with
  | some p, some q => decide ((q.row - p.row).natAbs ≤ 1) && decide ((q.col - p.col).natAbs ≤ 1)
  | _, _ => false

/-- Two cells one lattice step apart along a row or along a column, not both. -/
def rookStep (a b : ℤ) : Bool :=
  match gridAt a, gridAt b with
  | some p, some q =>
    decide ((q.row - p.row).natAbs + (q.col - p.col).natAbs = 1)
  | _, _ => false

/-- A path of king moves from `start` to `dest`. -/
def IsKingPath (start dest : ℤ) (path : List ℤ) : Prop :=
  path.head? = some start ∧ path.getLast? = some dest ∧
    path.Chain' (fun a b => kingAdjacent a b = true)

/-- What holds of a ground scene between two `render` calls: the generator is
in a state of its cycle, the route has at least two entries, all of them grid
indices, and `segmentIndex` points at an entry that has a successor. -/
def GroundInv (st : GroundState) : Prop :=
  (1 ≤ st.value ∧ st.value < 2147483647) ∧ 2 ≤ st.route.length ∧
    (∀ e ∈ st.route, 0 ≤ e ∧ e < 60) ∧ st.segmentIndex + 2 ≤ st.route.length

/-! ## Visibility scene: pulses

The closure state of `createVisibilityScene` that bears on the pulses: the
state of the generator `random`, the array `pulses`, `state.nextPulse` and
`state.cardIndex`. The module variable `prefersReducedMotion` and whether
`state.cardStack` is found in the document are inputs of each call. -/

/-- An entry `{ nx, ny, start, seed }` of `pulses`; `seedTurns` is the drawn
number, `seed` being `seedTurns * TAU`. -/
structure Pulse where
  nx : ℚ
  ny : ℚ
  start : ℚ
  seedTurns : ℚ
  deriving DecidableEq, Repr

/-- The closure state of a visibility scene. -/
structure VisibilityState where
  value : ℤ
  pulses : List Pulse
  nextPulse : ℚ
  cardIndex : ℕ
  deriving DecidableEq, Repr

/-- The seed of `makeRandom(52)` in `createVisibilityScene`. -/
def visibilitySeed : ℤ := 52

/-- The state when `createVisibilityScene` returns: the 64 field dots have
consumed five draws each. -/
def VisibilityState.initial : VisibilityState :=
  { value := valueAfter visibilitySeed (64 * 5), pulses := [], nextPulse := 0, cardIndex := 0 }

/-- `pulseDuration` of the visibility scene's `render`. -/
def pulseDuration : ℚ := 1500

/-- `spawnCards(nx, ny, w, h)`, as far as the closure state goes: without a
card stack nothing is drawn; with one, `count` cards are made, each with four
draws, and `count` itself is drawn unless motion is reduced. -/
def spawnCards (prefersReducedMotion cardStack : Bool) (st : VisibilityState) :
    VisibilityState :=
  if cardStack then
    let value := if prefersReducedMotion then st.value else nextValue st.value
    let count : ℕ :=
      if prefersReducedMotion then 1 else 2 + ⌊randomOutput value * 3⌋.toNat
    { st with value := nextValue^[4 * count] value, cardIndex := st.cardIndex + count }
  else st

/-- `spawnPulse(time, w, h)`: three draws, a push, and a `shift` when the
array has grown beyond 7 entries. -/
def spawnPulse (prefersReducedMotion cardStack : Bool) (time : ℚ) (st : VisibilityState) :
    VisibilityState :=
  let v1 := nextValue st.value
  let nx := 16 / 100 + randomOutput v1 * (68 / 100)
  let v2 := nextValue v1
  let ny := 22 / 100 + randomOutput v2 * (56 / 100)
  let v3 := nextValue v2
  let pushed := st.pulses ++ [{ nx := nx, ny := ny, start := time, seedTurns := randomOutput v3 }]
  let pulses := if pushed.length > 7 then pushed.tail else pushed
  spawnCards prefersReducedMotion cardStack { st with value := v3, pulses := pulses }

/-- The block `if (!paused) { ... }` of the visibility scene's `render`. -/
def spawnStep (prefersReducedMotion cardStack : Bool) (a : RenderArgs) (st : VisibilityState) :
    VisibilityState :=
  if a.paused then st
  else
    let st1 := if st.nextPulse = 0 then { st with nextPulse := a.time + 300 } else st
    let slow := prefersReducedMotion || a.lowPower
    let value := if slow then st1.value else nextValue st1.value
    let interval : ℚ := if slow then 1800 else 700 + randomOutput value * 500
    let st2 := { st1 with value := value }
    if a.time ≥ st2.nextPulse then
      { spawnPulse prefersReducedMotion cardStack a.time st2 with
        nextPulse := a.time + interval }
    else st2

/-- The loop `for (let i = pulses.length - 1; i >= 0; i -= 1)` of the
visibility scene's `render`, as far as the array goes: the first argument is
`i + 1`; `none` stands for reading `start` of an `undefined` entry. -/
def pruneLoop (time : ℚ) : ℕ → List Pulse → Option (List Pulse)
  | 0, pulses => some pulses
  | i + 1, pulses =>
    match pulses.get? i with
    | none => none
    | some pulse =>
      let age := time - pulse.start
      let progress := age / pulseDuration
      if progress > 135 / 100 then pruneLoop time i (pulses.eraseIdx i)
      else pruneLoop time i pulses

/-- The state part of the visibility scene's `render`. -/
def visibilityRender (prefersReducedMotion cardStack : Bool) (a : RenderArgs)
    (st : VisibilityState) : Option VisibilityState :=
  let st1 := spawnStep prefersReducedMotion cardStack a st
  match pruneLoop a.time st1.pulses.length st1.pulses with
  | none => none
  | some pulses => some { st1 with pulses := pulses }

/-- A sequence of `render` calls of the visibility scene; each call comes with
the value of `prefersReducedMotion` and whether the card stack is there. -/
def visibilityRun : List (Bool × Bool × RenderArgs) → VisibilityState → Option VisibilityState
  | [], st => some st
  | (prefersReducedMotion, cardStack, a) :: calls, st =>
    match visibilityRender prefersReducedMotion cardStack a st with
    | none => none
    | some st1 => visibilityRun calls st1

/-- Render arguments of an unpaused frame at elapsed time `time` on a
640 x 480 canvas. -/
def plainFrame (time : ℚ) : RenderArgs :=
  { w := 640, h := 480, time := time,
    pointer := { x := 0, y := 0, tx := 0, ty := 0, active := false },
    paused := false, lowPower := false }

/-! # Theorems -/

/-! ## Lemmas on the performance governor -/

/-- The window after one call: the new sample is pushed and the oldest one is
dropped once the window would exceed 45 samples. -/
theorem updatePerformance_frameTimes (g : Governor) (dt : ℚ) :
    (updatePerformance g dt).frameTimes =
      if (g.frameTimes ++ [dt]).length > 45 then (g.frameTimes ++ [dt]).tail
      else g.frameTimes ++ [dt] := by
  unfold updatePerformance
  simp only []
  split_ifs <;> rfl

/-- The flag after one call: it keeps its value, or becomes true when the window
holds 45 samples whose mean exceeds 42. -/
theorem updatePerformance_lowPower (g : Governor) (dt : ℚ) :
    (updatePerformance g dt).lowPower =
      (g.lowPower || (decide ((updatePerformance g dt).frameTimes.length = 45) &&
        decide (42 < (updatePerformance g dt).frameTimes.sum / 45))) := by
  rw [updatePerformance_frameTimes]
  unfold updatePerformance
  simp only [List.sum_eq_foldl]
  generalize (if (g.frameTimes ++ [dt]).length > 45 then (g.frameTimes ++ [dt]).tail
      else g.frameTimes ++ [dt]) = window
  cases hl : g.lowPower
  · by_cases h45 : window.length = 45
    · by_cases hav : 42 < List.foldl (fun x1 x2 => x1 + x2) 0 window / 45
      · simp [h45, hav]
      · simp [h45, hav]
    · simp [h45]
  · simp

theorem feed_append (g : Governor) (xs ys : List ℚ) :
    feed g (xs ++ ys) = feed (feed g xs) ys := by
  simp [feed, List.foldl_append]

theorem feed_snoc (g : Governor) (xs : List ℚ) (dt : ℚ) :
    feed g (xs ++ [dt]) = updatePerformance (feed g xs) dt := by
  simp [feed, List.foldl_append]

/-- The low-power flag is never cleared by `updatePerformance`. -/
theorem feed_lowPower_of_lowPower (g : Governor) (dts : List ℚ) (h : g.lowPower = true) :
    (feed g dts).lowPower = true := by
  induction dts using List.reverseRecOn with
  | nil => simpa [feed] using h
  | append_singleton xs dt ih =>
    rw [feed_snoc, updatePerformance_lowPower, ih]
    rfl

/-- From page load, the window holds the last 45 samples fed (all of them while
fewer than 45 have been fed). -/
theorem feed_initial_frameTimes (dts : List ℚ) :
    (feed Governor.initial dts).frameTimes = dts.drop (dts.length - 45) := by
  induction dts using List.reverseRecOn with
  | nil => rfl
  | append_singleton xs dt ih =>
    rw [feed_snoc, updatePerformance_frameTimes, ih]
    by_cases hlen : 45 ≤ xs.length
    · have h1 : (List.drop (xs.length - 45) xs ++ [dt]).length > 45 := by
        simp only [List.length_append, List.length_drop, List.length_singleton]
        omega
      rw [if_pos h1]
      have h2 : xs.length - 45 < xs.length := by omega
      have h3 : List.drop (xs.length - 45) xs ≠ [] := by
        intro h
        have := congrArg List.length h
        simp only [List.length_drop, List.length_nil] at this
        omega
      rw [List.tail_append_of_ne_nil h3, List.tail_drop]
      have h4 : (xs ++ [dt]).length - 45 = xs.length - 45 + 1 := by
        simp only [List.length_append, List.length_singleton]
        omega
      rw [h4, List.drop_append_of_le_length (by omega)]
    · have h1 : ¬ (List.drop (xs.length - 45) xs ++ [dt]).length > 45 := by
        simp only [List.length_append, List.length_drop, List.length_singleton]
        omega
      rw [if_neg h1]
      have h4 : (xs ++ [dt]).length - 45 = 0 := by
        simp only [List.length_append, List.length_singleton]
        omega
      have h5 : xs.length - 45 = 0 := by omega
      rw [h4, h5]
      rfl

/-- From page load, the flag is still false while fewer than 45 samples have been fed. -/
theorem feed_initial_lowPower_false (dts : List ℚ) (h : dts.length < 45) :
    (feed Governor.initial dts).lowPower = false := by
  induction dts using List.reverseRecOn with
  | nil => rfl
  | append_singleton xs dt ih =>
    have hx : xs.length < 44 := by
      simp only [List.length_append, List.length_singleton] at h
      omega
    rw [feed_snoc, updatePerformance_lowPower, ih (by omega), ← feed_snoc, feed_initial_frameTimes]
    have hne : (List.drop ((xs ++ [dt]).length - 45) (xs ++ [dt])).length ≠ 45 := by
      simp only [List.length_append, List.length_drop, List.length_singleton]
      omega
    rw [decide_eq_false hne]
    rfl

/-! ## Lemmas on the scheduler -/

/-- The scene loop maps the loop body over the scenes: the overlay text is the
only thing threaded from one scene to the next. -/
theorem tickScenes_fst {σ : Type} (p s l : Bool) (dt : ℚ) (scenes : List (Scene σ))
    (overlay : Option String) :
    (tickScenes p s l dt scenes overlay).1
      = scenes.map (fun scene => (tickScene p s l dt scene).1) := by
  induction scenes generalizing overlay with
  | nil => rfl
  | cons scene rest ih => simp [tickScenes, ih]

theorem tick_scenes {σ : Type} (rt : Runtime σ) (now : ℚ) :
    (tick rt now).scenes = rt.scenes.map (fun scene =>
      (tickScene rt.prefersReducedMotion rt.scrolling (tickGovernor rt now).lowPower
        (frameDelta rt now) scene).1) := by
  simp [tick, tickScenes_fst]

/-- The clock of a scene after the loop body. -/
theorem tickScene_time {σ : Type} (p s l : Bool) (dt : ℚ) (scene : Scene σ) :
    (tickScene p s l dt scene).1.time = scene.time + if (p || s || l) then 0 else dt := by
  unfold tickScene
  cases hp : (p || s || l)
  · simp
    split <;> simp
  · simp
    split
    · simp
    · split <;> simp

/-- The loop body does not replace the `render` closure of a scene. -/
theorem tickScene_render {σ : Type} (p s l : Bool) (dt : ℚ) (scene : Scene σ) :
    (tickScene p s l dt scene).1.render = scene.render := by
  unfold tickScene
  cases hp : (p || s || l)
  · simp
    split <;> simp
  · simp
    split
    · simp
    · split <;> simp

/-- The render log of a scene after the loop body: unchanged when the body
returns early, extended by the argument record of the call otherwise. -/
theorem tickScene_renderLog {σ : Type} (p s l : Bool) (dt : ℚ) (scene : Scene σ) :
    (tickScene p s l dt scene).1.renderLog =
      if ((p || s || l) && scene.pausedFrameRendered && !scene.needsRender) = true
      then scene.renderLog
      else scene.renderLog ++
        [{ w := scene.w, h := scene.h,
           time := scene.time + (if (p || s || l) then 0 else dt),
           pointer :=
            { scene.pointer with
              x := scene.pointer.x + (scene.pointer.tx - scene.pointer.x) * (8 / 100),
              y := scene.pointer.y + (scene.pointer.ty - scene.pointer.y) * (8 / 100) },
           paused := (p || s || l), lowPower := l }] := by
  unfold tickScene
  cases hp : (p || s || l)
  · simp
    split <;> simp
  · simp
    split
    · simp_all
    · split <;> simp_all

/-- After a paused tick a scene whose `render` never throws has
`needsRender = false` and `pausedFrameRendered = true`. -/
theorem tickScene_flags_of_quiet {σ : Type} (p s l : Bool) (dt : ℚ) (scene : Scene σ)
    (hp : (p || s || l) = true) (hq : ∀ a pr, (scene.render a pr).2 = none) :
    (tickScene p s l dt scene).1.needsRender = false ∧
    (tickScene p s l dt scene).1.pausedFrameRendered = true := by
  unfold tickScene
  simp only [hp, hq]
  by_cases h : scene.pausedFrameRendered = true ∧ scene.needsRender = false
  · simp [h.1, h.2]
  · simp
    split
    · simp_all
    · simp_all

/-- What one paused tick does to the render log and the clock of a scene. -/
theorem tickScene_paused_step {σ : Type} (p s l : Bool) (dt : ℚ) (scene : Scene σ)
    (hp : (p || s || l) = true) :
    (tickScene p s l dt scene).1.time = scene.time ∧
    ((scene.pausedFrameRendered = false ∨ scene.needsRender = true) →
      ∃ a, (tickScene p s l dt scene).1.renderLog = scene.renderLog ++ [a] ∧
        a.paused = true ∧ a.lowPower = l ∧ a.time = scene.time ∧
        a.w = scene.w ∧ a.h = scene.h) ∧
    (¬ (scene.pausedFrameRendered = false ∨ scene.needsRender = true) →
      (tickScene p s l dt scene).1.renderLog = scene.renderLog) := by
  refine ⟨?_, ?_, ?_⟩
  · rw [tickScene_time, hp]
    simp
  · intro h
    rw [tickScene_renderLog, hp]
    have hc : ¬ ((true && scene.pausedFrameRendered && !scene.needsRender) = true) := by
      rcases h with h | h <;> simp [h]
    rw [if_neg hc]
    exact ⟨_, rfl, rfl, rfl, by simp, rfl, rfl⟩
  · intro h
    rw [tickScene_renderLog, hp]
    have hc : (true && scene.pausedFrameRendered && !scene.needsRender) = true := by
      cases h1 : scene.pausedFrameRendered <;> cases h2 : scene.needsRender <;> simp_all
    rw [if_pos hc]

/-- When reduced motion holds the loop body ignores `scrolling` and the frame delta. -/
theorem tickScene_paused_eq {σ : Type} (s l : Bool) (dt : ℚ) (scene : Scene σ) :
    tickScene true s l dt scene = tickScene true false l 0 scene := by
  unfold tickScene
  simp

/-- A scene whose `needsRender` flag is set is rendered by the next tick,
paused or not, with its current size. -/
theorem tickScene_of_needsRender {σ : Type} (p s l : Bool) (dt : ℚ) (scene : Scene σ)
    (h : scene.needsRender = true) :
    ∃ a, (tickScene p s l dt scene).1.renderLog = scene.renderLog ++ [a] ∧
      a.w = scene.w ∧ a.h = scene.h ∧ a.paused = (p || s || l) := by
  rw [tickScene_renderLog]
  have hc : ¬ (((p || s || l) && scene.pausedFrameRendered && !scene.needsRender) = true) := by
    simp [h]
  rw [if_neg hc]
  exact ⟨_, rfl, rfl, rfl, rfl⟩

theorem tickGovernor_of_reduced {σ : Type} (rt : Runtime σ) (now : ℚ)
    (h : rt.prefersReducedMotion = true) : tickGovernor rt now = rt.gov := by
  simp [tickGovernor, h]

theorem tick_lastTime {σ : Type} (rt : Runtime σ) (now : ℚ) : (tick rt now).lastTime = now := rfl

/-- One tick whose timestamp is not before `lastTime` decreases no clock. -/
theorem tick_time_le {σ : Type} (rt : Runtime σ) (now : ℚ) (h : rt.lastTime ≤ now) :
    List.Forall₂ (fun s s' : Scene σ => s.time ≤ s'.time) rt.scenes (tick rt now).scenes := by
  rw [tick_scenes, List.forall₂_map_right_iff, List.forall₂_same]
  intro scene _
  rw [tickScene_time]
  have hdt : 0 ≤ frameDelta rt now := by
    unfold frameDelta
    exact le_min (by norm_num) (by linarith)
  split <;> linarith

theorem run_cons {σ : Type} (rt : Runtime σ) (now : ℚ) (nows : List ℚ) :
    run rt (now :: nows) = run (tick rt now) nows := rfl

/-- Along a non-decreasing sequence of timestamps every clock is non-decreasing. -/
theorem run_time_mono {σ : Type} (nows : List ℚ) :
    ∀ (rt : Runtime σ), List.Chain (· ≤ ·) rt.lastTime nows → ∀ k : ℕ,
      List.Forall₂ (fun s s' : Scene σ => s.time ≤ s'.time)
        (run rt (nows.take k)).scenes (run rt (nows.take (k + 1))).scenes := by
  induction nows with
  | nil =>
    intro rt _ k
    simp only [List.take_nil, run, List.foldl_nil]
    rw [List.forall₂_same]
    intro _ _
    exact le_refl _
  | cons now rest ih =>
    intro rt hchain k
    rw [List.chain_cons] at hchain
    cases k with
    | zero =>
      simp only [List.take_zero, List.take_succ_cons, List.take_zero, run, List.foldl_nil,
        List.foldl_cons]
      exact tick_time_le rt now hchain.1
    | succ k =>
      simp only [List.take_succ_cons, run_cons]
      exact ih (tick rt now) (by rw [tick_lastTime]; exact hchain.2) k

/-- While reduced motion holds, a run of ticks iterates the paused loop body on
every scene and leaves the governor alone. -/
theorem run_of_reduced {σ : Type} (nows : List ℚ) :
    ∀ rt : Runtime σ, rt.prefersReducedMotion = true →
      (run rt nows).scenes = rt.scenes.map
        (fun scene => (fun sc => (tickScene true false rt.gov.lowPower 0 sc).1)^[nows.length] scene) ∧
      (run rt nows).prefersReducedMotion = true ∧ (run rt nows).gov = rt.gov := by
  induction nows with
  | nil =>
    intro rt h
    simp [run, h]
  | cons now rest ih =>
    intro rt h
    have hg : (tick rt now).gov = rt.gov := tickGovernor_of_reduced rt now h
    have hp : (tick rt now).prefersReducedMotion = true := h
    obtain ⟨h1, h2, h3⟩ := ih (tick rt now) hp
    rw [run_cons]
    refine ⟨?_, h2, h3.trans hg⟩
    rw [h1, tick_scenes, List.map_map, hg, h, tickGovernor_of_reduced rt now h]
    apply List.map_congr_left
    intro scene _
    simp only [Function.comp, List.length_cons, Function.iterate_succ_apply]
    rw [tickScene_paused_eq]

/-- Paused ticks leave a scene alone once it has rendered its paused frame and
no re-render is requested. -/
theorem pausedIter_stable {σ : Type} (l : Bool) (sc : Scene σ)
    (hq : ∀ a pr, (sc.render a pr).2 = none)
    (hprf : sc.pausedFrameRendered = true) (hnr : sc.needsRender = false) (n : ℕ) :
    ((fun sc => (tickScene true false l 0 sc).1)^[n] sc).renderLog = sc.renderLog ∧
    ((fun sc => (tickScene true false l 0 sc).1)^[n] sc).time = sc.time ∧
    ((fun sc => (tickScene true false l 0 sc).1)^[n] sc).pausedFrameRendered = true ∧
    ((fun sc => (tickScene true false l 0 sc).1)^[n] sc).needsRender = false ∧
    ((fun sc => (tickScene true false l 0 sc).1)^[n] sc).render = sc.render := by
  induction n with
  | zero => exact ⟨rfl, rfl, hprf, hnr, rfl⟩
  | succ n ih =>
    obtain ⟨h1, h2, h3, h4, h5⟩ := ih
    rw [Function.iterate_succ_apply']
    have hq2 : ∀ a pr, (((fun sc => (tickScene true false l 0 sc).1)^[n] sc).render a pr).2 = none := by
      rw [h5]; exact hq
    have hp : (true || false || l) = true := rfl
    obtain ⟨k1, -, k3⟩ := tickScene_paused_step true false l 0 _ hp
    obtain ⟨f1, f2⟩ := tickScene_flags_of_quiet true false l 0 _ hp hq2
    refine ⟨?_, k1.trans h2, f2, f1, (tickScene_render _ _ _ _ _).trans h5⟩
    rw [k3 (by simp [h3, h4]), h1]

/-- A scene with `needsRender` set is rendered exactly once by any positive
number of paused ticks. -/
theorem pausedIter_render {σ : Type} (l : Bool) (sc : Scene σ)
    (hq : ∀ a pr, (sc.render a pr).2 = none) (hnr : sc.needsRender = true) (n : ℕ) :
    ((fun sc => (tickScene true false l 0 sc).1)^[n + 1] sc).time = sc.time ∧
    ((fun sc => (tickScene true false l 0 sc).1)^[n + 1] sc).render = sc.render ∧
    ∃ a, ((fun sc => (tickScene true false l 0 sc).1)^[n + 1] sc).renderLog = sc.renderLog ++ [a] ∧
      a.paused = true ∧ a.lowPower = l ∧ a.time = sc.time ∧ a.w = sc.w ∧ a.h = sc.h := by
  rw [Function.iterate_succ_apply]
  have hp : (true || false || l) = true := rfl
  obtain ⟨k1, k2, -⟩ := tickScene_paused_step true false l 0 sc hp
  obtain ⟨f1, f2⟩ := tickScene_flags_of_quiet true false l 0 sc hp hq
  have hr := tickScene_render true false l 0 sc
  obtain ⟨s1, s2, -, -, s5⟩ := pausedIter_stable l (tickScene true false l 0 sc).1
    (by rw [hr]; exact hq) f2 f1 n
  obtain ⟨a, ha, hrest⟩ := k2 (Or.inr hnr)
  exact ⟨s2.trans k1, s5.trans hr, a, s1.trans ha, hrest⟩

/-- The size, the flag and the render log of a scene after `resizeScene`. -/
theorem resizeScene_fields {σ : Type} (d : Option ℚ) (scene : Scene σ) (width height : ℚ) :
    (resizeScene d scene width height).w = max 1 (⌊width⌋ : ℚ) ∧
    (resizeScene d scene width height).h = max 1 (⌊height⌋ : ℚ) ∧
    (resizeScene d scene width height).needsRender = true ∧
    (resizeScene d scene width height).renderLog = scene.renderLog := by
  unfold resizeScene
  cases scene.onResize <;> simp

/-! ## Lemmas on the relaxation loop of the charter scene -/

theorem relaxRing_length (M : JsMath) (fr : CharterFrame) (t : ℚ) (radii : List ℚ) (i : ℕ) :
    (relaxRing M fr t radii i).length = radii.length := by
  simp [relaxRing]

/-- The loop body for ring `i` leaves every other ring alone. -/
theorem relaxRing_getD_of_ne (M : JsMath) (fr : CharterFrame) (t : ℚ) (radii : List ℚ)
    (i j : ℕ) (h : i ≠ j) : (relaxRing M fr t radii i).getD j 0 = radii.getD j 0 := by
  simp [relaxRing, List.getD_eq_getElem?_getD, List.getElem?_set_ne h]

/-- The loop body for ring `i` moves ring `i` by 0.12 of its distance to the target. -/
theorem relaxRing_getD_self (M : JsMath) (fr : CharterFrame) (t : ℚ) (radii : List ℚ)
    (i : ℕ) (h : i < radii.length) :
    (relaxRing M fr t radii i).getD i 0
      = radii.getD i 0 + (ringTarget M fr t radii i - radii.getD i 0) * (12 / 100) := by
  simp [relaxRing, List.getD_eq_getElem?_getD, List.getElem?_set_self, h]

theorem foldl_relaxRing_getD_of_not_mem (M : JsMath) (fr : CharterFrame) (t : ℚ) (is : List ℕ)
    (j : ℕ) (h : j ∉ is) :
    ∀ radii : List ℚ, (is.foldl (relaxRing M fr t) radii).getD j 0 = radii.getD j 0 := by
  induction is with
  | nil => intro radii; rfl
  | cons i rest ih =>
    intro radii
    rw [List.foldl_cons, ih (fun hmem => h (List.mem_cons_of_mem _ hmem)),
      relaxRing_getD_of_ne]
    intro hij
    exact h (hij ▸ List.mem_cons_self _ _)

theorem foldl_relaxRing_length (M : JsMath) (fr : CharterFrame) (t : ℚ) (is : List ℕ) :
    ∀ radii : List ℚ, (is.foldl (relaxRing M fr t) radii).length = radii.length := by
  induction is with
  | nil => intro radii; rfl
  | cons i rest ih =>
    intro radii
    rw [List.foldl_cons, ih, relaxRing_length]

theorem range_ringCount : List.range ringCount = [0, 1, 2, 3, 4, 5, 6, 7, 8] := by decide

/-- Ring 0 after one pass of the relaxation loop. -/
theorem pass_getD_zero (M : JsMath) (fr : CharterFrame) (t : ℚ) (radii : List ℚ)
    (h : 0 < radii.length) :
    ((List.range ringCount).foldl (relaxRing M fr t) radii).getD 0 0
      = radii.getD 0 0 + (ringTarget M fr t radii 0 - radii.getD 0 0) * (12 / 100) := by
  rw [range_ringCount, List.foldl_cons,
    foldl_relaxRing_getD_of_not_mem M fr t _ 0 (by decide), relaxRing_getD_self M fr t radii 0 h]

/-- Ring 1 after one pass of the relaxation loop: its target reads the updated ring 0. -/
theorem pass_getD_one (M : JsMath) (fr : CharterFrame) (t : ℚ) (radii : List ℚ)
    (h : 1 < radii.length) :
    ((List.range ringCount).foldl (relaxRing M fr t) radii).getD 1 0
      = radii.getD 1 0 +
        (ringTarget M fr t (relaxRing M fr t radii 0) 1 - radii.getD 1 0) * (12 / 100) := by
  rw [range_ringCount, List.foldl_cons, List.foldl_cons,
    foldl_relaxRing_getD_of_not_mem M fr t _ 1 (by decide),
    relaxRing_getD_self M fr t _ 1 (by rw [relaxRing_length]; exact h),
    relaxRing_getD_of_ne M fr t radii 0 1 (by decide)]

/-- The instance `JsMath.flat` meets `JsMath.Sound`. -/
theorem JsMath.flat_sound : JsMath.flat.Sound := by
  refine ⟨fun _ => ⟨by norm_num [JsMath.flat], by norm_num [JsMath.flat]⟩,
    fun _ => ⟨by norm_num [JsMath.flat], by norm_num [JsMath.flat]⟩,
    fun a b => Rat.sqrt_nonneg _, ?_⟩
  intro a b c hc h
  show Rat.sqrt (a * a + b * b) = c
  rw [← h, Rat.sqrt_eq, abs_of_nonneg hc]

/-- The frame constants on a 300 x 400 canvas with an active pointer at (3/4, 3/4). -/
theorem charterFrame_demo (M : JsMath) (hM : M.Sound) (t : ℚ) :
    charterFrame M (pointerFrame 300 400 t (3 / 4) (3 / 4)) = demoFrame := by
  have h1 : M.hypot 300 400 = 500 := hM.2.2.2 300 400 500 (by norm_num) (by norm_num)
  have h2 : M.hypot (81 / 2) 54 = 135 / 2 :=
    hM.2.2.2 (81 / 2) 54 (135 / 2) (by norm_num) (by norm_num)
  have e1 : (150 : ℚ) + 3 / 4 * 300 * (18 / 100) - 150 = 81 / 2 := by norm_num
  have e2 : (200 : ℚ) + 3 / 4 * 400 * (18 / 100) - 200 = 54 := by norm_num
  simp only [charterFrame, pointerFrame, ringCount, if_true, demoFrame]
  norm_num [h1, h2, e1, e2]

/-- On that frame the target of ring 0 is the dot clearance `desiredDist + dotPadding` = 84.8. -/
theorem ringTarget_demo_zero (M : JsMath) (hM : M.Sound) (t : ℚ) (radii : List ℚ) :
    ringTarget M demoFrame t radii 0 = 424 / 5 := by
  obtain ⟨s1, s2⟩ := hM.1 (t * (3 / 10000) + ((0 : ℕ) : ℚ) * (14 / 10))
  obtain ⟨c1, c2⟩ := hM.2.1 (t * (17 / 100000) + ((0 : ℕ) : ℚ) * (9 / 10))
  have hclamp : clamp (1 - |(135 / 2 : ℚ) - (24 + 113 / 4 * ((0 : ℕ) : ℚ))| / (1243 / 20)) 0 1
      = 373 / 1243 := by
    have habs : |(135 / 2 : ℚ) - (24 + 113 / 4 * ((0 : ℕ) : ℚ))| = 87 / 2 := by
      rw [abs_of_nonneg] <;> norm_num
    rw [habs]
    norm_num [clamp]
  simp only [ringTarget, demoFrame, if_true, hclamp]
  have e : (135 / 2 : ℚ) + 173 / 10 = 424 / 5 := by norm_num
  rw [e]
  apply max_eq_right
  generalize M.sin (t * (3 / 10000) + ((0 : ℕ) : ℚ) * (14 / 10)) = s at s1 s2 ⊢
  generalize M.cos (t * (17 / 100000) + ((0 : ℕ) : ℚ) * (9 / 10)) = c at c1 c2 ⊢
  norm_num
  linarith

/-- On that frame the target of ring 1 is at most 59, or the gap clamp when that is larger. -/
theorem ringTarget_demo_one (M : JsMath) (hM : M.Sound) (t : ℚ) (radii : List ℚ) :
    ringTarget M demoFrame t radii 1 ≤ max 59 (radii.getD 0 0 + 1469 / 80) := by
  obtain ⟨s1, s2⟩ := hM.1 (t * (3 / 10000) + ((1 : ℕ) : ℚ) * (14 / 10))
  obtain ⟨c1, c2⟩ := hM.2.1 (t * (17 / 100000) + ((1 : ℕ) : ℚ) * (9 / 10))
  have hclamp : clamp (1 - |(135 / 2 : ℚ) - (24 + 113 / 4 * ((1 : ℕ) : ℚ))| / (1243 / 20)) 0 1
      = 938 / 1243 := by
    have habs : |(135 / 2 : ℚ) - (24 + 113 / 4 * ((1 : ℕ) : ℚ))| = 61 / 4 := by
      rw [abs_of_nonneg] <;> norm_num
    rw [habs]
    norm_num [clamp]
  simp only [ringTarget, demoFrame, hclamp, if_neg (by decide : ¬ (1 = 0)), Nat.sub_self]
  apply max_le_max _ (le_refl _)
  generalize M.sin (t * (3 / 10000) + ((1 : ℕ) : ℚ) * (14 / 10)) = s at s1 s2 ⊢
  generalize M.cos (t * (17 / 100000) + ((1 : ℕ) : ℚ) * (9 / 10)) = c at c1 c2 ⊢
  norm_num
  linarith

/-- The first render on that frame: rings 0 and 1 after the reset and one pass. -/
theorem charterRender_demo_first (M : JsMath) (hM : M.Sound) (t : ℚ) :
    (charterRender M (pointerFrame 300 400 t (3 / 4) (3 / 4)) CharterState.initial).lastW = 300 ∧
    (charterRender M (pointerFrame 300 400 t (3 / 4) (3 / 4)) CharterState.initial).lastH = 400 ∧
    (charterRender M (pointerFrame 300 400 t (3 / 4) (3 / 4))
      CharterState.initial).ringRadii.length = 9 ∧
    (charterRender M (pointerFrame 300 400 t (3 / 4) (3 / 4))
      CharterState.initial).ringRadii.getD 0 0 = 3912 / 125 ∧
    (charterRender M (pointerFrame 300 400 t (3 / 4) (3 / 4))
      CharterState.initial).ringRadii.getD 1 0 ≤ 2653 / 50 := by
  have hreset : resetRings demoFrame (pointerFrame 300 400 t (3 / 4) (3 / 4)) CharterState.initial
      = { ringRadii := [24, 209 / 4, 161 / 2, 435 / 4, 137, 661 / 4, 387 / 2, 887 / 4, 250],
          lastW := 300, lastH := 400 } := by
    simp only [resetRings, range_ringCount, CharterState.initial, pointerFrame,
      demoFrame, List.foldl_cons, List.foldl_nil]
    norm_num [ringCount, List.replicate]
  have hrender : charterRender M (pointerFrame 300 400 t (3 / 4) (3 / 4)) CharterState.initial
      = { ringRadii := (List.range ringCount).foldl (relaxRing M demoFrame t)
            [24, 209 / 4, 161 / 2, 435 / 4, 137, 661 / 4, 387 / 2, 887 / 4, 250],
          lastW := 300, lastH := 400 } := by
    unfold charterRender
    simp only [charterFrame_demo M hM, hreset]
    rfl
  rw [hrender]
  refine ⟨rfl, rfl, ?_, ?_, ?_⟩
  · show List.length (List.foldl _ _ _) = 9
    rw [foldl_relaxRing_length]
    rfl
  · show List.getD (List.foldl _ _ _) 0 0 = _
    rw [pass_getD_zero _ _ _ _ (by simp), ringTarget_demo_zero M hM]
    norm_num
  · show List.getD (List.foldl _ _ _) 1 0 ≤ _
    rw [pass_getD_one _ _ _ _ (by simp)]
    have hT := ringTarget_demo_one M hM t
      (relaxRing M demoFrame t [24, 209 / 4, 161 / 2, 435 / 4, 137, 661 / 4, 387 / 2, 887 / 4,
        250] 0)
    rw [relaxRing_getD_self _ _ _ _ _ (by simp), ringTarget_demo_zero M hM] at hT
    have hmax : max (59 : ℚ) (([24, 209 / 4, 161 / 2, 435 / 4, 137, 661 / 4, 387 / 2, 887 / 4,
        250] : List ℚ).getD 0 0 + (424 / 5 - ([24, 209 / 4, 161 / 2, 435 / 4, 137, 661 / 4,
        387 / 2, 887 / 4, 250] : List ℚ).getD 0 0) * (12 / 100) + 1469 / 80) = 59 := by
      norm_num
    rw [hmax] at hT
    have hr1 : ([24, 209 / 4, 161 / 2, 435 / 4, 137, 661 / 4, 387 / 2, 887 / 4, 250] :
        List ℚ).getD 1 0 = 209 / 4 := rfl
    rw [hr1]
    linarith

/-- The next render on that frame breaks the minimum gap between rings 0 and 1. -/
theorem charterRender_demo_next (M : JsMath) (hM : M.Sound) (t : ℚ) (st : CharterState)
    (hw : st.lastW = 300) (hh : st.lastH = 400) (hlen : st.ringRadii.length = 9)
    (h0 : st.ringRadii.getD 0 0 = 3912 / 125) (h1 : st.ringRadii.getD 1 0 ≤ 2653 / 50) :
    (charterRender M (pointerFrame 300 400 t (3 / 4) (3 / 4)) st).ringRadii.length = 9 ∧
    (charterRender M (pointerFrame 300 400 t (3 / 4) (3 / 4)) st).ringRadii.getD 1 0
      < (charterRender M (pointerFrame 300 400 t (3 / 4) (3 / 4)) st).ringRadii.getD 0 0
        + 1469 / 80 := by
  have hreset : resetRings demoFrame (pointerFrame 300 400 t (3 / 4) (3 / 4)) st = st := by
    unfold resetRings
    rw [if_neg]
    simp only [pointerFrame, hw, hh, h0]
    norm_num
  have hrender : charterRender M (pointerFrame 300 400 t (3 / 4) (3 / 4)) st
      = { st with
          ringRadii := List.foldl (relaxRing M demoFrame t) st.ringRadii (List.range ringCount) } := by
    unfold charterRender
    simp only [charterFrame_demo M hM, hreset]
    rfl
  rw [hrender]
  refine ⟨?_, ?_⟩
  · show List.length (List.foldl _ _ _) = 9
    rw [foldl_relaxRing_length, hlen]
  · show List.getD (List.foldl _ _ _) 1 0 < List.getD (List.foldl _ _ _) 0 0 + _
    rw [pass_getD_zero _ _ _ _ (by omega), pass_getD_one _ _ _ _ (by omega),
      ringTarget_demo_zero M hM, h0]
    have hT := ringTarget_demo_one M hM t (relaxRing M demoFrame t st.ringRadii 0)
    rw [relaxRing_getD_self _ _ _ _ _ (by omega), ringTarget_demo_zero M hM, h0] at hT
    have hmax : max (59 : ℚ) (3912 / 125 + (424 / 5 - 3912 / 125) * (12 / 100) + 1469 / 80)
        = 59 := by norm_num
    rw [hmax] at hT
    linarith

/-! ## Scheduler: fault isolation and visibility -/

/-- C1. Fault isolation in `tick`: replace the scene at one position of the
registry (`failing`, whose render throws) by any other scene (`healthy`, whose
render does not throw). The scenes registered before it and the scenes
registered after it come out of the tick identical in both runs: each is the
result of the loop body on that scene alone (pointer smoothed, clock advanced,
render invoked), and its accumulated time is its old time plus the frame delta,
or plus 0 when the tick is paused. -/
theorem tick_fault_isolation {σ : Type} (rt : Runtime σ) (pre post : List (Scene σ))
    (failing healthy : Scene σ) (now : ℚ) :
    (tick { rt with scenes := pre ++ failing :: post } now).scenes.take pre.length
        = (tick { rt with scenes := pre ++ healthy :: post } now).scenes.take pre.length ∧
    (tick { rt with scenes := pre ++ failing :: post } now).scenes.drop (pre.length + 1)
        = (tick { rt with scenes := pre ++ healthy :: post } now).scenes.drop (pre.length + 1) ∧
    (tick { rt with scenes := pre ++ failing :: post } now).scenes.take pre.length
        = pre.map (fun scene => (tickScene rt.prefersReducedMotion rt.scrolling
            (tickGovernor rt now).lowPower (frameDelta rt now) scene).1) ∧
    (tick { rt with scenes := pre ++ failing :: post } now).scenes.drop (pre.length + 1)
        = post.map (fun scene => (tickScene rt.prefersReducedMotion rt.scrolling
            (tickGovernor rt now).lowPower (frameDelta rt now) scene).1) ∧
    (∀ sibling ∈ pre ++ post,
        (tickScene rt.prefersReducedMotion rt.scrolling (tickGovernor rt now).lowPower
            (frameDelta rt now) sibling).1.time
          = sibling.time + if tickPaused rt now then 0 else min 60 (now - rt.lastTime)) := by
  have key : ∀ middle : Scene σ,
      (tick { rt with scenes := pre ++ middle :: post } now).scenes
        = pre.map (fun scene => (tickScene rt.prefersReducedMotion rt.scrolling
            (tickGovernor rt now).lowPower (frameDelta rt now) scene).1)
          ++ (tickScene rt.prefersReducedMotion rt.scrolling
            (tickGovernor rt now).lowPower (frameDelta rt now) middle).1
          :: post.map (fun scene => (tickScene rt.prefersReducedMotion rt.scrolling
            (tickGovernor rt now).lowPower (frameDelta rt now) scene).1) := by
    intro middle
    rw [tick_scenes]
    simp only [List.map_append, List.map_cons]
    rfl
  have hdrop : ∀ (xs ys : List (Scene σ)) (y : Scene σ), xs.length = pre.length →
      (xs ++ y :: ys).drop (pre.length + 1) = ys := by
    intro xs ys y hlen
    rw [← hlen, List.drop_append]
    rfl
  have htake : ∀ (xs ys : List (Scene σ)) (y : Scene σ), xs.length = pre.length →
      (xs ++ y :: ys).take pre.length = xs := by
    intro xs ys y hlen
    rw [← hlen, List.take_left']
    rfl
  refine ⟨?_, ?_, ?_, ?_, ?_⟩
  · rw [key failing, key healthy, htake _ _ _ (List.length_map _ _),
      htake _ _ _ (List.length_map _ _)]
  · rw [key failing, key healthy, hdrop _ _ _ (List.length_map _ _),
      hdrop _ _ _ (List.length_map _ _)]
  · rw [key failing, htake _ _ _ (List.length_map _ _)]
  · rw [key failing, hdrop _ _ _ (List.length_map _ _)]
  · intro sibling _
    rw [tickScene_time]
    rfl

/-- C2, evaluated on the code: a scene whose render always throws is marked
inactive by its first tick, yet `tick` never reads `active`: after three ticks
its render has been invoked three times. -/
theorem throwing_scene_rendered_again :
    (tick (demoRuntime [demoContainer "throwing"]) 16).scenes.map
        (fun s => (s.active, s.renderLog.length)) = [(false, 1)] ∧
    (run (demoRuntime [demoContainer "throwing"]) [16, 32, 48]).scenes.map
        (fun s => (s.active, s.renderLog.length)) = [(false, 3)] := by
  constructor <;> decide!

/-- C3, evaluated on the code: a scene whose `active` flag was cleared by the
intersection observer still has its clock advanced (by 16 ms) and its render
invoked by the next tick. -/
theorem inactive_scene_still_ticked :
    (onIntersection (demoRuntime [demoContainer "quiet"]) 0 false).scenes.map
        (fun s => (s.active, s.time, s.renderLog.length)) = [(false, 0, 0)] ∧
    (tick (onIntersection (demoRuntime [demoContainer "quiet"]) 0 false) 16).scenes.map
        (fun s => (s.active, s.time, s.renderLog.length)) = [(false, 16, 1)] := by
  constructor <;> decide!

/-! ## Performance governor -/

/-- C4. The low-power flag is a one-way latch: once `lowPower` is true it is
true after every later sequence of calls of `updatePerformance`; 45 deltas of
50 ms set it, and it is still true after 45 further deltas of 10 ms. -/
theorem lowPower_latch :
    (∀ (g : Governor) (dts : List ℚ), g.lowPower = true → (feed g dts).lowPower = true) ∧
    (feed Governor.initial (List.replicate 45 50)).lowPower = true ∧
    (feed (feed Governor.initial (List.replicate 45 50)) (List.replicate 45 10)).lowPower = true := by
  refine ⟨feed_lowPower_of_lowPower, ?_, ?_⟩
  · decide!
  · decide!

/-- C5. Governor trigger: from page load the window holds the most recent
samples, at most 45 of them; one call keeps a window of at most 45 samples
within 45 and makes it the most recent samples; a call made while `lowPower` is
false sets it if and only if the window then holds exactly 45 samples whose mean
is strictly greater than 42; so the flag is false while fewer than 45 samples
have been fed. -/
theorem governor_window_trigger :
    (∀ dts : List ℚ, (feed Governor.initial dts).frameTimes = dts.drop (dts.length - 45)) ∧
    (∀ dts : List ℚ, (feed Governor.initial dts).frameTimes.length ≤ 45) ∧
    (∀ (g : Governor) (dt : ℚ), g.frameTimes.length ≤ 45 →
      (updatePerformance g dt).frameTimes.length ≤ 45 ∧
      (updatePerformance g dt).frameTimes
        = (g.frameTimes ++ [dt]).drop ((g.frameTimes ++ [dt]).length - 45)) ∧
    (∀ (g : Governor) (dt : ℚ), g.lowPower = false →
      ((updatePerformance g dt).lowPower = true ↔
        ((updatePerformance g dt).frameTimes.length = 45 ∧
          42 < (updatePerformance g dt).frameTimes.sum / 45))) ∧
    (∀ dts : List ℚ, dts.length < 45 → (feed Governor.initial dts).lowPower = false) := by
  refine ⟨feed_initial_frameTimes, ?_, ?_, ?_, feed_initial_lowPower_false⟩
  · intro dts
    rw [feed_initial_frameTimes, List.length_drop]
    omega
  · intro g dt hlen
    rw [updatePerformance_frameTimes]
    by_cases h : (g.frameTimes ++ [dt]).length > 45
    · rw [if_pos h]
      have h45 : (g.frameTimes ++ [dt]).length = 46 := by
        simp only [List.length_append, List.length_singleton] at h ⊢
        omega
      refine ⟨?_, ?_⟩
      · simp only [List.length_tail, h45]
        omega
      · rw [h45]
        exact (List.drop_one _).symm
    · rw [if_neg h]
      have h0 : (g.frameTimes ++ [dt]).length - 45 = 0 := by omega
      refine ⟨by omega, ?_⟩
      rw [h0]
      rfl
  · intro g dt hl
    rw [updatePerformance_lowPower g dt, hl]
    simp

/-! ## Scheduler: clocks and the paused render cap -/

/-- C6. Per tick, with `paused` the value computed in the scene loop (reduced
motion or scrolling or `lowPower`, the flag read after the governor was fed),
each scene's clock changes by exactly 0 when paused and by exactly
`min(60, now - lastTime)` otherwise; it never advances by more than 60 in one
tick; and along every non-decreasing sequence of timestamps starting at
`lastTime` it is non-decreasing. -/
theorem tick_clock_advance {σ : Type} (rt : Runtime σ) (now : ℚ) :
    tickPaused rt now
      = (rt.prefersReducedMotion || rt.scrolling || (tick rt now).gov.lowPower) ∧
    (tick rt now).scenes.map (fun s => s.time)
      = rt.scenes.map (fun s => s.time + if tickPaused rt now then 0 else min 60 (now - rt.lastTime)) ∧
    List.Forall₂ (fun s s' : Scene σ => s'.time - s.time ≤ 60) rt.scenes (tick rt now).scenes ∧
    (∀ nows : List ℚ, List.Chain (· ≤ ·) rt.lastTime nows → ∀ k : ℕ,
      List.Forall₂ (fun s s' : Scene σ => s.time ≤ s'.time)
        (run rt (nows.take k)).scenes (run rt (nows.take (k + 1))).scenes) := by
  refine ⟨rfl, ?_, ?_, fun nows h k => run_time_mono nows rt h k⟩
  · rw [tick_scenes, List.map_map]
    apply List.map_congr_left
    intro scene _
    simp only [Function.comp, tickScene_time]
    rfl
  · rw [tick_scenes, List.forall₂_map_right_iff, List.forall₂_same]
    intro scene _
    rw [tickScene_time]
    have hdt : frameDelta rt now ≤ 60 := min_le_left _ _
    split <;> linarith

/-- C7. Paused render cap, for scenes whose render does not throw. In a paused
tick the clock stops and render is invoked if and only if the scene has not
rendered a paused frame yet or `needsRender` is set. When reduced motion flips to
true, any positive number of following ticks invokes render exactly once per
scene, with `paused: true` and the frozen clock; after a re-render request
(scroll settling) any positive number of further ticks invokes it exactly once
more. -/
theorem paused_render_cap {σ : Type} (rt : Runtime σ) (nows later : List ℚ)
    (hquiet : ∀ scene ∈ rt.scenes, ∀ a pr, (scene.render a pr).2 = none)
    (hnows : nows ≠ []) (hlater : later ≠ []) :
    (∀ now : ℚ, tickPaused rt now = true →
      List.Forall₂ (fun s s' : Scene σ =>
          s'.time = s.time ∧
          ((s.pausedFrameRendered = false ∨ s.needsRender = true) →
            ∃ a, s'.renderLog = s.renderLog ++ [a] ∧ a.paused = true ∧ a.time = s.time) ∧
          (¬ (s.pausedFrameRendered = false ∨ s.needsRender = true) →
            s'.renderLog = s.renderLog))
        rt.scenes (tick rt now).scenes) ∧
    List.Forall₂ (fun s s' : Scene σ =>
        s'.time = s.time ∧
        ∃ a, s'.renderLog = s.renderLog ++ [a] ∧ a.paused = true ∧ a.time = s.time)
      rt.scenes (run (handleReduceMotion rt true) nows).scenes ∧
    List.Forall₂ (fun s s' : Scene σ =>
        s'.time = s.time ∧
        ∃ a b, s'.renderLog = s.renderLog ++ [a, b] ∧ a.paused = true ∧ a.time = s.time ∧
          b.paused = true ∧ b.time = s.time)
      rt.scenes
      (run (onScrollSettled (onScroll (run (handleReduceMotion rt true) nows))) later).scenes := by
  obtain ⟨n, hn⟩ : ∃ n, nows.length = n + 1 :=
    ⟨nows.length - 1, by have := List.length_pos.mpr hnows; omega⟩
  obtain ⟨m, hm⟩ : ∃ m, later.length = m + 1 :=
    ⟨later.length - 1, by have := List.length_pos.mpr hlater; omega⟩
  have hA := run_of_reduced nows (handleReduceMotion rt true) rfl
  have hB := run_of_reduced later
    (onScrollSettled (onScroll (run (handleReduceMotion rt true) nows))) hA.2.1
  have hsA : (run (handleReduceMotion rt true) nows).scenes = rt.scenes.map (fun sc =>
      (fun sc => (tickScene true false rt.gov.lowPower 0 sc).1)^[n + 1]
        { sc with needsRender := true }) := by
    rw [hA.1, hn]
    show List.map _ (List.map _ rt.scenes) = _
    rw [List.map_map]
    rfl
  have hgov : (onScrollSettled (onScroll (run (handleReduceMotion rt true) nows))).gov.lowPower
      = rt.gov.lowPower := congrArg Governor.lowPower hA.2.2
  have hsB : (run (onScrollSettled (onScroll (run (handleReduceMotion rt true) nows))) later).scenes
      = rt.scenes.map (fun sc =>
          (fun sc => (tickScene true false rt.gov.lowPower 0 sc).1)^[m + 1]
            { ((fun sc => (tickScene true false rt.gov.lowPower 0 sc).1)^[n + 1]
                { sc with needsRender := true }) with needsRender := true }) := by
    rw [hB.1, hm, hgov]
    show List.map _ (List.map _ (run (handleReduceMotion rt true) nows).scenes) = _
    rw [hsA, List.map_map, List.map_map]
    rfl
  refine ⟨?_, ?_, ?_⟩
  · intro now hp
    rw [tick_scenes, List.forall₂_map_right_iff, List.forall₂_same]
    intro scene _
    obtain ⟨k1, k2, k3⟩ := tickScene_paused_step rt.prefersReducedMotion rt.scrolling
      (tickGovernor rt now).lowPower (frameDelta rt now) scene hp
    refine ⟨k1, ?_, k3⟩
    intro h
    obtain ⟨a, h1, h2, -, h4, -⟩ := k2 h
    exact ⟨a, h1, h2, h4⟩
  · rw [hsA, List.forall₂_map_right_iff, List.forall₂_same]
    intro scene hmem
    obtain ⟨h1, -, a, h3, h4, -, h6, -⟩ := pausedIter_render rt.gov.lowPower
      { scene with needsRender := true } (hquiet scene hmem) rfl n
    exact ⟨h1, a, h3, h4, h6⟩
  · rw [hsB, List.forall₂_map_right_iff, List.forall₂_same]
    intro scene hmem
    obtain ⟨h1, h2, a, h3, h4, -, h6, -⟩ := pausedIter_render rt.gov.lowPower
      { scene with needsRender := true } (hquiet scene hmem) rfl n
    obtain ⟨g1, -, b, g3, g4, -, g6, -⟩ := pausedIter_render rt.gov.lowPower
      { ((fun sc => (tickScene true false rt.gov.lowPower 0 sc).1)^[n + 1]
          { scene with needsRender := true }) with needsRender := true }
      (by rw [h2]; exact hquiet scene hmem) rfl m
    refine ⟨g1.trans h1, a, b, ?_, h4, h6, g4, g6.trans h1⟩
    refine g3.trans ?_
    show _ ++ [b] = _
    rw [h3]
    simp

/-- The scenario of C7 on a registered scene that never throws: two ticks after
the flip, a scroll that settles, one more tick; two renders in all. -/
theorem paused_render_cap_witness :
    List.Forall₂ (fun s s' : Scene Unit =>
        s'.time = s.time ∧
        ∃ a b, s'.renderLog = s.renderLog ++ [a, b] ∧ a.paused = true ∧ a.time = s.time ∧
          b.paused = true ∧ b.time = s.time)
      (demoRuntime [demoContainer "quiet"]).scenes
      (run (onScrollSettled (onScroll (run (handleReduceMotion
        (demoRuntime [demoContainer "quiet"]) true) [16, 32]))) [48]).scenes :=
  (paused_render_cap (demoRuntime [demoContainer "quiet"]) [16, 32] [48]
    (by
      intro scene hmem a pr
      have hs : scene.render = quietFactory.render := by
        simp [demoRuntime, demoContainer, sizedContainer, registerAll, register, demoFactories,
          Runtime.initial] at hmem
        rw [hmem]
        rfl
      rw [hs]
      rfl)
    (by decide) (by decide)).2.2

/-- C8 as stated fails: with frames 50 ms apart the flag is set on the 45th
tick; that tick and the two after it leave the elapsed time at 2200 ms, and the
two later ticks invoke no render (45 invocations after tick 45, 46 and 47). -/
theorem lowPower_stops_clock_and_render :
    (run (demoRuntime [demoContainer "quiet"]) (frameStamps 50 44)).gov.lowPower = false ∧
    (run (demoRuntime [demoContainer "quiet"]) (frameStamps 50 45)).gov.lowPower = true ∧
    (run (demoRuntime [demoContainer "quiet"]) (frameStamps 50 45)).scenes.map
        (fun s => (s.time, s.renderLog.length)) = [(2200, 45)] ∧
    (run (demoRuntime [demoContainer "quiet"]) (frameStamps 50 46)).scenes.map
        (fun s => (s.time, s.renderLog.length)) = [(2200, 45)] ∧
    (run (demoRuntime [demoContainer "quiet"]) (frameStamps 50 47)).scenes.map
        (fun s => (s.time, s.renderLog.length)) = [(2200, 45)] := by
  refine ⟨?_, ?_, ?_, ?_, ?_⟩ <;> decide!

/-- C8 amended. Once the low-power flag is set it stays set and every tick is
paused: no scene's elapsed time advances, and a scene's render is invoked, with
`paused: true` and `lowPower: true` at the frozen elapsed time, exactly on the
ticks where it has not rendered a paused frame yet or a re-render was requested. -/
theorem lowPower_pauses_scenes {σ : Type} (rt : Runtime σ) (now : ℚ)
    (hlow : rt.gov.lowPower = true) :
    (tick rt now).gov.lowPower = true ∧
    List.Forall₂ (fun s s' : Scene σ =>
        s'.time = s.time ∧
        ((s.pausedFrameRendered = false ∨ s.needsRender = true) →
          ∃ a, s'.renderLog = s.renderLog ++ [a] ∧ a.paused = true ∧ a.lowPower = true ∧
            a.time = s.time) ∧
        (¬ (s.pausedFrameRendered = false ∨ s.needsRender = true) →
          s'.renderLog = s.renderLog))
      rt.scenes (tick rt now).scenes := by
  have hg : (tickGovernor rt now).lowPower = true := by
    unfold tickGovernor
    split
    · rw [updatePerformance_lowPower, hlow]
      rfl
    · exact hlow
  refine ⟨hg, ?_⟩
  rw [tick_scenes, List.forall₂_map_right_iff, List.forall₂_same]
  intro scene _
  obtain ⟨k1, k2, k3⟩ := tickScene_paused_step rt.prefersReducedMotion rt.scrolling
    (tickGovernor rt now).lowPower (frameDelta rt now) scene (by rw [hg]; simp)
  refine ⟨k1, ?_, k3⟩
  intro h
  obtain ⟨a, h1, h2, h3, h4, -⟩ := k2 h
  exact ⟨a, h1, h2, h3.trans hg, h4⟩

/-- The amended C8 at the runtime reached after 45 frames of 50 ms. -/
theorem lowPower_pauses_scenes_witness :
    (tick (run (demoRuntime [demoContainer "quiet"]) (frameStamps 50 45)) 2300).gov.lowPower
      = true :=
  (lowPower_pauses_scenes (run (demoRuntime [demoContainer "quiet"]) (frameStamps 50 45)) 2300
    (by decide!)).1

/-! ## Zero-size start-up -/

/-- C9 as stated fails: a scene registered on a 0 x 0 container is sized 1 x 1
and its render is invoked by the first tick, before any non-zero size. -/
theorem zero_size_scene_rendered :
    (demoRuntime [sizedContainer "quiet" 0 0]).scenes.map
        (fun s => (s.w, s.h, s.renderLog.length)) = [(1, 1, 0)] ∧
    (tick (demoRuntime [sizedContainer "quiet" 0 0]) 16).scenes.map
        (fun s => (s.w, s.h, s.renderLog.length)) = [(1, 1, 1)] := by
  constructor <;> decide!

/-- C9 amended. A scene whose container reports 0 x 0 at registration is sized
1 x 1 with `needsRender` set, and the first tick invokes its render once with
`w = h = 1`; after a resize to 800 x 600, in any state of the runtime (paused or
not), the next tick invokes its render exactly once, with `w = 800`, `h = 600`. -/
theorem zero_size_startup {σ : Type} (sceneFactories : String → Option (Factory σ))
    (rt : Runtime σ) (c : Container) (f : Factory σ) (now : ℚ)
    (hf : sceneFactories c.scene = some f) (hcanvas : c.hasCanvas = true)
    (hctx : c.hasContext = true) (hw : c.width = 0) (hh : c.height = 0) :
    (∃ rt1 s, register sceneFactories rt c = .ok rt1 ∧
      rt1.scenes[rt.scenes.length]? = some s ∧
      s.w = 1 ∧ s.h = 1 ∧ s.renderLog = [] ∧ s.needsRender = true) ∧
    (∃ rt1 s a, register sceneFactories rt c = .ok rt1 ∧
      (tick rt1 now).scenes[rt.scenes.length]? = some s ∧
      s.renderLog = [a] ∧ a.w = 1 ∧ a.h = 1) ∧
    (∀ (later : Runtime σ) (s : Scene σ) (i : ℕ) (now2 : ℚ), later.scenes[i]? = some s →
      ∃ s' a, (tick (onResizeEntry later i 800 600) now2).scenes[i]? = some s' ∧
        s'.renderLog = s.renderLog ++ [a] ∧ a.w = 800 ∧ a.h = 600 ∧
        a.paused = tickPaused (onResizeEntry later i 800 600) now2) := by
  have hreg : register sceneFactories rt c = .ok
      { rt with
        scenes := rt.scenes ++ [resizeScene rt.devicePixelRatio (newScene c.scene f) 0 0] } := by
    simp [register, hf, hcanvas, hctx, hw, hh]
  obtain ⟨r1, r2, r3, r4⟩ := resizeScene_fields rt.devicePixelRatio (newScene c.scene f) 0 0
  have r1' : (resizeScene rt.devicePixelRatio (newScene c.scene f) 0 0).w = 1 := by
    rw [r1]; norm_num
  have r2' : (resizeScene rt.devicePixelRatio (newScene c.scene f) 0 0).h = 1 := by
    rw [r2]; norm_num
  refine ⟨?_, ?_, ?_⟩
  · refine ⟨_, resizeScene rt.devicePixelRatio (newScene c.scene f) 0 0, hreg, ?_,
      r1', r2', r4, r3⟩
    simp
  · obtain ⟨a, h1, h2, h3, -⟩ := tickScene_of_needsRender rt.prefersReducedMotion rt.scrolling
      (tickGovernor rt now).lowPower (frameDelta rt now) _ r3
    refine ⟨_, (tickScene rt.prefersReducedMotion rt.scrolling (tickGovernor rt now).lowPower
      (frameDelta rt now) (resizeScene rt.devicePixelRatio (newScene c.scene f) 0 0)).1, a,
      hreg, ?_, ?_, h2.trans r1', h3.trans r2'⟩
    · rw [tick_scenes]
      simp [tickGovernor, frameDelta]
    · rw [h1, r4]
      rfl
  · intro later s i now2 hs
    obtain ⟨q1, q2, q3, q4⟩ := resizeScene_fields later.devicePixelRatio s 800 600
    obtain ⟨a, h1, h2, h3, h4⟩ := tickScene_of_needsRender
      (onResizeEntry later i 800 600).prefersReducedMotion (onResizeEntry later i 800 600).scrolling
      (tickGovernor (onResizeEntry later i 800 600) now2).lowPower
      (frameDelta (onResizeEntry later i 800 600) now2) _ q3
    refine ⟨(tickScene (onResizeEntry later i 800 600).prefersReducedMotion
      (onResizeEntry later i 800 600).scrolling
      (tickGovernor (onResizeEntry later i 800 600) now2).lowPower
      (frameDelta (onResizeEntry later i 800 600) now2)
      (resizeScene later.devicePixelRatio s 800 600)).1, a, ?_, ?_, ?_, ?_, h4⟩
    · rw [tick_scenes]
      simp only [onResizeEntry, List.getElem?_map, List.getElem?_modify, hs]
      simp
    · rw [h1, q4]
    · rw [h2, q1]; norm_num
    · rw [h3, q2]; norm_num

/-- The amended C9 on a page that prefers reduced motion: the 0 x 0 scene is
rendered once, at 1 x 1, by the first tick. -/
theorem zero_size_startup_witness :
    ∃ rt1 s a, register demoFactories (Runtime.initial Unit true (some 2) 0)
        (sizedContainer "quiet" 0 0) = .ok rt1 ∧
      (tick rt1 16).scenes[0]? = some s ∧ s.renderLog = [a] ∧ a.w = 1 ∧ a.h = 1 :=
  (zero_size_startup demoFactories (Runtime.initial Unit true (some 2) 0)
    (sizedContainer "quiet" 0 0) quietFactory 16 rfl rfl rfl rfl rfl).2.1

/-! ## Elastic rings -/

/-- C10, evaluated on the code: on a 300 x 400 canvas with an active pointer
at (3/4, 3/4), whatever the values of sine and cosine, the second render after
creation leaves ring 1 less than `minGap = 0.65 * ringGap` above ring 0: the
clamp is applied to the target of ring 1, not to its relaxed radius. -/
theorem rings_break_minimum_gap (M : JsMath) (hM : M.Sound) (t1 t2 : ℚ) :
    (charterFrame M (pointerFrame 300 400 t2 (3 / 4) (3 / 4))).minGap
      = (65 / 100) * (charterFrame M (pointerFrame 300 400 t2 (3 / 4) (3 / 4))).ringGap ∧
    (charterRun M CharterState.initial
        [pointerFrame 300 400 t1 (3 / 4) (3 / 4),
         pointerFrame 300 400 t2 (3 / 4) (3 / 4)]).ringRadii.getD 1 0
      < (charterRun M CharterState.initial
          [pointerFrame 300 400 t1 (3 / 4) (3 / 4),
           pointerFrame 300 400 t2 (3 / 4) (3 / 4)]).ringRadii.getD 0 0
        + (charterFrame M (pointerFrame 300 400 t2 (3 / 4) (3 / 4))).minGap ∧
    ¬ ringsKeepGap (charterFrame M (pointerFrame 300 400 t2 (3 / 4) (3 / 4))).minGap
        (charterRun M CharterState.initial
          [pointerFrame 300 400 t1 (3 / 4) (3 / 4),
           pointerFrame 300 400 t2 (3 / 4) (3 / 4)]).ringRadii := by
  obtain ⟨a1, a2, a3, a4, a5⟩ := charterRender_demo_first M hM t1
  obtain ⟨b1, b2⟩ := charterRender_demo_next M hM t2 _ a1 a2 a3 a4 a5
  have hrun : charterRun M CharterState.initial
      [pointerFrame 300 400 t1 (3 / 4) (3 / 4), pointerFrame 300 400 t2 (3 / 4) (3 / 4)]
      = charterRender M (pointerFrame 300 400 t2 (3 / 4) (3 / 4))
          (charterRender M (pointerFrame 300 400 t1 (3 / 4) (3 / 4)) CharterState.initial) := rfl
  have hgap : (charterFrame M (pointerFrame 300 400 t2 (3 / 4) (3 / 4))).minGap = 1469 / 80 := by
    rw [charterFrame_demo M hM]
    rfl
  have hring : (charterFrame M (pointerFrame 300 400 t2 (3 / 4) (3 / 4))).ringGap = 113 / 4 := by
    rw [charterFrame_demo M hM]
    rfl
  rw [hrun, hgap, hring]
  refine ⟨by norm_num, b2, ?_⟩
  intro hkeep
  have := hkeep 1 (by norm_num) (by rw [b1]; norm_num)
  simp only [Nat.sub_self] at this
  linarith

/-- The evaluation of C10 with the instance `JsMath.flat`. -/
theorem rings_break_minimum_gap_witness :
    ¬ ringsKeepGap (charterFrame JsMath.flat (pointerFrame 300 400 16 (3 / 4) (3 / 4))).minGap
        (charterRun JsMath.flat CharterState.initial
          [pointerFrame 300 400 0 (3 / 4) (3 / 4),
           pointerFrame 300 400 16 (3 / 4) (3 / 4)]).ringRadii :=
  (rings_break_minimum_gap JsMath.flat JsMath.flat_sound 0 16).2.2

/-! ## Elastic rings: ordering -/

/-- The frame constants on a 300 x 400 canvas with an active pointer at (24/25, 24/25). -/
theorem charterFrame_corner (M : JsMath) (hM : M.Sound) (t : ℚ) :
    charterFrame M (pointerFrame 300 400 t (24 / 25) (24 / 25)) = cornerFrame := by
  have h1 : M.hypot 300 400 = 500 := hM.2.2.2 300 400 500 (by norm_num) (by norm_num)
  have h2 : M.hypot (1296 / 25) (1728 / 25) = 432 / 5 :=
    hM.2.2.2 (1296 / 25) (1728 / 25) (432 / 5) (by norm_num) (by norm_num)
  have e1 : (150 : ℚ) + 24 / 25 * 300 * (18 / 100) - 150 = 1296 / 25 := by norm_num
  have e2 : (200 : ℚ) + 24 / 25 * 400 * (18 / 100) - 200 = 1728 / 25 := by norm_num
  simp only [charterFrame, pointerFrame, ringCount, if_true, cornerFrame]
  norm_num [h1, h2, e1, e2]

/-- On `cornerFrame` the target of ring 0 is `desiredDist + dotPadding` = 103.7. -/
theorem ringTarget_corner_zero (M : JsMath) (hM : M.Sound) (t : ℚ) (radii : List ℚ) :
    ringTarget M cornerFrame t radii 0 = 1037 / 10 := by
  obtain ⟨s1, s2⟩ := hM.1 (t * (3 / 10000) + ((0 : ℕ) : ℚ) * (14 / 10))
  obtain ⟨c1, c2⟩ := hM.2.1 (t * (17 / 100000) + ((0 : ℕ) : ℚ) * (9 / 10))
  have hclamp : clamp (1 - |(432 / 5 : ℚ) - (24 + 113 / 4 * ((0 : ℕ) : ℚ))| / (1243 / 20)) 0 1
      = 0 := by
    have habs : |(432 / 5 : ℚ) - (24 + 113 / 4 * ((0 : ℕ) : ℚ))| = 312 / 5 := by
      rw [abs_of_nonneg] <;> norm_num
    rw [habs]
    norm_num [clamp]
  simp only [ringTarget, cornerFrame, if_true, hclamp]
  have e : (432 / 5 : ℚ) + 173 / 10 = 1037 / 10 := by norm_num
  rw [e]
  apply max_eq_right
  generalize M.sin (t * (3 / 10000) + ((0 : ℕ) : ℚ) * (14 / 10)) = s at s1 s2 ⊢
  generalize M.cos (t * (17 / 100000) + ((0 : ℕ) : ℚ) * (9 / 10)) = c at c1 c2 ⊢
  norm_num
  linarith

/-- On `cornerFrame` the target of ring 1 is at most 60, or the gap clamp when that is larger. -/
theorem ringTarget_corner_one (M : JsMath) (hM : M.Sound) (t : ℚ) (radii : List ℚ) :
    ringTarget M cornerFrame t radii 1 ≤ max 60 (radii.getD 0 0 + 1469 / 80) := by
  obtain ⟨s1, s2⟩ := hM.1 (t * (3 / 10000) + ((1 : ℕ) : ℚ) * (14 / 10))
  obtain ⟨c1, c2⟩ := hM.2.1 (t * (17 / 100000) + ((1 : ℕ) : ℚ) * (9 / 10))
  have hclamp : clamp (1 - |(432 / 5 : ℚ) - (24 + 113 / 4 * ((1 : ℕ) : ℚ))| / (1243 / 20)) 0 1
      = 560 / 1243 := by
    have habs : |(432 / 5 : ℚ) - (24 + 113 / 4 * ((1 : ℕ) : ℚ))| = 683 / 20 := by
      rw [abs_of_nonneg] <;> norm_num
    rw [habs]
    norm_num [clamp]
  simp only [ringTarget, cornerFrame, hclamp, if_neg (by decide : ¬ (1 = 0)), Nat.sub_self]
  apply max_le_max _ (le_refl _)
  generalize M.sin (t * (3 / 10000) + ((1 : ℕ) : ℚ) * (14 / 10)) = s at s1 s2 ⊢
  generalize M.cos (t * (17 / 100000) + ((1 : ℕ) : ℚ) * (9 / 10)) = c at c1 c2 ⊢
  norm_num
  linarith

theorem leadRadius_pos (n : ℕ) : 0 < leadRadius n := by
  induction n with
  | zero => norm_num [leadRadius]
  | succ n ih =>
    rw [leadRadius]
    linarith

/-- One pass of the relaxation loop on `cornerFrame`: ring 0 follows
`leadRadius`, ring 1 stays below `chaseBound`. -/
theorem pass_corner (M : JsMath) (hM : M.Sound) (t : ℚ) (radii : List ℚ) (n : ℕ)
    (hlen : radii.length = 9) (h0 : radii.getD 0 0 = leadRadius n)
    (h1 : radii.getD 1 0 ≤ chaseBound n) :
    ((List.range ringCount).foldl (relaxRing M cornerFrame t) radii).length = 9 ∧
    ((List.range ringCount).foldl (relaxRing M cornerFrame t) radii).getD 0 0
      = leadRadius (n + 1) ∧
    ((List.range ringCount).foldl (relaxRing M cornerFrame t) radii).getD 1 0
      ≤ chaseBound (n + 1) := by
  refine ⟨by rw [foldl_relaxRing_length, hlen], ?_, ?_⟩
  · rw [pass_getD_zero _ _ _ _ (by omega), ringTarget_corner_zero M hM, h0, leadRadius]
  · rw [pass_getD_one _ _ _ _ (by omega)]
    have hT := ringTarget_corner_one M hM t (relaxRing M cornerFrame t radii 0)
    rw [relaxRing_getD_self _ _ _ _ _ (by omega), ringTarget_corner_zero M hM, h0] at hT
    rw [chaseBound, leadRadius]
    nlinarith [hT, h1]

/-- A render on `cornerFrame` that resets the rings (new size, or first radius
0) leaves ring 0 at `leadRadius 1` and ring 1 below `chaseBound 1`. -/
theorem charterRender_corner_reset (M : JsMath) (hM : M.Sound) (t : ℚ) (st : CharterState)
    (hlen : st.ringRadii.length = 9)
    (hreset : st.lastW ≠ 300 ∨ st.lastH ≠ 400 ∨ st.ringRadii.getD 0 0 = 0) :
    (charterRender M (pointerFrame 300 400 t (24 / 25) (24 / 25)) st).lastW = 300 ∧
    (charterRender M (pointerFrame 300 400 t (24 / 25) (24 / 25)) st).lastH = 400 ∧
    (charterRender M (pointerFrame 300 400 t (24 / 25) (24 / 25)) st).ringRadii.length = 9 ∧
    (charterRender M (pointerFrame 300 400 t (24 / 25) (24 / 25)) st).ringRadii.getD 0 0
      = leadRadius 1 ∧
    (charterRender M (pointerFrame 300 400 t (24 / 25) (24 / 25)) st).ringRadii.getD 1 0
      ≤ chaseBound 1 := by
  have hres : resetRings cornerFrame (pointerFrame 300 400 t (24 / 25) (24 / 25)) st
      = { ringRadii := [24, 209 / 4, 161 / 2, 435 / 4, 137, 661 / 4, 387 / 2, 887 / 4, 250],
          lastW := 300, lastH := 400 } := by
    obtain ⟨radii, lastW, lastH⟩ := st
    rcases radii with _ | ⟨a0, _ | ⟨a1, _ | ⟨a2, _ | ⟨a3, _ | ⟨a4, _ | ⟨a5, _ | ⟨a6, _ | ⟨a7,
      _ | ⟨a8, _ | ⟨a9, rest⟩⟩⟩⟩⟩⟩⟩⟩⟩⟩ <;> simp at hlen
    have hcond : (pointerFrame 300 400 t (24 / 25) (24 / 25)).w ≠ lastW ∨
        (pointerFrame 300 400 t (24 / 25) (24 / 25)).h ≠ lastH ∨
        ([a0, a1, a2, a3, a4, a5, a6, a7, a8] : List ℚ).getD 0 0 = 0 := by
      rcases hreset with h | h | h
      · exact Or.inl (fun e => h e.symm)
      · exact Or.inr (Or.inl (fun e => h e.symm))
      · exact Or.inr (Or.inr h)
    unfold resetRings
    rw [if_pos hcond]
    simp only [range_ringCount, pointerFrame, cornerFrame, List.foldl_cons, List.foldl_nil]
    norm_num
  have hrender : charterRender M (pointerFrame 300 400 t (24 / 25) (24 / 25)) st
      = { ringRadii := (List.range ringCount).foldl (relaxRing M cornerFrame t)
            [24, 209 / 4, 161 / 2, 435 / 4, 137, 661 / 4, 387 / 2, 887 / 4, 250],
          lastW := 300, lastH := 400 } := by
    unfold charterRender
    simp only [charterFrame_corner M hM, hres]
    rfl
  rw [hrender]
  obtain ⟨p1, p2, p3⟩ := pass_corner M hM t
    [24, 209 / 4, 161 / 2, 435 / 4, 137, 661 / 4, 387 / 2, 887 / 4, 250] 0 rfl rfl (le_refl _)
  exact ⟨rfl, rfl, p1, p2, p3⟩

/-- A later render on `cornerFrame` (same size, no reset). -/
theorem charterRender_corner_next (M : JsMath) (hM : M.Sound) (t : ℚ) (st : CharterState)
    (n : ℕ) (hw : st.lastW = 300) (hh : st.lastH = 400) (hlen : st.ringRadii.length = 9)
    (h0 : st.ringRadii.getD 0 0 = leadRadius n) (h1 : st.ringRadii.getD 1 0 ≤ chaseBound n) :
    (charterRender M (pointerFrame 300 400 t (24 / 25) (24 / 25)) st).lastW = 300 ∧
    (charterRender M (pointerFrame 300 400 t (24 / 25) (24 / 25)) st).lastH = 400 ∧
    (charterRender M (pointerFrame 300 400 t (24 / 25) (24 / 25)) st).ringRadii.length = 9 ∧
    (charterRender M (pointerFrame 300 400 t (24 / 25) (24 / 25)) st).ringRadii.getD 0 0
      = leadRadius (n + 1) ∧
    (charterRender M (pointerFrame 300 400 t (24 / 25) (24 / 25)) st).ringRadii.getD 1 0
      ≤ chaseBound (n + 1) := by
  have hres : resetRings cornerFrame (pointerFrame 300 400 t (24 / 25) (24 / 25)) st = st := by
    unfold resetRings
    rw [if_neg]
    simp only [pointerFrame, hw, hh, h0]
    have := leadRadius_pos n
    simp [ne_of_gt this]
  have hrender : charterRender M (pointerFrame 300 400 t (24 / 25) (24 / 25)) st
      = { st with
          ringRadii := List.foldl (relaxRing M cornerFrame t) st.ringRadii (List.range ringCount) } := by
    unfold charterRender
    simp only [charterFrame_corner M hM, hres]
    rfl
  rw [hrender]
  obtain ⟨p1, p2, p3⟩ := pass_corner M hM t st.ringRadii n hlen h0 h1
  exact ⟨hw, hh, p1, p2, p3⟩

/-- After `k` further renders on `cornerFrame`, ring 0 is at `leadRadius (n + k)` and ring 1
below `chaseBound (n + k)`. -/
theorem charterRun_corner (M : JsMath) (hM : M.Sound) (ts : List ℚ) :
    ∀ (st : CharterState) (n : ℕ), st.lastW = 300 → st.lastH = 400 →
      st.ringRadii.length = 9 → st.ringRadii.getD 0 0 = leadRadius n →
      st.ringRadii.getD 1 0 ≤ chaseBound n →
      (charterRun M st (ts.map (fun t => pointerFrame 300 400 t (24 / 25) (24 / 25)))).ringRadii.length
          = 9 ∧
      (charterRun M st (ts.map (fun t => pointerFrame 300 400 t (24 / 25) (24 / 25)))).ringRadii.getD 0 0
          = leadRadius (n + ts.length) ∧
      (charterRun M st (ts.map (fun t => pointerFrame 300 400 t (24 / 25) (24 / 25)))).ringRadii.getD 1 0
          ≤ chaseBound (n + ts.length) := by
  induction ts with
  | nil =>
    intro st n _ _ hlen h0 h1
    exact ⟨hlen, h0, h1⟩
  | cons t rest ih =>
    intro st n hw hh hlen h0 h1
    obtain ⟨q1, q2, q3, q4, q5⟩ := charterRender_corner_next M hM t st n hw hh hlen h0 h1
    have := ih _ (n + 1) q1 q2 q3 q4 q5
    have e : n + 1 + rest.length = n + (t :: rest).length := by
      simp only [List.length_cons]
      omega
    rw [e] at this
    exact this

/-- Claim C11 (ring ordering), as it fails on the code: starting from rings that
are reset by the first render (fresh scene, or a new canvas size), six renders
on a 300 x 400 canvas with the pointer held at (0.96, 0.96) leave ring 1 strictly
inside ring 0, for any values of sine and cosine in [-1, 1]. The clamp
`Math.max(target, ringRadii[i - 1] + minGap)` acts on the target, and the
radius only moves 12% of the way towards it. -/
theorem rings_invert (M : JsMath) (hM : M.Sound) (st : CharterState) (t : ℚ) (ts : List ℚ)
    (hlen : st.ringRadii.length = 9)
    (hreset : st.lastW ≠ 300 ∨ st.lastH ≠ 400 ∨ st.ringRadii.getD 0 0 = 0)
    (hts : ts.length = 5) :
    (charterRun M st ((t :: ts).map
        (fun t => pointerFrame 300 400 t (24 / 25) (24 / 25)))).ringRadii.getD 1 0
      < (charterRun M st ((t :: ts).map
          (fun t => pointerFrame 300 400 t (24 / 25) (24 / 25)))).ringRadii.getD 0 0 ∧
    ¬ ringsOrdered (charterRun M st ((t :: ts).map
        (fun t => pointerFrame 300 400 t (24 / 25) (24 / 25)))).ringRadii := by
  obtain ⟨a1, a2, a3, a4, a5⟩ := charterRender_corner_reset M hM t st hlen hreset
  obtain ⟨b1, b2, b3⟩ := charterRun_corner M hM ts _ 1 a1 a2 a3 a4 a5
  have hrun : charterRun M st ((t :: ts).map
      (fun t => pointerFrame 300 400 t (24 / 25) (24 / 25)))
      = charterRun M (charterRender M (pointerFrame 300 400 t (24 / 25) (24 / 25)) st)
          (ts.map (fun t => pointerFrame 300 400 t (24 / 25) (24 / 25))) := rfl
  rw [hrun]
  rw [hts] at b2 b3
  have hnum : chaseBound 6 < leadRadius 6 := by
    norm_num [chaseBound, leadRadius]
  have hlt : (charterRun M (charterRender M (pointerFrame 300 400 t (24 / 25) (24 / 25)) st)
      (ts.map (fun t => pointerFrame 300 400 t (24 / 25) (24 / 25)))).ringRadii.getD 1 0
      < (charterRun M (charterRender M (pointerFrame 300 400 t (24 / 25) (24 / 25)) st)
      (ts.map (fun t => pointerFrame 300 400 t (24 / 25) (24 / 25)))).ringRadii.getD 0 0 := by
    rw [b2]
    exact lt_of_le_of_lt b3 hnum
  refine ⟨hlt, ?_⟩
  intro hord
  have := hord 1 (by norm_num) (by rw [b1]; norm_num)
  simp only [Nat.sub_self] at this
  linarith

/-- The inversion of C11 on a fresh charter scene, frames 16 ms apart. -/
theorem rings_invert_witness :
    ¬ ringsOrdered (charterRun JsMath.flat CharterState.initial
        ([0, 16, 32, 48, 64, 80].map
          (fun t => pointerFrame 300 400 t (24 / 25) (24 / 25)))).ringRadii :=
  (rings_invert JsMath.flat JsMath.flat_sound CharterState.initial 0 [16, 32, 48, 64, 80]
    rfl (Or.inl (by norm_num [CharterState.initial])) rfl).2

/-! ## Pointer tracker -/

/-- The loop body of `tick` smooths the pointer of every scene, paused or not. -/
theorem tickScene_pointer {σ : Type} (p s l : Bool) (dt : ℚ) (scene : Scene σ) :
    (tickScene p s l dt scene).1.pointer = smoothPointer scene.pointer := by
  unfold tickScene smoothPointer
  cases hp : (p || s || l)
  · simp
    split <;> simp
  · simp
    split
    · simp
    · split <;> simp

/-- The pointers after a run of ticks: `smoothPointer` iterated once per tick. -/
theorem run_pointers {σ : Type} (nows : List ℚ) :
    ∀ rt : Runtime σ, (run rt nows).scenes.map (fun s => s.pointer)
      = rt.scenes.map (fun s => smoothPointer^[nows.length] s.pointer) := by
  induction nows with
  | nil =>
    intro rt
    simp [run]
  | cons now rest ih =>
    intro rt
    rw [run_cons, ih, tick_scenes, List.map_map]
    apply List.map_congr_left
    intro scene _
    simp only [Function.comp, List.length_cons, Function.iterate_succ_apply, tickScene_pointer]

/-- Closed form of the smoothing: the distance to the target shrinks by 0.92 per tick. -/
theorem smoothPointer_iterate (p : Pointer) (n : ℕ) :
    (smoothPointer^[n] p).x = p.tx - (92 / 100) ^ n * (p.tx - p.x) ∧
    (smoothPointer^[n] p).y = p.ty - (92 / 100) ^ n * (p.ty - p.y) ∧
    (smoothPointer^[n] p).tx = p.tx ∧ (smoothPointer^[n] p).ty = p.ty ∧
    (smoothPointer^[n] p).active = p.active := by
  induction n with
  | zero => simp
  | succ n ih =>
    obtain ⟨h1, h2, h3, h4, h5⟩ := ih
    rw [Function.iterate_succ_apply']
    refine ⟨?_, ?_, h3, h4, h5⟩
    · show (smoothPointer^[n] p).x + ((smoothPointer^[n] p).tx - (smoothPointer^[n] p).x) * (8 / 100)
        = _
      rw [h1, h3, pow_succ]
      ring
    · show (smoothPointer^[n] p).y + ((smoothPointer^[n] p).ty - (smoothPointer^[n] p).y) * (8 / 100)
        = _
      rw [h2, h4, pow_succ]
      ring

/-- Claim C17 (pointer smoothing step response): with the target held at
`(tx, ty)` the smoothed pointer of every scene after the ticks `nows` is
`T - 0.92 ^ n * (T - c)` on both axes, `n` the number of ticks; for the step
from 0 to 1 the value `1 - 0.92 ^ n` is strictly increasing in `n`, stays
below 1 and converges to 1. -/
theorem pointer_step_response :
    (∀ (σ : Type) (rt : Runtime σ) (nows : List ℚ),
      List.Forall₂ (fun s s' : Scene σ =>
          s'.pointer.x = s.pointer.tx - (92 / 100) ^ nows.length * (s.pointer.tx - s.pointer.x) ∧
          s'.pointer.y = s.pointer.ty - (92 / 100) ^ nows.length * (s.pointer.ty - s.pointer.y) ∧
          s'.pointer.tx = s.pointer.tx ∧ s'.pointer.ty = s.pointer.ty)
        rt.scenes (run rt nows).scenes) ∧
    (∀ n : ℕ, (smoothPointer^[n] { x := 0, y := 0, tx := 1, ty := 0, active := true }).x
      = 1 - (92 / 100) ^ n) ∧
    (∀ n : ℕ, (smoothPointer^[n] { x := 0, y := 0, tx := 1, ty := 0, active := true }).x
      < (smoothPointer^[n + 1] { x := 0, y := 0, tx := 1, ty := 0, active := true }).x) ∧
    (∀ n : ℕ, (smoothPointer^[n] { x := 0, y := 0, tx := 1, ty := 0, active := true }).x < 1) ∧
    (∀ ε : ℚ, 0 < ε → ∃ N : ℕ, ∀ n : ℕ, N ≤ n →
      1 - (smoothPointer^[n] { x := 0, y := 0, tx := 1, ty := 0, active := true }).x < ε) := by
  have hx : ∀ n : ℕ, (smoothPointer^[n] { x := 0, y := 0, tx := 1, ty := 0, active := true }).x
      = 1 - (92 / 100) ^ n := by
    intro n
    rw [(smoothPointer_iterate _ n).1]
    ring
  have hpos : ∀ n : ℕ, (0 : ℚ) < (92 / 100) ^ n := fun n => pow_pos (by norm_num) n
  refine ⟨?_, hx, ?_, ?_, ?_⟩
  · intro σ rt nows
    have hmap := run_pointers nows rt
    have hlen : (run rt nows).scenes.length = rt.scenes.length := by
      have := congrArg List.length hmap
      simpa using this
    rw [List.forall₂_iff_get]
    refine ⟨hlen.symm, ?_⟩
    intro i h1 h2
    have hi : ((run rt nows).scenes.map (fun s => s.pointer))[i]?
        = (rt.scenes.map (fun s => smoothPointer^[nows.length] s.pointer))[i]? := by rw [hmap]
    simp only [List.getElem?_map, List.getElem?_eq_getElem h1, List.getElem?_eq_getElem h2,
      Option.map_some', Option.some.injEq] at hi
    simp only [List.get_eq_getElem]
    rw [hi]
    obtain ⟨e1, e2, e3, e4, -⟩ := smoothPointer_iterate (rt.scenes[i]).pointer nows.length
    exact ⟨e1, e2, e3, e4⟩
  · intro n
    rw [hx, hx, pow_succ]
    have := hpos n
    linarith
  · intro n
    rw [hx]
    have := hpos n
    linarith
  · intro ε hε
    obtain ⟨N, hN⟩ := exists_pow_lt_of_lt_one hε (by norm_num : (92 / 100 : ℚ) < 1)
    refine ⟨N, fun n hn => ?_⟩
    rw [hx]
    have hle : (92 / 100 : ℚ) ^ n ≤ (92 / 100) ^ N :=
      pow_le_pow_of_le_one (by norm_num) (by norm_num) hn
    linarith

theorem clamp_mem (v lo hi : ℚ) (h : lo ≤ hi) : lo ≤ clamp v lo hi ∧ clamp v lo hi ≤ hi := by
  unfold clamp
  exact ⟨le_min h (le_max_left _ _), min_le_left _ _⟩

theorem onMove_inRange (p : Pointer) (clientX clientY left top width height : ℚ)
    (h : p.InRange) : (onMove p clientX clientY left top width height).InRange := by
  obtain ⟨hx, hy, -, -⟩ := h
  exact ⟨hx, hy, clamp_mem _ _ _ (by norm_num), clamp_mem _ _ _ (by norm_num)⟩

theorem onLeave_inRange (p : Pointer) (h : p.InRange) : (onLeave p).InRange := by
  obtain ⟨hx, hy, -, -⟩ := h
  exact ⟨hx, hy, by norm_num [onLeave], by norm_num [onLeave]⟩

/-- Smoothing is a convex combination of the smoothed offset and the target. -/
theorem smoothPointer_inRange (p : Pointer) (h : p.InRange) : (smoothPointer p).InRange := by
  obtain ⟨⟨x1, x2⟩, ⟨y1, y2⟩, ⟨a1, a2⟩, ⟨b1, b2⟩⟩ := h
  refine ⟨⟨?_, ?_⟩, ⟨?_, ?_⟩, ⟨a1, a2⟩, ⟨b1, b2⟩⟩ <;>
    simp only [smoothPointer] <;> linarith

theorem tickScene_pointerInRange {σ : Type} (p s l : Bool) (dt : ℚ) (scene : Scene σ)
    (h : scene.PointerInRange) : (tickScene p s l dt scene).1.PointerInRange := by
  obtain ⟨h1, h2⟩ := h
  have hs := smoothPointer_inRange scene.pointer h1
  refine ⟨by rw [tickScene_pointer]; exact hs, ?_⟩
  intro a ha
  rw [tickScene_renderLog] at ha
  split at ha
  · exact h2 a ha
  · rw [List.mem_append, List.mem_singleton] at ha
    rcases ha with ha | ha
    · exact h2 a ha
    · rw [ha]
      exact hs

theorem forall_mem_modify {α : Type} (P : α → Prop) (f : α → α) (hf : ∀ a, P a → P (f a)) :
    ∀ (l : List α) (i : ℕ), (∀ a ∈ l, P a) → ∀ a ∈ l.modify f i, P a := by
  intro l
  induction l with
  | nil =>
    intro i _ a ha
    cases i <;> simp [List.modify] at ha
  | cons x xs ih =>
    intro i h a ha
    cases i with
    | zero =>
      simp only [List.modify_zero_cons, List.mem_cons] at ha
      rcases ha with ha | ha
      · rw [ha]
        exact hf x (h x (List.mem_cons_self _ _))
      · exact h a (List.mem_cons_of_mem _ ha)
    | succ i =>
      simp only [List.modify_succ_cons, List.mem_cons] at ha
      rcases ha with ha | ha
      · rw [ha]
        exact h x (List.mem_cons_self _ _)
      · exact ih i (fun b hb => h b (List.mem_cons_of_mem _ hb)) a ha

/-- Every event keeps every pointer, and every pointer passed to `render`, in range. -/
theorem eventRun_pointerInRange {σ : Type} (rt : Runtime σ) (e : Event)
    (h : ∀ scene ∈ rt.scenes, scene.PointerInRange) :
    ∀ scene ∈ (Event.run rt e).scenes, scene.PointerInRange := by
  cases e with
  | pointermove i clientX clientY left top width height =>
    exact forall_mem_modify _ _
      (fun s hs => ⟨onMove_inRange _ _ _ _ _ _ _ hs.1, hs.2⟩) rt.scenes i h
  | pointerleave i =>
    exact forall_mem_modify _ _ (fun s hs => ⟨onLeave_inRange _ hs.1, hs.2⟩) rt.scenes i h
  | frame now =>
    intro scene hmem
    have hmem2 : scene ∈ (tick rt now).scenes := hmem
    rw [tick_scenes, List.mem_map] at hmem2
    obtain ⟨s0, hs0, rfl⟩ := hmem2
    exact tickScene_pointerInRange _ _ _ _ _ (h s0 hs0)

/-- Claim C18 (pointer range invariant): from scenes whose pointers are in
range, after every interleaving of pointermove events (on rectangles of
positive width and height), pointerleave events and ticks, the raw target and
the smoothed pointer of every scene, and every pointer handed to `render`,
are in [-1, 1] on both axes; pointermove is linear inside the rectangle, sends
the left/top edge to -1, the centre to 0, the right/bottom edge to 1, and
clamps positions outside. -/
theorem pointer_range_invariant {σ : Type} (rt : Runtime σ) (events : List Event)
    (hinit : ∀ scene ∈ rt.scenes, scene.PointerInRange)
    (_hwf : ∀ e ∈ events, e.WellFormed) :
    (∀ scene ∈ (runEvents rt events).scenes, scene.PointerInRange) ∧
    (∀ (p : Pointer) (clientX clientY left top width height : ℚ), 0 < width → 0 < height →
      (left ≤ clientX → clientX ≤ left + width →
        (onMove p clientX clientY left top width height).tx
          = (clientX - left) / width * 2 - 1) ∧
      (top ≤ clientY → clientY ≤ top + height →
        (onMove p clientX clientY left top width height).ty
          = (clientY - top) / height * 2 - 1) ∧
      (onMove p left top left top width height).tx = -1 ∧
      (onMove p left top left top width height).ty = -1 ∧
      (onMove p (left + width / 2) (top + height / 2) left top width height).tx = 0 ∧
      (onMove p (left + width / 2) (top + height / 2) left top width height).ty = 0 ∧
      (onMove p (left + width) (top + height) left top width height).tx = 1 ∧
      (onMove p (left + width) (top + height) left top width height).ty = 1 ∧
      (clientX ≤ left → (onMove p clientX clientY left top width height).tx = -1) ∧
      (left + width ≤ clientX → (onMove p clientX clientY left top width height).tx = 1) ∧
      (clientY ≤ top → (onMove p clientX clientY left top width height).ty = -1) ∧
      (top + height ≤ clientY → (onMove p clientX clientY left top width height).ty = 1)) := by
  constructor
  · clear _hwf
    induction events generalizing rt with
    | nil => exact hinit
    | cons e rest ih =>
      exact ih (Event.run rt e) (eventRun_pointerInRange rt e hinit)
  · intro p clientX clientY left top width height hw hh
    have hw' : width ≠ 0 := ne_of_gt hw
    have hh' : height ≠ 0 := ne_of_gt hh
    have hin : ∀ v : ℚ, -1 ≤ v → v ≤ 1 → clamp v (-1) 1 = v := by
      intro v h1 h2
      unfold clamp
      rw [max_eq_right h1, min_eq_right h2]
    have hval : ∀ v : ℚ, clamp v (-1) 1 = if v ≤ -1 then -1 else if 1 ≤ v then 1 else v := by
      intro v
      unfold clamp
      split_ifs with h1 h2
      · rw [max_eq_left h1]
        exact min_eq_right (by norm_num)
      · rw [max_eq_right (by linarith), min_eq_left h2]
      · rw [max_eq_right (by linarith), min_eq_right (by linarith)]
    refine ⟨?_, ?_, ?_, ?_, ?_, ?_, ?_, ?_, ?_, ?_, ?_, ?_⟩
    · intro h1 h2
      have e0 : 0 ≤ (clientX - left) / width := div_nonneg (by linarith) (le_of_lt hw)
      have e1 : (clientX - left) / width ≤ 1 := by
        rw [div_le_iff₀ hw]
        linarith
      exact hin _ (by linarith) (by linarith)
    · intro h1 h2
      have e0 : 0 ≤ (clientY - top) / height := div_nonneg (by linarith) (le_of_lt hh)
      have e1 : (clientY - top) / height ≤ 1 := by
        rw [div_le_iff₀ hh]
        linarith
      exact hin _ (by linarith) (by linarith)
    · simp only [onMove, hval, sub_self, zero_div]
      norm_num
    · simp only [onMove, hval, sub_self, zero_div]
      norm_num
    · have e : (left + width / 2 - left) / width * 2 - 1 = 0 := by
        field_simp
        ring
      simp only [onMove, e, hval]
      norm_num
    · have e : (top + height / 2 - top) / height * 2 - 1 = 0 := by
        field_simp
        ring
      simp only [onMove, e, hval]
      norm_num
    · have e : (left + width - left) / width * 2 - 1 = 1 := by
        field_simp
        ring
      simp only [onMove, e, hval]
      norm_num
    · have e : (top + height - top) / height * 2 - 1 = 1 := by
        field_simp
        ring
      simp only [onMove, e, hval]
      norm_num
    · intro h
      have e : (clientX - left) / width * 2 - 1 ≤ -1 := by
        have : (clientX - left) / width ≤ 0 :=
          div_nonpos_of_nonpos_of_nonneg (by linarith) (le_of_lt hw)
        linarith
      simp only [onMove, hval, if_pos e]
    · intro h
      have e : 1 ≤ (clientX - left) / width * 2 - 1 := by
        have : 1 ≤ (clientX - left) / width := by
          rw [le_div_iff₀ hw]
          linarith
        linarith
      simp only [onMove, hval, if_pos e]
      split_ifs with h1
      · linarith
      · rfl
    · intro h
      have e : (clientY - top) / height * 2 - 1 ≤ -1 := by
        have : (clientY - top) / height ≤ 0 :=
          div_nonpos_of_nonpos_of_nonneg (by linarith) (le_of_lt hh)
        linarith
      simp only [onMove, hval, if_pos e]
    · intro h
      have e : 1 ≤ (clientY - top) / height * 2 - 1 := by
        have : 1 ≤ (clientY - top) / height := by
          rw [le_div_iff₀ hh]
          linarith
        linarith
      simp only [onMove, hval, if_pos e]
      split_ifs with h1
      · linarith
      · rfl

/-- The range invariant of C18 on the demo runtime, with a move far outside the
container, two ticks and a leave. -/
theorem pointer_range_invariant_witness :
    (∀ e ∈ [Event.pointermove 0 700 100 0 0 800 600, Event.frame 16, Event.pointerleave 0,
        Event.frame 32], Event.WellFormed e) ∧
    (∀ scene ∈ (runEvents (demoRuntime [demoContainer "quiet"])
      [Event.pointermove 0 700 100 0 0 800 600, Event.frame 16, Event.pointerleave 0,
        Event.frame 32]).scenes, scene.PointerInRange) :=
  ⟨by
      intro e he
      simp only [List.mem_cons, List.mem_singleton, List.not_mem_nil, or_false] at he
      rcases he with rfl | rfl | rfl | rfl <;> simp [Event.WellFormed],
    (pointer_range_invariant (demoRuntime [demoContainer "quiet"])
      [Event.pointermove 0 700 100 0 0 800 600, Event.frame 16, Event.pointerleave 0,
        Event.frame 32]
      (by
        intro scene hmem
        simp [demoRuntime, demoContainer, sizedContainer, registerAll, register, demoFactories,
          Runtime.initial] at hmem
        rw [hmem]
        refine ⟨?_, ?_⟩
        · simp [resizeScene, newScene, quietFactory, Pointer.InRange]
        · simp [resizeScene, newScene, quietFactory])
      (by
        intro e he
        simp only [List.mem_cons, List.mem_singleton, List.not_mem_nil, or_false] at he
        rcases he with rfl | rfl | rfl | rfl <;> simp [Event.WellFormed])).1⟩

/-! ## Resize and registration -/

/-- Claim C19 (resizeScene postcondition): for every container size and device
pixel ratio, afterwards `w = max 1 (floor width)`, `h = max 1 (floor height)`,
`dpr = min 2 (devicePixelRatio || 1)`, the backing store is
`floor (w * dpr)` by `floor (h * dpr)`, the resize hook has run once more when
the scene has one (and not otherwise), and `needsRender` is true. -/
theorem resizeScene_postcondition {σ : Type} (devicePixelRatio : Option ℚ) (scene : Scene σ)
    (width height : ℚ) :
    (resizeScene devicePixelRatio scene width height).w = max 1 (⌊width⌋ : ℚ) ∧
    (resizeScene devicePixelRatio scene width height).h = max 1 (⌊height⌋ : ℚ) ∧
    (resizeScene devicePixelRatio scene width height).dpr
      = min 2 (match devicePixelRatio with
          | none => 1
          | some v => if v = 0 then 1 else v) ∧
    (resizeScene devicePixelRatio scene width height).canvasWidth
      = (⌊(resizeScene devicePixelRatio scene width height).w
          * (resizeScene devicePixelRatio scene width height).dpr⌋ : ℚ) ∧
    (resizeScene devicePixelRatio scene width height).canvasHeight
      = (⌊(resizeScene devicePixelRatio scene width height).h
          * (resizeScene devicePixelRatio scene width height).dpr⌋ : ℚ) ∧
    (resizeScene devicePixelRatio scene width height).ctxScale
      = (resizeScene devicePixelRatio scene width height).dpr ∧
    (resizeScene devicePixelRatio scene width height).resizeHookCalls
      = scene.resizeHookCalls + (if scene.onResize.isSome then 1 else 0) ∧
    (resizeScene devicePixelRatio scene width height).priv
      = (match scene.onResize with
          | some hook => hook scene.priv
          | none => scene.priv) ∧
    (resizeScene devicePixelRatio scene width height).needsRender = true := by
  unfold resizeScene
  cases hres : scene.onResize <;> cases devicePixelRatio <;> simp [dprOrOne, hres]

/-- The loop over two lists of containers is the loop over the first followed,
if that did not throw, by the loop over the second. -/
theorem registerAll_append {σ : Type} (sceneFactories : String → Option (Factory σ))
    (xs ys : List Container) :
    ∀ rt : Runtime σ, registerAll sceneFactories rt (xs ++ ys)
      = match registerAll sceneFactories rt xs with
        | .ok rt1 => registerAll sceneFactories rt1 ys
        | .error e => .error e := by
  induction xs with
  | nil =>
    intro rt
    simp [registerAll]
  | cons c rest ih =>
    intro rt
    rw [List.cons_append, registerAll, registerAll]
    cases hreg : register sceneFactories rt c with
    | error e => rfl
    | ok rt1 => exact ih rt1

/-- An iteration of the registration loop returns exactly when
`registersQuietly` holds of its container. -/
theorem register_ok_iff {σ : Type} (sceneFactories : String → Option (Factory σ))
    (rt : Runtime σ) (c : Container) :
    (∃ rt1, register sceneFactories rt c = .ok rt1) ↔ registersQuietly sceneFactories c := by
  unfold register registersQuietly
  cases hf : sceneFactories c.scene with
  | none =>
    by_cases hin : c.scene ∈ inheritedNonFactories
    · cases hcanvas : c.hasCanvas <;> cases hctx : c.hasContext <;> simp [hin]
    · simp [hin]
  | some f =>
    cases hcanvas : c.hasCanvas <;> cases hctx : c.hasContext <;> simp

/-- The registration loop when no iteration throws: it pushes, in document
order, one sized scene per container whose lookup finds a factory and whose
canvas yields a drawing context. -/
theorem registerAll_ok {σ : Type} (sceneFactories : String → Option (Factory σ))
    (containers : List Container) :
    ∀ rt : Runtime σ,
      (∀ c ∈ containers, registersQuietly sceneFactories c) →
      registerAll sceneFactories rt containers = .ok
        { rt with
          scenes := rt.scenes ++ containers.filterMap (fun c =>
            match sceneFactories c.scene with
            | none => none
            | some f =>
              if c.hasContext then
                some (resizeScene rt.devicePixelRatio (newScene c.scene f) c.width c.height)
              else none) } := by
  induction containers with
  | nil =>
    intro rt _
    simp [registerAll]
  | cons c rest ih =>
    intro rt h
    have hrest : ∀ c ∈ rest, registersQuietly sceneFactories c :=
      fun c hc => h c (List.mem_cons_of_mem _ hc)
    have hc := h c (List.mem_cons_self _ _)
    unfold registersQuietly at hc
    cases hf : sceneFactories c.scene with
    | none =>
      rw [hf] at hc
      have hreg : register sceneFactories rt c = .ok rt := by
        rcases hc with hc | hc
        · simp [register, hf, hc]
        · simp [register, hf, hc.1, hc.2]
      rw [registerAll, hreg]
      simp only []
      rw [ih rt hrest]
      simp [List.filterMap_cons, hf]
    | some f =>
      rw [hf] at hc
      have hcanvas : c.hasCanvas = true := hc
      cases hctx : c.hasContext with
      | false =>
        have hreg : register sceneFactories rt c = .ok rt := by
          simp [register, hf, hcanvas, hctx]
        rw [registerAll, hreg]
        simp only []
        rw [ih rt hrest]
        simp [List.filterMap_cons, hf, hctx]
      | true =>
        have hreg : register sceneFactories rt c = .ok
            { rt with
              scenes := rt.scenes ++
                [resizeScene rt.devicePixelRatio (newScene c.scene f) c.width c.height] } := by
          simp [register, hf, hcanvas, hctx]
        rw [registerAll, hreg]
        simp only []
        rw [ih _ hrest]
        simp [List.filterMap_cons, hf, hctx]

/-- The skips the registration loop does make: a container whose lookup is
`undefined`, or whose canvas yields no drawing context, is passed over without
an error when its iteration does not throw; the registry then receives exactly
the scenes of the other containers, in order, and a tick afterwards runs the
loop body on each of them. -/
theorem registration_skips {σ : Type} (sceneFactories : String → Option (Factory σ))
    (rt : Runtime σ) (before after : List Container) (skipped : Container) (now : ℚ)
    (hquiet : registersQuietly sceneFactories skipped)
    (hskipped : sceneFactories skipped.scene = none ∨ skipped.hasContext = false)
    (hothers : ∀ c ∈ before ++ after, registersQuietly sceneFactories c) :
    register sceneFactories rt skipped = .ok rt ∧
    (∃ rt1, registerAll sceneFactories rt (before ++ skipped :: after) = .ok rt1 ∧
      registerAll sceneFactories rt (before ++ after) = .ok rt1 ∧
      (∀ scene ∈ rt1.scenes, scene ∈ rt.scenes ∨
        (scene.needsRender = true ∧ scene.renderLog = [] ∧
          ∃ c ∈ before ++ after, ∃ f, sceneFactories c.scene = some f ∧ c.hasContext = true ∧
            scene = resizeScene rt.devicePixelRatio (newScene c.scene f) c.width c.height)) ∧
      (∀ c ∈ before ++ after, ∀ f, sceneFactories c.scene = some f → c.hasContext = true →
        resizeScene rt.devicePixelRatio (newScene c.scene f) c.width c.height ∈ rt1.scenes) ∧
      List.Forall₂ (fun s s' : Scene σ =>
          s.needsRender = true → ∃ a, s'.renderLog = s.renderLog ++ [a])
        rt1.scenes (tick rt1 now).scenes) := by
  have hskip : (match sceneFactories skipped.scene with
      | none => none
      | some f =>
        if skipped.hasContext then
          some (resizeScene rt.devicePixelRatio (newScene skipped.scene f) skipped.width
            skipped.height)
        else none) = none := by
    rcases hskipped with h | h
    · rw [h]
    · cases hf : sceneFactories skipped.scene <;> simp [h]
  have hall : ∀ c ∈ before ++ skipped :: after, registersQuietly sceneFactories c := by
    intro c hc
    rw [List.mem_append, List.mem_cons] at hc
    rcases hc with hc | hc | hc
    · exact hothers c (List.mem_append_left _ hc)
    · rw [hc]
      exact hquiet
    · exact hothers c (List.mem_append_right _ hc)
  refine ⟨?_, _, registerAll_ok sceneFactories _ rt hall, ?_, ?_, ?_, ?_⟩
  · have h1 := registerAll_ok sceneFactories [skipped] rt (by
      intro c hc
      rw [List.mem_singleton] at hc
      rw [hc]
      exact hquiet)
    simp only [List.filterMap_cons, List.filterMap_nil, hskip, List.append_nil] at h1
    rw [registerAll] at h1
    cases hreg : register sceneFactories rt skipped with
    | error e => rw [hreg] at h1; cases h1
    | ok rt1 =>
      rw [hreg] at h1
      simp only [registerAll] at h1
      exact h1
  · rw [registerAll_ok sceneFactories _ rt hothers]
    simp only [List.filterMap_append, List.filterMap_cons, hskip]
  · intro scene hmem
    simp only [List.mem_append, List.mem_filterMap] at hmem
    rcases hmem with hmem | ⟨c, hc, hsc⟩
    · exact Or.inl hmem
    · right
      have hc' : c ∈ before ++ after ∨ c = skipped := by
        rw [List.mem_cons] at hc
        rcases hc with hc | hc | hc
        · exact Or.inl (List.mem_append_left _ hc)
        · exact Or.inr hc
        · exact Or.inl (List.mem_append_right _ hc)
      rcases hc' with hc' | hc'
      · cases hf : sceneFactories c.scene with
        | none => simp [hf] at hsc
        | some f =>
          cases hctx : c.hasContext with
          | false => simp [hf, hctx] at hsc
          | true =>
            simp [hf, hctx] at hsc
            obtain ⟨-, -, q3, q4⟩ := resizeScene_fields rt.devicePixelRatio (newScene c.scene f)
              c.width c.height
            rw [← hsc]
            exact ⟨q3, q4, c, hc', f, hf, hctx, rfl⟩
      · rw [hc', hskip] at hsc
        cases hsc
  · intro c hc f hf hctx
    simp only [List.mem_append, List.mem_filterMap]
    right
    refine ⟨c, ?_, by simp [hf, hctx]⟩
    rw [List.mem_append] at hc
    rw [List.mem_cons]
    rcases hc with hc | hc
    · exact Or.inl hc
    · exact Or.inr (Or.inr hc)
  · rw [tick_scenes, List.forall₂_map_right_iff, List.forall₂_same]
    intro scene _ hneeds
    obtain ⟨a, ha, -⟩ := tickScene_of_needsRender _ _ _ _ scene hneeds
    exact ⟨a, ha⟩

/-- The skips on four containers: an unknown name and a canvas without a
drawing context are passed over. -/
theorem registration_skips_example :
    registerAll demoFactories (Runtime.initial Unit false (some 1) 0)
        [demoContainer "quiet", demoContainer "unknown",
          { scene := "quiet", hasCanvas := true, hasContext := false, width := 10, height := 10 },
          demoContainer "throwing"]
      = registerAll demoFactories (Runtime.initial Unit false (some 1) 0)
        [demoContainer "quiet", demoContainer "unknown", demoContainer "throwing"] := by
  obtain ⟨-, rt1, h1, h2, -⟩ := registration_skips demoFactories
    (Runtime.initial Unit false (some 1) 0) [demoContainer "quiet", demoContainer "unknown"]
    [demoContainer "throwing"]
    { scene := "quiet", hasCanvas := true, hasContext := false, width := 10, height := 10 } 0
    (by simp [registersQuietly, demoFactories])
    (Or.inr rfl)
    (by
      intro c hc
      simp only [List.cons_append, List.nil_append, List.mem_cons, List.mem_singleton,
        List.not_mem_nil, or_false] at hc
      rcases hc with rfl | rfl | rfl <;>
        simp [registersQuietly, demoFactories, demoContainer, sizedContainer,
          inheritedNonFactories])
  exact h1.trans h2.symm

/-- The inherited name `constructor` registers a scene: `Object` returns its
argument, which has no `render` method, so every render call of that scene
throws. -/
theorem register_constructor (rt : Runtime Unit) (a : RenderArgs) :
    register demoFactories rt (demoContainer "constructor") = .ok
      { rt with
        scenes := rt.scenes ++
          [resizeScene rt.devicePixelRatio (newScene "constructor" (objectFactory ())) 800 600] } ∧
    (objectFactory ()).render a () = ((), some "TypeError: scene.render is not a function") := by
  constructor
  · simp [register, demoFactories, demoContainer, sizedContainer]
  · rfl

/-- Claim C20 (registration fails silently), as it fails on the code: a
container whose lookup finds a factory but which has no `canvas` child, and a
container whose name is no key of the table but is inherited from
`Object.prototype` (and which has no canvas, or has a drawing context), make
the iteration throw a `TypeError`; the error ends the registration loop, so
that the containers after it are not registered and no runtime is returned,
whatever the containers before it were. -/
theorem registration_throws {σ : Type} (sceneFactories : String → Option (Factory σ))
    (rt rt1 : Runtime σ) (before after : List Container) (container : Container)
    (hbefore : registerAll sceneFactories rt before = .ok rt1)
    (hfail : (∃ factory, sceneFactories container.scene = some factory ∧
        container.hasCanvas = false) ∨
      (sceneFactories container.scene = none ∧ container.scene ∈ inheritedNonFactories ∧
        (container.hasCanvas = false ∨ container.hasContext = true))) :
    (∃ e, register sceneFactories rt1 container = .error e) ∧
    (∃ e, registerAll sceneFactories rt (before ++ container :: after) = .error e) ∧
    ¬ ∃ rt2, registerAll sceneFactories rt (before ++ container :: after) = .ok rt2 := by
  have hreg : ∃ e, register sceneFactories rt1 container = .error e := by
    rcases hfail with ⟨factory, hf, hc⟩ | ⟨hf, hin, hc⟩
    · exact ⟨"TypeError: canvas is null", by simp [register, hf, hc]⟩
    · rcases hc with hc | hc
      · exact ⟨"TypeError: canvas is null", by simp [register, hf, hin, hc]⟩
      · cases hcanvas : container.hasCanvas with
        | false => exact ⟨"TypeError: canvas is null", by simp [register, hf, hin, hcanvas]⟩
        | true =>
          exact ⟨"TypeError: the inherited property is not a scene factory",
            by simp [register, hf, hin, hcanvas, hc]⟩
  obtain ⟨e, he⟩ := hreg
  have hall : registerAll sceneFactories rt (before ++ container :: after) = .error e := by
    rw [registerAll_append, hbefore]
    simp only []
    rw [registerAll, he]
  refine ⟨⟨e, he⟩, ⟨e, hall⟩, ?_⟩
  rintro ⟨rt2, h2⟩
  rw [hall] at h2
  cases h2

/-- The failure of C20 on three containers, the middle one declaring the
scene `quiet` without a `canvas` child: the loop throws and the third
container is not registered. -/
theorem registration_throws_witness :
    demoFactories "quiet" = some quietFactory ∧
    ∃ e, registerAll demoFactories (Runtime.initial Unit false (some 1) 0)
        [demoContainer "quiet",
          { scene := "quiet", hasCanvas := false, hasContext := false, width := 800,
            height := 600 },
          demoContainer "throwing"] = .error e :=
  ⟨rfl, (registration_throws demoFactories (Runtime.initial Unit false (some 1) 0)
    (demoRuntime [demoContainer "quiet"]) [demoContainer "quiet"] [demoContainer "throwing"]
    { scene := "quiet", hasCanvas := false, hasContext := false, width := 800, height := 600 }
    (by simp [demoRuntime, registerAll, register, demoFactories, demoContainer, sizedContainer])
    (Or.inl ⟨quietFactory, rfl, rfl⟩)).2.1⟩

/-! ## Timelines -/

/-- For a non-negative time and a positive cycle, `time % cycle` lies in `[0, cycle)`. -/
theorem jsMod_mem (a b : ℚ) (ha : 0 ≤ a) (hb : 0 < b) : 0 ≤ jsMod a b ∧ jsMod a b < b := by
  have hq : 0 ≤ a / b := div_nonneg ha (le_of_lt hb)
  unfold jsMod
  rw [if_pos hq]
  have h1 : ((⌊a / b⌋ : ℤ) : ℚ) ≤ a / b := Int.floor_le _
  have h2 : a / b < ((⌊a / b⌋ : ℤ) : ℚ) + 1 := Int.lt_floor_add_one _
  rw [le_div_iff₀ hb] at h1
  rw [div_lt_iff₀ hb] at h2
  constructor <;> nlinarith

theorem phaseStart_cons (d : ℚ) (rest : List ℚ) (k : ℕ) :
    phaseStart (d :: rest) (k + 1) = d + phaseStart rest k := by
  simp [phaseStart]

/-- The loop of a timeline lookup returns: on positive durations and a time
within the cycle it stops in the phase `k` whose interval holds the time, with
progress `(t - start) / duration`. -/
theorem phaseLoop_spec (z : ℚ) (ds : List ℚ) :
    ∀ (i : ℕ) (t : ℚ), ds ≠ [] → (∀ d ∈ ds, 0 < d) → t ≤ ds.sum →
      ∃ k, k < ds.length ∧
        phaseLoop z ds i t = some (i + k, (t - phaseStart ds k) / ds.getD k 1) ∧
        (k = 0 ∨ phaseStart ds k < t) ∧ t ≤ phaseStart ds (k + 1) := by
  induction ds with
  | nil => intro i t h; exact absurd rfl h
  | cons d rest ih =>
    intro i t _ hpos hsum
    have hd : 0 < d := hpos d (List.mem_cons_self _ _)
    by_cases ht : t ≤ d
    · refine ⟨0, by simp, ?_, Or.inl rfl, ?_⟩
      · simp [phaseLoop, ht, ne_of_gt hd, phaseStart]
      · simpa [phaseStart] using ht
    · have hrest : rest ≠ [] := by
        intro h
        rw [h] at hsum
        simp at hsum
        exact ht hsum
      have hsum2 : t - d ≤ rest.sum := by
        rw [List.sum_cons] at hsum
        linarith
      obtain ⟨k, hk, hloop, hlo, hhi⟩ := ih (i + 1) (t - d) hrest
        (fun x hx => hpos x (List.mem_cons_of_mem _ hx)) hsum2
      refine ⟨k + 1, by simpa using hk, ?_, Or.inr ?_, ?_⟩
      · rw [phaseLoop, if_neg ht, hloop, phaseStart_cons]
        simp only [List.getD_cons_succ, Option.some.injEq, Prod.mk.injEq]
        constructor
        · omega
        · congr 1
          ring
      · rw [phaseStart_cons]
        rcases hlo with h | h
        · rw [h]
          simp only [phaseStart, List.take_zero, List.sum_nil, add_zero]
          linarith [not_le.mp ht]
        · linarith
      · rw [phaseStart_cons]
        linarith

theorem totalDuration_eq : totalDuration = 6800 := by
  norm_num [totalDuration, stateDurations]

theorem segmentTotal_eq : segmentTotal = 7000 := by
  norm_num [segmentTotal, segmentDurations]

/-- The result of `getState` at a non-negative time. -/
theorem getState_spec (time : ℚ) (h : 0 ≤ time) :
    ∃ k, k < 4 ∧
      phaseLoop 0 stateDurations 0 (jsMod time totalDuration)
        = some (k, (jsMod time totalDuration - phaseStart stateDurations k)
            / stateDurations.getD k 1) ∧
      getState time = (k, (jsMod time totalDuration - phaseStart stateDurations k)
            / stateDurations.getD k 1) ∧
      (k = 0 ∨ phaseStart stateDurations k < jsMod time totalDuration) ∧
      jsMod time totalDuration ≤ phaseStart stateDurations (k + 1) := by
  obtain ⟨m1, m2⟩ := jsMod_mem time totalDuration h (by rw [totalDuration_eq]; norm_num)
  obtain ⟨k, hk, hloop, hlo, hhi⟩ := phaseLoop_spec 0 stateDurations 0
    (jsMod time totalDuration) (by unfold stateDurations; exact List.cons_ne_nil _ _)
    (by intro d hd; simp [stateDurations] at hd; rcases hd with rfl | rfl | rfl | rfl <;> norm_num)
    (by
      have : stateDurations.sum = 6800 := by norm_num [stateDurations]
      rw [this, ← totalDuration_eq]
      exact le_of_lt m2)
  rw [zero_add] at hloop
  refine ⟨k, hk, hloop, ?_, hlo, hhi⟩
  unfold getState
  rw [hloop]

/-- The result of `getSegment` at a non-negative time. -/
theorem getSegment_spec (time : ℚ) (h : 0 ≤ time) :
    ∃ k, k < 4 ∧
      phaseLoop 1 segmentDurations 0 (jsMod time segmentTotal)
        = some (k, (jsMod time segmentTotal - phaseStart segmentDurations k)
            / segmentDurations.getD k 1) ∧
      getSegment time = (k, (jsMod time segmentTotal - phaseStart segmentDurations k)
            / segmentDurations.getD k 1) ∧
      (k = 0 ∨ phaseStart segmentDurations k < jsMod time segmentTotal) ∧
      jsMod time segmentTotal ≤ phaseStart segmentDurations (k + 1) := by
  obtain ⟨m1, m2⟩ := jsMod_mem time segmentTotal h (by rw [segmentTotal_eq]; norm_num)
  obtain ⟨k, hk, hloop, hlo, hhi⟩ := phaseLoop_spec 1 segmentDurations 0
    (jsMod time segmentTotal) (by unfold segmentDurations; exact List.cons_ne_nil _ _)
    (by
      intro d hd
      simp [segmentDurations] at hd
      rcases hd with rfl | rfl | rfl | rfl <;> norm_num)
    (by
      have : segmentDurations.sum = 7000 := by norm_num [segmentDurations]
      rw [this, ← segmentTotal_eq]
      exact le_of_lt m2)
  rw [zero_add] at hloop
  refine ⟨k, hk, hloop, ?_, hlo, hhi⟩
  unfold getSegment
  rw [hloop]

/-- Bounds of the progress and uniqueness of the phase, for a timeline of four
positive durations that `phaseLoop_spec` describes. -/
theorem phase_bounds (ds : List ℚ) (hlen : ds.length = 4) (hpos : ∀ d ∈ ds, 0 < d)
    (t : ℚ) (h0 : 0 ≤ t) (k : ℕ) (hk : k < 4)
    (hlo : k = 0 ∨ phaseStart ds k < t) (hhi : t ≤ phaseStart ds (k + 1)) :
    0 ≤ (t - phaseStart ds k) / ds.getD k 1 ∧ (t - phaseStart ds k) / ds.getD k 1 ≤ 1 ∧
    phaseStart ds k + (t - phaseStart ds k) / ds.getD k 1 * ds.getD k 1 = t ∧
    (∀ j, j < 4 → (j = 0 ∨ phaseStart ds j < t) → t ≤ phaseStart ds (j + 1) → j = k) := by
  rcases ds with _ | ⟨d0, _ | ⟨d1, _ | ⟨d2, _ | ⟨d3, _ | ⟨d4, rest⟩⟩⟩⟩⟩ <;> simp at hlen
  have p0 : 0 < d0 := hpos d0 (by simp)
  have p1 : 0 < d1 := hpos d1 (by simp)
  have p2 : 0 < d2 := hpos d2 (by simp)
  have p3 : 0 < d3 := hpos d3 (by simp)
  have s0 : phaseStart [d0, d1, d2, d3] 0 = 0 := by simp [phaseStart]
  have s1 : phaseStart [d0, d1, d2, d3] 1 = d0 := by simp [phaseStart]
  have s2 : phaseStart [d0, d1, d2, d3] 2 = d0 + d1 := by simp [phaseStart]
  have s3 : phaseStart [d0, d1, d2, d3] 3 = d0 + d1 + d2 := by
    simp [phaseStart]
    ring
  have s4 : phaseStart [d0, d1, d2, d3] 4 = d0 + d1 + d2 + d3 := by
    simp [phaseStart]
    ring
  have hdk : 0 < ([d0, d1, d2, d3] : List ℚ).getD k 1 := by
    interval_cases k <;> simpa
  have hstart : phaseStart [d0, d1, d2, d3] k ≤ t := by
    rcases hlo with h | h
    · rw [h, s0]; exact h0
    · exact le_of_lt h
  have hspan : phaseStart [d0, d1, d2, d3] (k + 1)
      = phaseStart [d0, d1, d2, d3] k + ([d0, d1, d2, d3] : List ℚ).getD k 1 := by
    interval_cases k <;> simp [s0, s1, s2, s3, s4]
  refine ⟨div_nonneg (by linarith) (le_of_lt hdk), ?_, ?_, ?_⟩
  · rw [div_le_one hdk]
    linarith
  · rw [div_mul_cancel₀ _ (ne_of_gt hdk)]
    ring
  · intro j hj hjlo hjhi
    interval_cases j <;> interval_cases k <;>
      simp only [s0, s1, s2, s3, s4, zero_add, Nat.reduceAdd] at hjlo hjhi hlo hhi <;>
      first
        | rfl
        | (exfalso
           rcases hjlo with h | h <;> rcases hlo with h' | h' <;>
             first
               | omega
               | linarith)

theorem stateDurations_pos : ∀ d ∈ stateDurations, (0 : ℚ) < d := by
  intro d hd
  simp [stateDurations] at hd
  rcases hd with rfl | rfl | rfl | rfl <;> norm_num

theorem segmentDurations_pos : ∀ d ∈ segmentDurations, (0 : ℚ) < d := by
  intro d hd
  simp [segmentDurations] at hd
  rcases hd with rfl | rfl | rfl | rfl <;> norm_num

/-- Claim C15 (timeline lookup is total and bounded): for every elapsed time
`>= 0` the loops of `getState` and `getSegment` return from inside the loop
(the fallback after it is not reached), with a phase index inside the list
and a progress in [0, 1]; the durations sum to the cycle length, the time
modulo the cycle is in `[0, cycle)`, and the reported phase is the only one
whose interval (start, end], closed at 0 for the first phase, holds it. -/
theorem timeline_lookup_total (time : ℚ) (h : 0 ≤ time) :
    ((∃ r, phaseLoop 0 stateDurations 0 (jsMod time totalDuration) = some r ∧
        getState time = r) ∧
      (getState time).1 < stateDurations.length ∧
      0 ≤ (getState time).2 ∧ (getState time).2 ≤ 1 ∧
      stateDurations.sum = totalDuration ∧
      (0 ≤ jsMod time totalDuration ∧ jsMod time totalDuration < totalDuration) ∧
      (∀ j, j < stateDurations.length →
        (((j = 0 ∨ phaseStart stateDurations j < jsMod time totalDuration) ∧
            jsMod time totalDuration ≤ phaseStart stateDurations (j + 1)) ↔
          j = (getState time).1))) ∧
    ((∃ r, phaseLoop 1 segmentDurations 0 (jsMod time segmentTotal) = some r ∧
        getSegment time = r) ∧
      (getSegment time).1 < segmentDurations.length ∧
      0 ≤ (getSegment time).2 ∧ (getSegment time).2 ≤ 1 ∧
      segmentDurations.sum = segmentTotal ∧
      (0 ≤ jsMod time segmentTotal ∧ jsMod time segmentTotal < segmentTotal) ∧
      (∀ j, j < segmentDurations.length →
        (((j = 0 ∨ phaseStart segmentDurations j < jsMod time segmentTotal) ∧
            jsMod time segmentTotal ≤ phaseStart segmentDurations (j + 1)) ↔
          j = (getSegment time).1))) := by
  constructor
  · obtain ⟨k, hk, hloop, hget, hlo, hhi⟩ := getState_spec time h
    have hm := jsMod_mem time totalDuration h (by rw [totalDuration_eq]; norm_num)
    obtain ⟨b1, b2, -, b4⟩ := phase_bounds stateDurations rfl stateDurations_pos
      (jsMod time totalDuration) hm.1 k hk hlo hhi
    rw [hget]
    refine ⟨⟨_, hloop, rfl⟩, hk, b1, b2, ?_, hm, ?_⟩
    · rw [totalDuration_eq]
      norm_num [stateDurations]
    · intro j hj
      constructor
      · intro hjj
        exact b4 j hj hjj.1 hjj.2
      · intro hjk
        rw [hjk]
        exact ⟨hlo, hhi⟩
  · obtain ⟨k, hk, hloop, hget, hlo, hhi⟩ := getSegment_spec time h
    have hm := jsMod_mem time segmentTotal h (by rw [segmentTotal_eq]; norm_num)
    obtain ⟨b1, b2, -, b4⟩ := phase_bounds segmentDurations rfl segmentDurations_pos
      (jsMod time segmentTotal) hm.1 k hk hlo hhi
    rw [hget]
    refine ⟨⟨_, hloop, rfl⟩, hk, b1, b2, ?_, hm, ?_⟩
    · rw [segmentTotal_eq]
      norm_num [segmentDurations]
    · intro j hj
      constructor
      · intro hjj
        exact b4 j hj hjj.1 hjj.2
      · intro hjk
        rw [hjk]
        exact ⟨hlo, hhi⟩

/-- The bounds of C15 at 9000 ms, in the second cycle. -/
theorem timeline_lookup_total_witness :
    (getState 9000).1 < stateDurations.length ∧ 0 ≤ (getState 9000).2 ∧ (getState 9000).2 ≤ 1 :=
  ⟨(timeline_lookup_total 9000 (by norm_num)).1.2.1,
    (timeline_lookup_total 9000 (by norm_num)).1.2.2.1,
    (timeline_lookup_total 9000 (by norm_num)).1.2.2.2.1⟩

/-- Claim C16 (timeline round trip): for every elapsed time `>= 0`, the sum of
the durations before the phase `getState` reports, plus progress times the
duration of that phase, is the time modulo the cycle of 6800 ms: a value in
`[0, 6800)` that differs from the time by a whole number of cycles. -/
theorem timeline_round_trip (time : ℚ) (h : 0 ≤ time) :
    phaseStart stateDurations (getState time).1
        + (getState time).2 * stateDurations.getD (getState time).1 1
      = jsMod time totalDuration ∧
    (0 ≤ jsMod time totalDuration ∧ jsMod time totalDuration < totalDuration) ∧
    (∃ cycles : ℤ, time = (cycles : ℚ) * totalDuration + jsMod time totalDuration) := by
  obtain ⟨k, hk, -, hget, hlo, hhi⟩ := getState_spec time h
  have hm := jsMod_mem time totalDuration h (by rw [totalDuration_eq]; norm_num)
  obtain ⟨-, -, b3, -⟩ := phase_bounds stateDurations rfl stateDurations_pos
    (jsMod time totalDuration) hm.1 k hk hlo hhi
  rw [hget]
  refine ⟨b3, hm, ⌊time / totalDuration⌋, ?_⟩
  have hq : 0 ≤ time / totalDuration := by
    rw [totalDuration_eq]
    exact div_nonneg h (by norm_num)
  unfold jsMod
  rw [if_pos hq]
  ring

/-- The round trip of C16 at 9000 ms. -/
theorem timeline_round_trip_witness :
    phaseStart stateDurations (getState 9000).1
        + (getState 9000).2 * stateDurations.getD (getState 9000).1 1
      = jsMod 9000 totalDuration :=
  (timeline_round_trip 9000 (by norm_num)).1

/-- Claim C23 fails at the start of the second phase: at 1700 ms, the
cumulative end of phase 0, `getState` reports phase 0 with progress 1, not
phase 1 with progress 0, because the loop tests `t <= duration`. -/
theorem progress_one_at_phase_start :
    phaseStart stateDurations 1 = 1700 ∧ jsMod 1700 totalDuration = 1700 ∧
    getState 1700 = (0, 1) ∧ getState 1700 ≠ (1, 0) := by
  refine ⟨by norm_num [phaseStart, stateDurations], ?_, ?_, ?_⟩ <;> decide!

/-- Claim C23, amended: progress is 0 only where the time modulo the cycle is
0 (phase 0); at the start of a later phase `i` the lookup still reports phase
`i - 1` with progress 1; strictly after the start of phase `i`, up to its end,
it reports phase `i` with progress `(t - start) / duration`, which is
positive. -/
theorem progress_at_phase_entry (time : ℚ) (h : 0 ≤ time) :
    (jsMod time totalDuration = 0 → getState time = (0, 0)) ∧
    (∀ i, 1 ≤ i → i < stateDurations.length →
      jsMod time totalDuration = phaseStart stateDurations i → getState time = (i - 1, 1)) ∧
    (∀ i, i < stateDurations.length →
      phaseStart stateDurations i < jsMod time totalDuration →
      jsMod time totalDuration ≤ phaseStart stateDurations (i + 1) →
      getState time
        = (i, (jsMod time totalDuration - phaseStart stateDurations i)
            / stateDurations.getD i 1) ∧
      0 < (getState time).2 ∧ (getState time).2 ≤ 1) := by
  obtain ⟨k, hk, -, hget, hlo, hhi⟩ := getState_spec time h
  have hm := jsMod_mem time totalDuration h (by rw [totalDuration_eq]; norm_num)
  obtain ⟨b1, b2, -, b4⟩ := phase_bounds stateDurations rfl stateDurations_pos
    (jsMod time totalDuration) hm.1 k hk hlo hhi
  have s0 : phaseStart stateDurations 0 = 0 := by simp [phaseStart]
  have s1 : phaseStart stateDurations 1 = 1700 := by norm_num [phaseStart, stateDurations]
  have s2 : phaseStart stateDurations 2 = 3200 := by norm_num [phaseStart, stateDurations]
  have s3 : phaseStart stateDurations 3 = 5000 := by norm_num [phaseStart, stateDurations]
  have s4 : phaseStart stateDurations 4 = 6800 := by norm_num [phaseStart, stateDurations]
  have hlen : stateDurations.length = 4 := rfl
  refine ⟨?_, ?_, ?_⟩
  · intro h0
    have hk0 : 0 = k := b4 0 (by norm_num) (Or.inl rfl) (by rw [h0, s1]; norm_num)
    rw [hget, ← hk0, h0, s0]
    norm_num
  · intro i hi1 hi4 hti
    rw [hlen] at hi4
    have hik : i - 1 = k := by
      apply b4 (i - 1) (by omega)
      · interval_cases i
        · exact Or.inl rfl
        · right
          rw [hti, s1, s2]
          norm_num
        · right
          rw [hti, s2, s3]
          norm_num
      · have e : i - 1 + 1 = i := by omega
        rw [e, hti]
    rw [hget, ← hik, hti]
    interval_cases i <;> simp only [Nat.reduceSub, s0, s1, s2, s3] <;>
      norm_num [stateDurations]
  · intro i hi hlo2 hhi2
    rw [hlen] at hi
    have hik : i = k := b4 i hi (Or.inr hlo2) hhi2
    rw [hget, ← hik]
    refine ⟨rfl, ?_, ?_⟩
    · have hd : 0 < stateDurations.getD i 1 := by
        interval_cases i <;> norm_num [stateDurations]
      exact div_pos (by linarith) hd
    · rw [hik]
      exact b2

/-- The amended C23 at 10000 ms, the start of phase 2 in the second cycle. -/
theorem progress_at_phase_entry_witness :
    getState (6800 + 3200) = (1, 1) :=
  (progress_at_phase_entry (6800 + 3200) (by norm_num)).2.1 2 (by norm_num) (by decide)
    (by decide!)

/-! ## Pseudo-random sequence generator -/

/-- A value of the generator in `1 .. 2147483646` is followed by a value in
the same range: 16807 is coprime to the modulus. -/
theorem nextValue_valid (v : ℤ) (h1 : 1 ≤ v) (h2 : v < 2147483647) :
    1 ≤ nextValue v ∧ nextValue v < 2147483647 := by
  have hnn : 0 ≤ v * 16807 := by positivity
  have he : nextValue v = (v * 16807) % 2147483647 := by
    unfold nextValue
    exact Int.tmod_eq_emod hnn (by norm_num)
  rw [he]
  have h0 : 0 ≤ (v * 16807) % 2147483647 := Int.emod_nonneg _ (by norm_num)
  have hlt : (v * 16807) % 2147483647 < 2147483647 := Int.emod_lt_of_pos _ (by norm_num)
  refine ⟨?_, hlt⟩
  by_contra hc
  have hz : (v * 16807) % 2147483647 = 0 := le_antisymm (by linarith) h0
  have hdvd : (2147483647 : ℤ) ∣ v * 16807 := Int.dvd_of_emod_eq_zero hz
  have hcop : IsCoprime (2147483647 : ℤ) 16807 := by
    rw [Int.isCoprime_iff_gcd_eq_one]
    norm_num
  have hv : (2147483647 : ℤ) ∣ v := hcop.dvd_of_dvd_mul_right hdvd
  have := Int.le_of_dvd (by linarith) hv
  linarith

/-- The generator stays in `1 .. 2147483646` for any number of draws. -/
theorem iterate_nextValue_valid (v : ℤ) (h1 : 1 ≤ v) (h2 : v < 2147483647) (n : ℕ) :
    1 ≤ nextValue^[n] v ∧ nextValue^[n] v < 2147483647 := by
  induction n with
  | zero => exact ⟨h1, h2⟩
  | succ k ih =>
    rw [Function.iterate_succ_apply']
    exact nextValue_valid _ ih.1 ih.2

/-- The number returned from a value in `1 .. 2147483646` is in `[0, 1)`. -/
theorem randomOutput_mem (v : ℤ) (h1 : 1 ≤ v) (h2 : v < 2147483647) :
    0 ≤ randomOutput v ∧ randomOutput v < 1 := by
  unfold randomOutput
  have a1 : (1 : ℚ) ≤ (v : ℚ) := by exact_mod_cast h1
  have a2 : (v : ℚ) < 2147483647 := by exact_mod_cast h2
  constructor
  · apply div_nonneg <;> linarith
  · rw [div_lt_one (by norm_num)]
    linarith

/-- Closed form of the state: after `n` draws from a value `v >= 0` it is
`v * 16807 ^ n` modulo 2147483647. -/
theorem iterate_nextValue_eq (v : ℤ) (h0 : 0 ≤ v) (n : ℕ) :
    nextValue^[n] v = (v * 16807 ^ n) % 2147483647 ∨ (n = 0 ∧ nextValue^[n] v = v) := by
  induction n with
  | zero => exact Or.inr ⟨rfl, rfl⟩
  | succ k ih =>
    left
    rw [Function.iterate_succ_apply']
    have hk : 0 ≤ nextValue^[k] v := by
      rcases ih with h | ⟨-, h⟩
      · rw [h]
        exact Int.emod_nonneg _ (by norm_num)
      · rw [h]
        exact h0
    have hstep : nextValue (nextValue^[k] v) = (nextValue^[k] v * 16807) % 2147483647 := by
      unfold nextValue
      exact Int.tmod_eq_emod (by positivity) (by norm_num)
    rw [hstep]
    rcases ih with h | ⟨hk0, h⟩
    · rw [h, Int.mul_emod (v * 16807 ^ k % 2147483647) 16807, Int.emod_emod, ← Int.mul_emod,
        pow_succ, mul_assoc]
    · rw [h, hk0]
      norm_num

/-- Claim C27 (deterministic Lehmer generator): for a seed in
`1 .. 2147483646` the generator starts from the seed itself, the number
returned by the `n`-th call, `n >= 1`, is
`((seed * 16807 ^ n mod 2147483647) - 1) / 2147483646` and lies in `[0, 1)`;
the product formed by that call is a non-negative integer below `2 ^ 53`, so
the remainder is taken exactly; and the numbers returned depend on the seed
and the call count alone: the state after `n + k` calls is the state after
`n` calls advanced `k` times. -/
theorem lehmer_closed_form (seed : ℤ) (hs : 1 ≤ seed ∧ seed ≤ 2147483646) (n : ℕ)
    (hn : 1 ≤ n) :
    makeRandom seed = seed ∧
    nthRandom seed n = ((((seed * 16807 ^ n) % 2147483647 : ℤ) : ℚ) - 1) / 2147483646 ∧
    (0 ≤ nthRandom seed n ∧ nthRandom seed n < 1) ∧
    (0 ≤ valueAfter seed (n - 1) * 16807 ∧ valueAfter seed (n - 1) * 16807 < 2 ^ 53) ∧
    valueAfter seed n = nextValue (valueAfter seed (n - 1)) ∧
    (∀ k, valueAfter seed (n + k) = nextValue^[k] (valueAfter seed n)) := by
  have hmk : makeRandom seed = seed := by
    unfold makeRandom
    have : Int.tmod seed 2147483647 = seed := by
      rw [Int.tmod_eq_emod (by omega) (by norm_num)]
      exact Int.emod_eq_of_lt (by omega) (by omega)
    simp only [this]
    rw [if_neg (by omega)]
  have hval : ∀ j, 1 ≤ valueAfter seed j ∧ valueAfter seed j < 2147483647 := by
    intro j
    unfold valueAfter
    rw [hmk]
    exact iterate_nextValue_valid seed hs.1 (by omega) j
  have hstep : valueAfter seed n = nextValue (valueAfter seed (n - 1)) := by
    obtain ⟨j, rfl⟩ : ∃ j, n = j + 1 := ⟨n - 1, by omega⟩
    unfold valueAfter
    rw [Function.iterate_succ_apply']
    rfl
  refine ⟨hmk, ?_, ?_, ?_, hstep, ?_⟩
  · unfold nthRandom randomOutput valueAfter
    rw [hmk]
    rcases iterate_nextValue_eq seed (by omega) n with h | ⟨h, -⟩
    · rw [h]
    · omega
  · exact randomOutput_mem _ (hval n).1 (hval n).2
  · have := hval (n - 1)
    constructor
    · nlinarith [this.1]
    · have h2 : valueAfter seed (n - 1) * 16807 < 2147483647 * 16807 := by
        nlinarith [this.2]
      calc valueAfter seed (n - 1) * 16807 < 2147483647 * 16807 := h2
        _ < 2 ^ 53 := by norm_num
  · intro k
    unfold valueAfter
    rw [Nat.add_comm, Function.iterate_add_apply]

/-- The closed form of C27 for seed 48 and its third draw. -/
theorem lehmer_closed_form_witness :
    nthRandom 48 3 = ((((48 * 16807 ^ 3) % 2147483647 : ℤ) : ℚ) - 1) / 2147483646 :=
  (lehmer_closed_form 48 (by decide) 3 (by decide)).2.1

/-- Claim C28 (state normalisation for every integer seed), as it fails on the
code: for the seed -2147483646 the remainder is the seed itself, adding
2147483646 gives the state 0, the state stays 0 after every draw, and every
draw returns `-1 / 2147483646`, which is negative. The state after
construction is 0 exactly for the seeds whose remainder is -2147483646; for
every other integer seed it is in `1 .. 2147483646`, stays there, and every
draw is in `[0, 1)`. -/
theorem zero_state_absorbs :
    makeRandom (-2147483646) = 0 ∧
    (∀ n, valueAfter (-2147483646) n = 0 ∧
      nthRandom (-2147483646) n = -1 / 2147483646 ∧ nthRandom (-2147483646) n < 0) ∧
    (∀ seed : ℤ, makeRandom seed = 0 ↔ Int.tmod seed 2147483647 = -2147483646) ∧
    (∀ seed : ℤ, makeRandom seed ≠ 0 → ∀ n,
      (1 ≤ valueAfter seed n ∧ valueAfter seed n < 2147483647) ∧
      (0 ≤ nthRandom seed n ∧ nthRandom seed n < 1)) := by
  have hzero : ∀ n, valueAfter (-2147483646) n = 0 := by
    intro n
    unfold valueAfter
    induction n with
    | zero => decide!
    | succ k ih =>
      rw [Function.iterate_succ_apply', ih]
      decide!
  have hrange : ∀ seed : ℤ, -2147483647 < Int.tmod seed 2147483647 ∧
      Int.tmod seed 2147483647 < 2147483647 := by
    intro seed
    constructor
    · rcases le_or_lt 0 seed with h | h
      · have := Int.tmod_nonneg (2147483647 : ℤ) h
        omega
      · have e : Int.tmod seed 2147483647 = -(Int.tmod (-seed) 2147483647) := by
          rw [Int.tmod_def, Int.tmod_def, Int.neg_tdiv]
          ring
        have := Int.tmod_lt_of_pos (-seed) (show (0 : ℤ) < 2147483647 by norm_num)
        omega
    · exact Int.tmod_lt_of_pos seed (by norm_num)
  refine ⟨by decide!, ?_, ?_, ?_⟩
  · intro n
    refine ⟨hzero n, ?_, ?_⟩
    · unfold nthRandom randomOutput
      rw [hzero n]
      norm_num
    · unfold nthRandom randomOutput
      rw [hzero n]
      norm_num
  · intro seed
    have := hrange seed
    unfold makeRandom
    simp only
    split_ifs with h <;> constructor <;> intro h2 <;> omega
  · intro seed hne n
    have hr := hrange seed
    have hv : 1 ≤ makeRandom seed ∧ makeRandom seed < 2147483647 := by
      unfold makeRandom at hne ⊢
      simp only at hne ⊢
      split_ifs at hne ⊢ with h <;> omega
    have hn := iterate_nextValue_valid (makeRandom seed) hv.1 hv.2 n
    exact ⟨hn, randomOutput_mem _ hn.1 hn.2⟩

/-! ## Ground scene: routes -/

theorem grid_length : grid.length = 60 := by decide!

/-- In exact arithmetic the destination is cell 24, row 2 and column 4: the
first of the four cells that are equally near the centre. -/
theorem orangeIndex_eq : orangeIndex = 24 := by decide!

theorem orangeIndex_range : 0 ≤ orangeIndex ∧ orangeIndex < 60 := by
  rw [orangeIndex_eq]
  decide

/-- Cell `i` of the grid is in row `i / 10` and column `i % 10`, checked cell
by cell on the array. -/
theorem gridAt_all : ∀ i < 60,
    (match gridAt ((i : ℕ) : ℤ) with
      | some p => decide (p.row = ((i / 10 : ℕ) : ℤ) ∧ p.col = ((i % 10 : ℕ) : ℤ))
      | none => false) = true := by
  decide!

theorem gridAt_eq (i : ℤ) (h : 0 ≤ i ∧ i < 60) :
    ∃ p, gridAt i = some p ∧ i = p.row * 10 + p.col ∧
      (0 ≤ p.row ∧ p.row ≤ 5) ∧ (0 ≤ p.col ∧ p.col ≤ 9) := by
  have h1 := gridAt_all i.toNat (by omega)
  rw [Int.toNat_of_nonneg h.1] at h1
  cases hp : gridAt i with
  | none => simp [hp] at h1
  | some p =>
    simp only [hp, decide_eq_true_eq] at h1
    refine ⟨p, rfl, ?_, ?_, ?_⟩
    · rw [h1.1, h1.2]
      omega
    · rw [h1.1]
      omega
    · rw [h1.2]
      omega

theorem sign_cases (x : ℤ) :
    (x < 0 ∧ Int.sign x = -1) ∨ (x = 0 ∧ Int.sign x = 0) ∨ (0 < x ∧ Int.sign x = 1) := by
  rcases lt_trichotomy x 0 with h | h | h
  · exact Or.inl ⟨h, Int.sign_eq_neg_one_of_neg h⟩
  · exact Or.inr (Or.inl ⟨h, by rw [h]; rfl⟩)
  · exact Or.inr (Or.inr ⟨h, Int.sign_eq_one_of_pos h⟩)

theorem natAbs_sign_le (a : ℤ) : (Int.sign a).natAbs ≤ 1 := by
  rcases sign_cases a with ⟨-, e⟩ | ⟨-, e⟩ | ⟨-, e⟩ <;> rw [e] <;> decide

theorem natAbs_sub_sign (a : ℤ) : (a - Int.sign a).natAbs = a.natAbs - 1 := by
  rcases sign_cases a with ⟨h, e⟩ | ⟨h, e⟩ | ⟨h, e⟩ <;> rw [e] <;> omega

/-- What `signStep` says of its two cells. -/
theorem signStep_facts (target : GridPoint) (a b : ℤ) (h : signStep target a b = true) :
    ∃ p q, gridAt a = some p ∧ gridAt b = some q ∧
      q.row = p.row + Int.sign (target.row - p.row) ∧
      q.col = p.col + Int.sign (target.col - p.col) ∧
      (q.row - p.row).natAbs ≤ 1 ∧ (q.col - p.col).natAbs ≤ 1 ∧
      chebyshev q target + 1 = chebyshev p target := by
  unfold signStep at h
  cases hp : gridAt a with
  | none => simp [hp] at h
  | some p =>
    cases hq : gridAt b with
    | none => simp [hp, hq] at h
    | some q =>
      simp only [hp, hq, Bool.and_eq_true, decide_eq_true_eq] at h
      exact ⟨p, q, rfl, rfl, h.1.1.1.1, h.1.1.1.2, h.1.1.2, h.1.2, h.2⟩

/-- The facts of one iteration of the route loop at the cell `current`, for
the destination `orange`: the cell is the destination exactly when its row and
column are those of the target, and otherwise the next index is on the grid
and one `signStep` away. -/
theorem routeStep_facts (orange current : ℤ) (ho : 0 ≤ orange ∧ orange < 60)
    (hc : 0 ≤ current ∧ current < 60) :
    ∃ target point, gridAt orange = some target ∧ gridAt current = some point ∧
      ((point.row = target.row ∧ point.col = target.col) ↔ current = orange) ∧
      (chebyshev point target = 0 ↔ current = orange) ∧
      chebyshev point target ≤ 9 ∧
      (current ≠ orange →
        (0 ≤ indexFor (point.row + Int.sign (target.row - point.row))
            (point.col + Int.sign (target.col - point.col)) ∧
          indexFor (point.row + Int.sign (target.row - point.row))
            (point.col + Int.sign (target.col - point.col)) < 60) ∧
        signStep target current
          (indexFor (point.row + Int.sign (target.row - point.row))
            (point.col + Int.sign (target.col - point.col))) = true) := by
  obtain ⟨target, ht, hto, htr, htc⟩ := gridAt_eq orange ho
  obtain ⟨point, hp, hpo, hpr, hpc⟩ := gridAt_eq current hc
  refine ⟨target, point, ht, hp, ?_, ?_, ?_, ?_⟩
  · omega
  · unfold chebyshev
    omega
  · unfold chebyshev
    omega
  · intro hne
    have hidx : indexFor (point.row + Int.sign (target.row - point.row))
          (point.col + Int.sign (target.col - point.col))
        = (point.row + Int.sign (target.row - point.row)) * 10
          + (point.col + Int.sign (target.col - point.col)) := rfl
    have hsr := sign_cases (target.row - point.row)
    have hsc := sign_cases (target.col - point.col)
    have hrange : 0 ≤ indexFor (point.row + Int.sign (target.row - point.row))
          (point.col + Int.sign (target.col - point.col)) ∧
        indexFor (point.row + Int.sign (target.row - point.row))
          (point.col + Int.sign (target.col - point.col)) < 60 := by
      rw [hidx]
      omega
    obtain ⟨q, hq, hqo, hqr, hqc⟩ := gridAt_eq _ hrange
    refine ⟨hrange, ?_⟩
    unfold signStep
    simp only [hp, hq, Bool.and_eq_true, decide_eq_true_eq]
    rw [hidx] at hqo
    have hrow : q.row = point.row + Int.sign (target.row - point.row) := by omega
    have hcol : q.col = point.col + Int.sign (target.col - point.col) := by omega
    have hrc : point.row ≠ target.row ∨ point.col ≠ target.col := by omega
    refine ⟨⟨⟨⟨hrow, hcol⟩, ?_⟩, ?_⟩, ?_⟩
    · rw [hrow, add_sub_cancel_left]
      exact natAbs_sign_le _
    · rw [hcol, add_sub_cancel_left]
      exact natAbs_sign_le _
    · unfold chebyshev
      have e1 : target.row - q.row
          = (target.row - point.row) - Int.sign (target.row - point.row) := by
        rw [hrow]
        ring
      have e2 : target.col - q.col
          = (target.col - point.col) - Int.sign (target.col - point.col) := by
        rw [hcol]
        ring
      rw [e1, e2, natAbs_sub_sign, natAbs_sub_sign]
      have hnz : (target.row - point.row).natAbs ≠ 0 ∨ (target.col - point.col).natAbs ≠ 0 := by
        rcases hrc with h | h
        · left
          rw [Int.natAbs_ne_zero]
          intro h0
          apply h
          linarith
        · right
          rw [Int.natAbs_ne_zero]
          intro h0
          apply h
          linarith
      generalize (target.row - point.row).natAbs = x at hnz ⊢
      generalize (target.col - point.col).natAbs = y at hnz ⊢
      omega

/-- The loop of `buildRoute` from a cell at king-move distance `n` from the
target, with at least `n` left of the guard: it returns, having pushed `n`
cells, the last one the destination, each one `signStep` from the one before. -/
theorem routeLoop_spec (orange : ℤ) (ho : 0 ≤ orange ∧ orange < 60) (target : GridPoint)
    (ht : gridAt orange = some target) :
    ∀ (n budget : ℕ) (current : ℤ) (route : List ℤ) (point : GridPoint),
      0 ≤ current ∧ current < 60 → gridAt current = some point →
      chebyshev point target = n → n ≤ budget →
      ∃ path, routeLoop target budget current route = some (route ++ path) ∧
        path.length = n ∧ (current :: path).getLast? = some orange ∧
        (∀ e ∈ path, 0 ≤ e ∧ e < 60) ∧
        List.Chain (fun a b => signStep target a b = true) current path := by
  intro n
  induction n with
  | zero =>
    intro budget current route point hc hp hn _
    obtain ⟨target1, point1, ht1, hp1, hiff, hcheb, -, -⟩ := routeStep_facts orange current ho hc
    rw [ht] at ht1
    rw [hp] at hp1
    cases ht1
    cases hp1
    have hco : current = orange := hcheb.1 hn
    have hrc := hiff.2 hco
    refine ⟨[], ?_, rfl, by simp [hco], by simp, List.Chain.nil⟩
    cases budget with
    | zero => simp [routeLoop, hp]
    | succ b => simp [routeLoop, hp, hrc.1, hrc.2]
  | succ n ih =>
    intro budget current route point hc hp hn hb
    obtain ⟨target1, point1, ht1, hp1, hiff, hcheb, -, hstep⟩ :=
      routeStep_facts orange current ho hc
    rw [ht] at ht1
    rw [hp] at hp1
    cases ht1
    cases hp1
    have hne : current ≠ orange := by
      intro hco
      have := hcheb.2 hco
      omega
    obtain ⟨hrange, hsign⟩ := hstep hne
    obtain ⟨p, q, hpa, hq, -, -, -, -, hdec⟩ := signStep_facts _ _ _ hsign
    rw [hp] at hpa
    cases hpa
    obtain ⟨b, rfl⟩ : ∃ b, budget = b + 1 := ⟨budget - 1, by omega⟩
    have hcond : point.row ≠ target.row ∨ point.col ≠ target.col := by
      by_contra hcon
      push_neg at hcon
      exact hne (hiff.1 hcon)
    obtain ⟨path, hloop, hlen, hlast, hmem, hchain⟩ :=
      ih b _ (route ++ [indexFor (point.row + Int.sign (target.row - point.row))
        (point.col + Int.sign (target.col - point.col))]) q hrange hq (by omega) (by omega)
    refine ⟨indexFor (point.row + Int.sign (target.row - point.row))
        (point.col + Int.sign (target.col - point.col)) :: path, ?_, ?_, ?_, ?_, ?_⟩
    · rw [routeLoop]
      simp only [hp]
      rw [if_pos hcond, hloop]
      simp
    · simp [hlen]
    · rw [List.getLast?_cons_cons]
      exact hlast
    · intro e he
      rcases List.mem_cons.1 he with rfl | he
      · exact hrange
      · exact hmem e he
    · exact List.Chain.cons hsign hchain

/-- A chain of `signStep`s never visits a cell twice: the king-move distance
to the target drops by one at every step. -/
theorem signStep_chain_nodup (target : GridPoint) (route : List ℤ)
    (h : route.Chain' (fun a b => signStep target a b = true)) : route.Nodup := by
  let m : ℤ → ℕ := fun e =>
    match gridAt e with
    | some p => chebyshev p target
    | none => 0
  have hchain : route.Chain' (fun a b => m b < m a) := by
    refine List.Chain'.imp ?_ h
    intro a b hab
    obtain ⟨p, q, hp, hq, -, -, -, -, hdec⟩ := signStep_facts _ _ _ hab
    show (match gridAt b with | some p => chebyshev p target | none => 0)
      < (match gridAt a with | some p => chebyshev p target | none => 0)
    rw [hp, hq]
    show chebyshev q target < chebyshev p target
    omega
  have htrans : IsTrans ℤ (fun a b => m b < m a) :=
    ⟨fun a b c hab hbc => lt_trans hbc hab⟩
  have hpair : route.Pairwise (fun a b => m b < m a) :=
    (@List.chain'_iff_pairwise ℤ (fun a b => m b < m a) htrans route).1 hchain
  refine List.Pairwise.imp ?_ hpair
  intro a b hlt hab
  rw [hab] at hlt
  exact lt_irrefl _ hlt

/-- The route from any start cell other than the destination. -/
theorem routeFrom_spec (orange start : ℤ) (ho : 0 ≤ orange ∧ orange < 60)
    (hs : 0 ≤ start ∧ start < 60) (hne : start ≠ orange) :
    ∃ target first route, gridAt orange = some target ∧ gridAt start = some first ∧
      routeFrom orange start = some route ∧ route.head? = some start ∧
      route.getLast? = some orange ∧ route.length = chebyshev first target + 1 ∧
      1 ≤ chebyshev first target ∧ chebyshev first target ≤ 9 ∧ route.Nodup ∧
      (∀ e ∈ route, 0 ≤ e ∧ e < 60) ∧
      route.Chain' (fun a b => signStep target a b = true) := by
  obtain ⟨target, first, ht, hf, -, hcheb, h9, -⟩ := routeStep_facts orange start ho hs
  obtain ⟨path, hloop, hlen, hlast, hmem, hchain⟩ :=
    routeLoop_spec orange ho target ht (chebyshev first target) (rows * cols) start [start]
      first hs hf rfl (by
        have : rows * cols = 60 := rfl
        omega)
  have hchain2 : (start :: path).Chain' (fun a b => signStep target a b = true) := hchain
  refine ⟨target, first, [start] ++ path, ht, hf, ?_, rfl, hlast, ?_, ?_, h9,
    signStep_chain_nodup target _ hchain2, ?_, hchain2⟩
  · unfold routeFrom
    rw [ht]
    exact hloop
  · simp [hlen]
  · by_contra hc
    exact hne (hcheb.1 (by omega))
  · intro e he
    rcases List.mem_cons.1 he with rfl | he
    · exact hs
    · exact hmem e he

/-- A king move changes the king-move distance to any point by at most one. -/
theorem kingAdjacent_chebyshev (target : GridPoint) (a b : ℤ) (h : kingAdjacent a b = true) :
    ∃ p q, gridAt a = some p ∧ gridAt b = some q ∧
      chebyshev p target ≤ chebyshev q target + 1 := by
  unfold kingAdjacent at h
  cases hp : gridAt a with
  | none => simp [hp] at h
  | some p =>
    cases hq : gridAt b with
    | none => simp [hp, hq] at h
    | some q =>
      simp only [hp, hq, Bool.and_eq_true, decide_eq_true_eq] at h
      refine ⟨p, q, rfl, rfl, ?_⟩
      unfold chebyshev
      have t1 : (target.row - p.row).natAbs
          ≤ (target.row - q.row).natAbs + (q.row - p.row).natAbs := by
        have e : target.row - p.row = (target.row - q.row) + (q.row - p.row) := by ring
        rw [e]
        exact Int.natAbs_add_le _ _
      have t2 : (target.col - p.col).natAbs
          ≤ (target.col - q.col).natAbs + (q.col - p.col).natAbs := by
        have e : target.col - p.col = (target.col - q.col) + (q.col - p.col) := by ring
        rw [e]
        exact Int.natAbs_add_le _ _
      have h1 := h.1
      have h2 := h.2
      generalize (target.row - p.row).natAbs = a1 at t1 ⊢
      generalize (target.col - p.col).natAbs = a2 at t2 ⊢
      generalize (target.row - q.row).natAbs = b1 at t1 ⊢
      generalize (target.col - q.col).natAbs = b2 at t2 ⊢
      generalize (q.row - p.row).natAbs = c1 at t1 h1
      generalize (q.col - p.col).natAbs = c2 at t2 h2
      omega

/-- No path of king moves is shorter than the king-move distance. -/
theorem kingPath_length (target : GridPoint) (dest : ℤ) (ht : gridAt dest = some target) :
    ∀ (path : List ℤ) (start : ℤ) (first : GridPoint), gridAt start = some first →
      IsKingPath start dest path → chebyshev first target + 1 ≤ path.length := by
  intro path
  induction path with
  | nil =>
    intro start first _ h
    simp [IsKingPath] at h
  | cons a rest ih =>
    intro start first hf h
    obtain ⟨hhead, hlast, hchain⟩ := h
    have ha : a = start := by simpa using hhead
    subst ha
    cases rest with
    | nil =>
      have hd : a = dest := by simpa using hlast
      subst hd
      rw [ht] at hf
      cases hf
      simp [chebyshev]
    | cons b rest2 =>
      rw [List.chain'_cons] at hchain
      obtain ⟨p, q, hp, hq, hle⟩ := kingAdjacent_chebyshev target a b hchain.1
      rw [hf] at hp
      cases hp
      have hlast2 : (b :: rest2).getLast? = some dest := by
        rw [List.getLast?_cons_cons] at hlast
        exact hlast
      have := ih b q hq ⟨rfl, hlast2, hchain.2⟩
      simp only [List.length_cons] at this ⊢
      omega

/-- A `signStep` is a king move. -/
theorem signStep_kingAdjacent (target : GridPoint) (a b : ℤ)
    (h : signStep target a b = true) : kingAdjacent a b = true := by
  obtain ⟨p, q, hp, hq, -, -, h1, h2, -⟩ := signStep_facts _ _ _ h
  simp [kingAdjacent, hp, hq, h1, h2]

/-- The start cell chosen from a number in `[0, 1)` is on the grid and is not
the destination. -/
theorem chooseStart_valid (orange : ℤ) (u : ℚ) (hu : 0 ≤ u ∧ u < 1) :
    (0 ≤ chooseStart orange u ∧ chooseStart orange u < 60) ∧ chooseStart orange u ≠ orange := by
  have h0 : 0 ≤ ⌊u * 60⌋ := Int.floor_nonneg.2 (by linarith [hu.1])
  have h1 : ⌊u * 60⌋ < 60 := by
    rw [Int.floor_lt]
    push_cast
    linarith [hu.2]
  unfold chooseStart
  simp only [grid_length]
  push_cast
  generalize ⌊u * 60⌋ = s at h0 h1
  split_ifs with h
  · have e : Int.tmod (s + 1) 60 = (s + 1) % 60 := Int.tmod_eq_emod (by omega) (by norm_num)
    rw [e]
    omega
  · exact ⟨⟨h0, h1⟩, h⟩

/-- The effect of `buildRoute()` from a generator state in its cycle. -/
theorem buildRoute_spec (orange : ℤ) (ho : 0 ≤ orange ∧ orange < 60) (st : GroundState)
    (hv : 1 ≤ st.value ∧ st.value < 2147483647) :
    ∃ start route, (0 ≤ start ∧ start < 60) ∧ start ≠ orange ∧
      start = chooseStart orange (randomOutput (nextValue st.value)) ∧
      routeFrom orange start = some route ∧
      buildRoute orange st = some { st with
        value := nextValue st.value, route := route, segmentIndex := 0, segmentTimer := 0 } := by
  have hnv := nextValue_valid st.value hv.1 hv.2
  have hu := randomOutput_mem _ hnv.1 hnv.2
  have hstart := chooseStart_valid orange _ hu
  obtain ⟨target, first, route, -, -, hroute, -⟩ :=
    routeFrom_spec orange _ ho hstart.1 hstart.2
  refine ⟨_, route, hstart.1, hstart.2, rfl, hroute, ?_⟩
  unfold buildRoute
  simp only [hroute]

/-- The state `buildRoute()` leaves satisfies `GroundInv`, with the packet on
the first segment of a route that ends at the destination. -/
theorem buildRoute_inv (orange : ℤ) (ho : 0 ≤ orange ∧ orange < 60) (st : GroundState)
    (hv : 1 ≤ st.value ∧ st.value < 2147483647) :
    ∃ st1, buildRoute orange st = some st1 ∧ GroundInv st1 ∧ st1.segmentIndex = 0 ∧
      st1.segmentTimer = 0 ∧ st1.lastTime = st.lastTime ∧
      st1.route.getLast? = some orange ∧ st1.route.head? ≠ some orange := by
  obtain ⟨start, route, hs, hne, -, hroute, hbuild⟩ := buildRoute_spec orange ho st hv
  obtain ⟨target, first, route1, -, -, hroute1, hhead, hlast, hlen, h1, -, -, hmem, -⟩ :=
    routeFrom_spec orange start ho hs hne
  rw [hroute] at hroute1
  cases hroute1
  have hnv := nextValue_valid st.value hv.1 hv.2
  refine ⟨_, hbuild, ⟨hnv, ?_, hmem, ?_⟩, rfl, rfl, rfl, hlast, ?_⟩
  · show 2 ≤ route.length
    omega
  · show 0 + 2 ≤ route.length
    omega
  · show route.head? ≠ some orange
    rw [hhead]
    intro h
    exact hne (Option.some.inj h)

/-- The segment-advance loop returns whenever its bound exceeds
`segmentTimer / segmentTotal`, and keeps `GroundInv`. -/
theorem advanceSegments_spec (orange : ℤ) (ho : 0 ≤ orange ∧ orange < 60) :
    ∀ (fuel : ℕ) (st : GroundState), GroundInv st →
      st.segmentTimer < groundSegmentTotal * fuel ∨ st.segmentTimer < groundSegmentTotal →
      ∃ st1, advanceSegments orange fuel st = some st1 ∧ GroundInv st1 ∧
        st1.segmentTimer < groundSegmentTotal ∧ st1.lastTime = st.lastTime := by
  have htot : groundSegmentTotal = 270 := by
    norm_num [groundSegmentTotal, burstDuration, holdDuration]
  intro fuel
  induction fuel with
  | zero =>
    intro st hinv hlt
    have hlt2 : st.segmentTimer < groundSegmentTotal := by
      rcases hlt with h | h
      · simp at h
        rw [htot]
        linarith
      · exact h
    refine ⟨st, ?_, hinv, hlt2, rfl⟩
    unfold advanceSegments
    rw [if_neg (not_le.2 hlt2)]
  | succ fuel ih =>
    intro st hinv hlt
    by_cases hge : st.segmentTimer ≥ groundSegmentTotal
    · unfold advanceSegments
      rw [if_pos hge]
      simp only
      by_cases hend : ((st.segmentIndex + 1 : ℕ) : ℤ) ≥ (st.route.length : ℤ) - 1
      · rw [if_pos hend]
        obtain ⟨st1, hb, hinv1, -, ht, hl, -, -⟩ := buildRoute_inv orange ho
          { st with
            segmentTimer := st.segmentTimer - groundSegmentTotal,
            segmentIndex := st.segmentIndex + 1 } hinv.1
        refine ⟨st1, hb, hinv1, ?_, hl⟩
        rw [ht, htot]
        norm_num
      · rw [if_neg hend]
        have hinv1 : GroundInv { st with
            segmentTimer := st.segmentTimer - groundSegmentTotal,
            segmentIndex := st.segmentIndex + 1 } := by
          refine ⟨hinv.1, hinv.2.1, hinv.2.2.1, ?_⟩
          show st.segmentIndex + 1 + 2 ≤ st.route.length
          push_neg at hend
          omega
        have hlt1 : (st.segmentTimer - groundSegmentTotal) < groundSegmentTotal * fuel ∨
            (st.segmentTimer - groundSegmentTotal) < groundSegmentTotal := by
          rcases hlt with h | h
          · left
            push_cast at h
            linarith
          · right
            linarith
        obtain ⟨st1, hadv, hinv2, ht, hl⟩ := ih _ hinv1 hlt1
        exact ⟨st1, hadv, hinv2, ht, hl⟩
    · refine ⟨st, ?_, hinv, not_le.1 hge, rfl⟩
      unfold advanceSegments
      rw [if_neg hge]

/-- With `GroundInv` both ends of the packet's segment are grid points. -/
theorem packetEnds_isSome (st : GroundState) (hinv : GroundInv st) :
    ∃ a b source dest, st.route.get? st.segmentIndex = some a ∧
      st.route.get? (st.segmentIndex + 1) = some b ∧ gridAt a = some source ∧
      gridAt b = some dest ∧ packetEnds st = some (source, dest) := by
  obtain ⟨-, -, hmem, hidx⟩ := hinv
  have h1 : st.segmentIndex < st.route.length := by omega
  have h2 : st.segmentIndex + 1 < st.route.length := by omega
  have ha := List.get?_eq_get h1
  have hb := List.get?_eq_get h2
  obtain ⟨source, hs, -⟩ := gridAt_eq _ (hmem _ (List.get_mem _ _ h1))
  obtain ⟨dest, hd, -⟩ := gridAt_eq _ (hmem _ (List.get_mem _ _ h2))
  refine ⟨_, _, source, dest, ha, hb, hs, hd, ?_⟩
  unfold packetEnds
  rw [ha, hb]
  simp only [hs, hd]

/-- One `render` call of the ground scene returns and keeps `GroundInv`. -/
theorem groundRender_spec (orange : ℤ) (ho : 0 ≤ orange ∧ orange < 60) (time : ℚ)
    (st : GroundState) (hinv : GroundInv st) :
    ∃ st1, groundRender orange time st = some st1 ∧ GroundInv st1 ∧
      st1.segmentTimer < groundSegmentTotal ∧ st1.lastTime = time := by
  have htot : groundSegmentTotal = 270 := by
    norm_num [groundSegmentTotal, burstDuration, holdDuration]
  unfold groundRender
  simp only
  apply advanceSegments_spec orange ho
  · exact hinv
  · left
    push_cast
    generalize st.segmentTimer + max 0 (time - if st.lastTime = 0 then time else st.lastTime)
      = timer
    have h1 : timer / groundSegmentTotal < ⌊timer / groundSegmentTotal⌋ + 1 :=
      Int.lt_floor_add_one _
    have h2 : ((⌊timer / groundSegmentTotal⌋ : ℤ) : ℚ)
        ≤ ((⌊timer / groundSegmentTotal⌋.toNat : ℕ) : ℚ) := by
      have := Int.self_le_toNat ⌊timer / groundSegmentTotal⌋
      exact_mod_cast this
    rw [htot] at h1 h2 ⊢
    rw [div_lt_iff₀ (by norm_num)] at h1
    linarith

/-- Any sequence of `render` calls of the ground scene returns and keeps
`GroundInv`. -/
theorem groundRun_spec (orange : ℤ) (ho : 0 ≤ orange ∧ orange < 60) :
    ∀ (times : List ℚ) (st : GroundState), GroundInv st →
      ∃ st1, groundRun orange times st = some st1 ∧ GroundInv st1 := by
  intro times
  induction times with
  | nil =>
    intro st hinv
    exact ⟨st, rfl, hinv⟩
  | cons time rest ih =>
    intro st hinv
    obtain ⟨st1, hr, hinv1, -, -⟩ := groundRender_spec orange ho time st hinv
    obtain ⟨st2, hrun, hinv2⟩ := ih st1 hinv1
    refine ⟨st2, ?_, hinv2⟩
    unfold groundRun
    rw [hr]
    exact hrun

/-- The generator of the ground scene is in its cycle when the grid is built. -/
theorem groundSeed_valid (n : ℕ) :
    1 ≤ valueAfter groundSeed n ∧ valueAfter groundSeed n < 2147483647 := by
  unfold valueAfter
  have h : makeRandom groundSeed = 48 := by decide!
  rw [h]
  exact iterate_nextValue_valid 48 (by norm_num) (by norm_num) n

/-- Claim C12 (routes end at the destination): for every destination on the
grid, the route from every start cell other than the destination exists, ends
exactly at the destination index, and has pushed at most 9 cells, so the guard
is below its ceiling of `rows * cols` when the loop exits; the same holds of
the route `buildRoute()` builds from any generator state of the cycle, and of
the first route of the scene. -/
theorem route_reaches_destination (orange : ℤ) (ho : 0 ≤ orange ∧ orange < 60) :
    (∀ start : ℤ, 0 ≤ start ∧ start < 60 → start ≠ orange →
      ∃ route, routeFrom orange start = some route ∧ route.head? = some start ∧
        route.getLast? = some orange ∧ route.length - 1 ≤ 9 ∧
        route.length - 1 < rows * cols) ∧
    (∀ st : GroundState, 1 ≤ st.value ∧ st.value < 2147483647 →
      ∃ st1, buildRoute orange st = some st1 ∧
        routeFrom orange (chooseStart orange (randomOutput (nextValue st.value)))
          = some st1.route ∧
        st1.route.getLast? = some orange ∧ st1.route.length - 1 < rows * cols) ∧
    (∃ st0, createGroundScene orange = some st0 ∧ st0.route.getLast? = some orange ∧
      st0.route.length - 1 < rows * cols) := by
  have hrc : rows * cols = 60 := rfl
  have key : ∀ st : GroundState, 1 ≤ st.value ∧ st.value < 2147483647 →
      ∃ st1, buildRoute orange st = some st1 ∧
        routeFrom orange (chooseStart orange (randomOutput (nextValue st.value)))
          = some st1.route ∧
        st1.route.getLast? = some orange ∧ st1.route.length - 1 < rows * cols := by
    intro st hv
    obtain ⟨start, route, hs, hne, hstart, hroute, hbuild⟩ := buildRoute_spec orange ho st hv
    obtain ⟨target, first, route1, -, -, hroute1, -, hlast, hlen, -, h9, -⟩ :=
      routeFrom_spec orange start ho hs hne
    rw [hroute] at hroute1
    cases hroute1
    refine ⟨_, hbuild, ?_, hlast, ?_⟩
    · rw [← hstart]
      exact hroute
    · show route.length - 1 < rows * cols
      omega
  refine ⟨?_, key, ?_⟩
  · intro start hs hne
    obtain ⟨target, first, route, -, -, hroute, hhead, hlast, hlen, -, h9, -⟩ :=
      routeFrom_spec orange start ho hs hne
    exact ⟨route, hroute, hhead, hlast, by omega, by omega⟩
  · have hseed := groundSeed_valid (2 * rows * cols)
    have key2 := fun (v : ℤ) (hv : 1 ≤ v ∧ v < 2147483647) => key
      { value := v, route := [], segmentIndex := 0, segmentTimer := 0, lastTime := 0 } hv
    obtain ⟨st1, hb, -, hlast, hlen⟩ := key2 _ hseed
    exact ⟨st1, hb, hlast, hlen⟩

/-- The route of C12 from cell 0 to the destination of the scene. -/
theorem route_reaches_destination_witness :
    (0 ≤ orangeIndex ∧ orangeIndex < 60) ∧
    ∃ route, routeFrom orangeIndex 0 = some route ∧ route.head? = some 0 ∧
      route.getLast? = some orangeIndex ∧ route.length - 1 ≤ 9 ∧
      route.length - 1 < rows * cols :=
  ⟨orangeIndex_range, (route_reaches_destination orangeIndex orangeIndex_range).1 0
    (by decide) (by rw [orangeIndex_eq]; decide)⟩

/-- Claim C13 (routes are simple paths): for every destination on the grid, no
index occurs twice in the route from any start cell other than the
destination, nor in the route `buildRoute()` builds from any generator state
of the cycle, nor in the first route of the scene. -/
theorem route_is_simple (orange : ℤ) (ho : 0 ≤ orange ∧ orange < 60) :
    (∀ start : ℤ, 0 ≤ start ∧ start < 60 → start ≠ orange →
      ∃ route, routeFrom orange start = some route ∧ route.Nodup) ∧
    (∀ st : GroundState, 1 ≤ st.value ∧ st.value < 2147483647 →
      ∃ st1, buildRoute orange st = some st1 ∧ st1.route.Nodup) ∧
    (∃ st0, createGroundScene orange = some st0 ∧ st0.route.Nodup) := by
  have key : ∀ st : GroundState, 1 ≤ st.value ∧ st.value < 2147483647 →
      ∃ st1, buildRoute orange st = some st1 ∧ st1.route.Nodup := by
    intro st hv
    obtain ⟨start, route, hs, hne, -, hroute, hbuild⟩ := buildRoute_spec orange ho st hv
    obtain ⟨target, first, route1, -, -, hroute1, -, -, -, -, -, hnodup, -⟩ :=
      routeFrom_spec orange start ho hs hne
    rw [hroute] at hroute1
    cases hroute1
    exact ⟨_, hbuild, hnodup⟩
  refine ⟨?_, key, ?_⟩
  · intro start hs hne
    obtain ⟨target, first, route, -, -, hroute, -, -, -, -, -, hnodup, -⟩ :=
      routeFrom_spec orange start ho hs hne
    exact ⟨route, hroute, hnodup⟩
  · have hseed := groundSeed_valid (2 * rows * cols)
    have key2 := fun (v : ℤ) (hv : 1 ≤ v ∧ v < 2147483647) => key
      { value := v, route := [], segmentIndex := 0, segmentTimer := 0, lastTime := 0 } hv
    exact key2 _ hseed

/-- The simple route of C13 from cell 59 to the destination of the scene. -/
theorem route_is_simple_witness :
    (0 ≤ orangeIndex ∧ orangeIndex < 60) ∧
    ∃ route, routeFrom orangeIndex 59 = some route ∧ route.Nodup :=
  ⟨orangeIndex_range, (route_is_simple orangeIndex orangeIndex_range).1 59 (by decide)
    (by rw [orangeIndex_eq]; decide)⟩

/-- Claim C14 fails on the second route of the scene: it is
`[10, 21, 22, 23, 24]`, and its first step goes from row 1, column 0 to row 2,
column 1, one row and one column at once. -/
theorem second_route_steps_diagonally :
    Option.map GroundState.route ((createGroundScene orangeIndex).bind (buildRoute orangeIndex))
      = some [10, 21, 22, 23, 24] ∧
    Option.map (fun p => (p.row, p.col)) (gridAt 10) = some (1, 0) ∧
    Option.map (fun p => (p.row, p.col)) (gridAt 21) = some (2, 1) ∧
    rookStep 10 21 = false ∧
    ¬ List.Chain' (fun a b => rookStep a b = true) [10, 21, 22, 23, 24] := by
  refine ⟨by decide!, by decide!, by decide!, by decide!, ?_⟩
  intro h
  rw [List.chain'_cons] at h
  exact absurd h.1 (by decide!)

/-- Claim C14, amended: for every destination on the grid, every entry of a
route is a valid index of the grid, and every step is a king move: the row
moves by the sign of the row offset that remains to the destination and the
column by the sign of the column offset, each by at most one and both at once
when both offsets remain; this holds of the route from every start cell other
than the destination and of the route `buildRoute()` builds from any generator
state of the cycle. -/
theorem route_steps_are_king_moves (orange : ℤ) (ho : 0 ≤ orange ∧ orange < 60) :
    ∃ target, gridAt orange = some target ∧
      (∀ start : ℤ, 0 ≤ start ∧ start < 60 → start ≠ orange →
        ∃ route, routeFrom orange start = some route ∧
          (∀ e ∈ route, (0 ≤ e ∧ e < 60) ∧ (gridAt e).isSome = true) ∧
          route.Chain' (fun a b => signStep target a b = true) ∧
          route.Chain' (fun a b => kingAdjacent a b = true ∧ a ≠ b)) ∧
      (∀ st : GroundState, 1 ≤ st.value ∧ st.value < 2147483647 →
        ∃ st1, buildRoute orange st = some st1 ∧
          (∀ e ∈ st1.route, (0 ≤ e ∧ e < 60) ∧ (gridAt e).isSome = true) ∧
          st1.route.Chain' (fun a b => signStep target a b = true) ∧
          st1.route.Chain' (fun a b => kingAdjacent a b = true ∧ a ≠ b)) := by
  obtain ⟨target, ht, -⟩ := gridAt_eq orange ho
  have hfrom : ∀ start : ℤ, 0 ≤ start ∧ start < 60 → start ≠ orange →
      ∃ route, routeFrom orange start = some route ∧
        (∀ e ∈ route, (0 ≤ e ∧ e < 60) ∧ (gridAt e).isSome = true) ∧
        route.Chain' (fun a b => signStep target a b = true) ∧
        route.Chain' (fun a b => kingAdjacent a b = true ∧ a ≠ b) := by
    intro start hs hne
    obtain ⟨target1, first, route, ht1, -, hroute, -, -, -, -, -, -, hmem, hchain⟩ :=
      routeFrom_spec orange start ho hs hne
    rw [ht] at ht1
    cases ht1
    refine ⟨route, hroute, ?_, hchain, ?_⟩
    · intro e he
      obtain ⟨p, hp, -⟩ := gridAt_eq e (hmem e he)
      exact ⟨hmem e he, by rw [hp]; rfl⟩
    · refine List.Chain'.imp ?_ hchain
      intro a b hab
      refine ⟨signStep_kingAdjacent target a b hab, ?_⟩
      intro hEq
      obtain ⟨p, q, hp, hq, -, -, -, -, hdec⟩ := signStep_facts _ _ _ hab
      rw [hEq, hq] at hp
      cases hp
      omega
  refine ⟨target, ht, hfrom, ?_⟩
  intro st hv
  obtain ⟨start, route, hs, hne, -, hroute, hbuild⟩ := buildRoute_spec orange ho st hv
  obtain ⟨route1, hroute1, h1, h2, h3⟩ := hfrom start hs hne
  rw [hroute] at hroute1
  cases hroute1
  exact ⟨_, hbuild, h1, h2, h3⟩

/-- The king moves of the amended C14 on the route from cell 10. -/
theorem route_steps_are_king_moves_witness :
    (0 ≤ orangeIndex ∧ orangeIndex < 60) ∧
    ∃ target, gridAt orangeIndex = some target ∧
      ∃ route, routeFrom orangeIndex 10 = some route ∧
        route.Chain' (fun a b => kingAdjacent a b = true ∧ a ≠ b) := by
  refine ⟨orangeIndex_range, ?_⟩
  obtain ⟨target, ht, hfrom, -⟩ := route_steps_are_king_moves orangeIndex orangeIndex_range
  obtain ⟨route, hroute, -, -, hking⟩ := hfrom 10 (by decide) (by rw [orangeIndex_eq]; decide)
  exact ⟨target, ht, route, hroute, hking⟩

/-- Claim C24 fails: for the destination of the scene there is no start cell
whose route is longer than some path of king moves to the destination, or
visits a cell twice, or is stopped by the ceiling of `rows * cols` steps. -/
theorem no_start_detours :
    ¬ ∃ start : ℤ, (0 ≤ start ∧ start < 60) ∧ start ≠ orangeIndex ∧
      ∃ route, routeFrom orangeIndex start = some route ∧
        ((∃ path, IsKingPath start orangeIndex path ∧ path.length < route.length) ∨
          ¬ route.Nodup ∨ rows * cols ≤ route.length - 1) := by
  have ho : 0 ≤ orangeIndex ∧ orangeIndex < 60 := orangeIndex_range
  rintro ⟨start, hs, hne, route, hroute, hbad⟩
  obtain ⟨target, first, route1, ht, hf, hroute1, -, -, hlen, -, h9, hnodup, -⟩ :=
    routeFrom_spec orangeIndex start ho hs hne
  rw [hroute] at hroute1
  cases hroute1
  have hrc : rows * cols = 60 := rfl
  rcases hbad with ⟨path, hpath, hshort⟩ | hdup | hguard
  · have := kingPath_length target orangeIndex ht path start first hf hpath
    omega
  · exact hdup hnodup
  · omega

/-- Claim C24, amended: for every destination on the grid and every start cell
other than it, the route is a path of king moves from the start to the
destination with exactly `max |row offset| |column offset|` steps, no path of
king moves between the two cells has fewer entries, no cell is visited twice,
and the loop exits below the ceiling of `rows * cols` steps. -/
theorem route_is_shortest (orange : ℤ) (ho : 0 ≤ orange ∧ orange < 60) (start : ℤ)
    (hs : 0 ≤ start ∧ start < 60) (hne : start ≠ orange) :
    ∃ target first route, gridAt orange = some target ∧ gridAt start = some first ∧
      routeFrom orange start = some route ∧ IsKingPath start orange route ∧
      route.length - 1 = max (target.row - first.row).natAbs (target.col - first.col).natAbs ∧
      (∀ path, IsKingPath start orange path → route.length ≤ path.length) ∧
      route.Nodup ∧ route.length - 1 < rows * cols := by
  obtain ⟨target, first, route, ht, hf, hroute, hhead, hlast, hlen, -, h9, hnodup, -, hchain⟩ :=
    routeFrom_spec orange start ho hs hne
  have hrc : rows * cols = 60 := rfl
  refine ⟨target, first, route, ht, hf, hroute, ⟨hhead, hlast, ?_⟩, ?_, ?_, hnodup, by omega⟩
  · exact List.Chain'.imp (fun a b hab => signStep_kingAdjacent target a b hab) hchain
  · rw [hlen]
    rfl
  · intro path hpath
    have := kingPath_length target orange ht path start first hf hpath
    omega

/-- The shortest route of the amended C24 from cell 0, four king moves long. -/
theorem route_is_shortest_witness :
    ∃ target first route, gridAt orangeIndex = some target ∧ gridAt 0 = some first ∧
      routeFrom orangeIndex 0 = some route ∧ IsKingPath 0 orangeIndex route ∧
      route.length - 1 = max (target.row - first.row).natAbs (target.col - first.col).natAbs ∧
      (∀ path, IsKingPath 0 orangeIndex path → route.length ≤ path.length) ∧
      route.Nodup ∧ route.length - 1 < rows * cols :=
  route_is_shortest orangeIndex orangeIndex_range 0 (by decide)
    (by rw [orangeIndex_eq]; decide)

/-- Claim C29 (packet indexing is in bounds): for every destination on the
grid, every route `buildRoute()` builds has at least two entries and does not
start at the destination; the scene starts in a state with `GroundInv`; every
`render` call from such a state returns in such a state, at any time, so that
`segmentIndex <= route.length - 2` and both `grid[route[segmentIndex]]` and
`grid[route[segmentIndex + 1]]` are grid points; the same after any sequence
of `render` calls from the start; and when the increment reaches the last
entry the loop stops with the state `buildRoute()` returns, in which
`segmentIndex` and `segmentTimer` are 0. -/
theorem packet_index_in_bounds (orange : ℤ) (ho : 0 ≤ orange ∧ orange < 60) :
    (∀ st : GroundState, 1 ≤ st.value ∧ st.value < 2147483647 →
      ∃ st1, buildRoute orange st = some st1 ∧ 2 ≤ st1.route.length ∧
        st1.route.head? ≠ some orange ∧ st1.segmentIndex = 0 ∧ st1.segmentTimer = 0) ∧
    (∃ st0, createGroundScene orange = some st0 ∧ GroundInv st0) ∧
    (∀ (time : ℚ) (st : GroundState), GroundInv st →
      ∃ st1, groundRender orange time st = some st1 ∧ GroundInv st1 ∧
        st1.segmentIndex + 2 ≤ st1.route.length ∧ (packetEnds st1).isSome = true ∧
        (∀ e ∈ st1.route, 0 ≤ e ∧ e < 60)) ∧
    (∀ (times : List ℚ) (st0 : GroundState), createGroundScene orange = some st0 →
      ∃ st1, groundRun orange times st0 = some st1 ∧
        2 ≤ st1.route.length ∧ st1.segmentIndex + 2 ≤ st1.route.length ∧
        (packetEnds st1).isSome = true) ∧
    (∀ (fuel : ℕ) (st : GroundState), GroundInv st →
      st.segmentTimer ≥ groundSegmentTotal → st.segmentIndex + 2 = st.route.length →
      advanceSegments orange (fuel + 1) st
        = buildRoute orange { st with
            segmentTimer := st.segmentTimer - groundSegmentTotal,
            segmentIndex := st.segmentIndex + 1 } ∧
      ∃ st1, advanceSegments orange (fuel + 1) st = some st1 ∧ st1.segmentIndex = 0 ∧
        st1.segmentTimer = 0) := by
  have hcreate : ∃ st0, createGroundScene orange = some st0 ∧ GroundInv st0 := by
    have hseed := groundSeed_valid (2 * rows * cols)
    have key2 := fun (v : ℤ) (hv : 1 ≤ v ∧ v < 2147483647) => buildRoute_inv orange ho
      { value := v, route := [], segmentIndex := 0, segmentTimer := 0, lastTime := 0 } hv
    obtain ⟨st1, hb, hinv, -⟩ := key2 _ hseed
    exact ⟨st1, hb, hinv⟩
  refine ⟨?_, hcreate, ?_, ?_, ?_⟩
  · intro st hv
    obtain ⟨st1, hb, hinv, hi, ht, -, -, hhead⟩ := buildRoute_inv orange ho st hv
    exact ⟨st1, hb, hinv.2.1, hhead, hi, ht⟩
  · intro time st hinv
    obtain ⟨st1, hr, hinv1, -, -⟩ := groundRender_spec orange ho time st hinv
    obtain ⟨a, b, source, dest, -, -, -, -, hp⟩ := packetEnds_isSome st1 hinv1
    exact ⟨st1, hr, hinv1, hinv1.2.2.2, by rw [hp]; rfl, hinv1.2.2.1⟩
  · intro times st0 h0
    obtain ⟨st0', h0', hinv0⟩ := hcreate
    rw [h0] at h0'
    cases h0'
    obtain ⟨st1, hrun, hinv1⟩ := groundRun_spec orange ho times st0 hinv0
    obtain ⟨a, b, source, dest, -, -, -, -, hp⟩ := packetEnds_isSome st1 hinv1
    exact ⟨st1, hrun, hinv1.2.1, hinv1.2.2.2, by rw [hp]; rfl⟩
  · intro fuel st hinv hge hlast
    have hstep : advanceSegments orange (fuel + 1) st
        = buildRoute orange { st with
            segmentTimer := st.segmentTimer - groundSegmentTotal,
            segmentIndex := st.segmentIndex + 1 } := by
      rw [advanceSegments, if_pos hge]
      simp only
      rw [if_pos]
      show ((st.segmentIndex + 1 : ℕ) : ℤ) ≥ (st.route.length : ℤ) - 1
      omega
    refine ⟨hstep, ?_⟩
    obtain ⟨st1, hb, -, hi, ht, -⟩ := buildRoute_inv orange ho
      { st with
        segmentTimer := st.segmentTimer - groundSegmentTotal,
        segmentIndex := st.segmentIndex + 1 } hinv.1
    exact ⟨st1, by rw [hstep]; exact hb, hi, ht⟩

/-- The bounds of C29 after five renders of the scene, the last one 1200 ms
after the one before. -/
theorem packet_index_in_bounds_witness :
    (0 ≤ orangeIndex ∧ orangeIndex < 60) ∧
    ∃ st0, createGroundScene orangeIndex = some st0 ∧
      ∃ st1, groundRun orangeIndex [100, 200, 800, 805, 2000] st0 = some st1 ∧
        2 ≤ st1.route.length ∧ st1.segmentIndex + 2 ≤ st1.route.length ∧
        (packetEnds st1).isSome = true := by
  refine ⟨orangeIndex_range, ?_⟩
  obtain ⟨-, ⟨st0, h0, -⟩, -, hrun, -⟩ := packet_index_in_bounds orangeIndex orangeIndex_range
  exact ⟨st0, h0, hrun [100, 200, 800, 805, 2000] st0 h0⟩

/-! ## Easing and Bezier utilities -/

/-- Claim C25 (cubicPoint is the cubic Bezier evaluation): for all control
points and every `t`, the two copies of `cubicPoint` return the same point,
whose coordinates are the Bernstein form
`(1-t)^3 p0 + 3 (1-t)^2 t p1 + 3 (1-t) t^2 p2 + t^3 p3`, and which is the de
Casteljau nesting of `lerp`; the point is `p0` at `t = 0` and `p3` at `t = 1`;
and `sampleSegment` with `reverse = true` at `t` is the forward sample at
`1 - t`. -/
theorem cubicPoint_is_bezier (p0 p1 p2 p3 : Point) (t : ℚ) (segment : CurveSegment) :
    cubicPointNfo p0 p1 p2 p3 t = cubicPointControl p0 p1 p2 p3 t ∧
    (cubicPointControl p0 p1 p2 p3 t).x
      = (1 - t) ^ 3 * p0.x + 3 * (1 - t) ^ 2 * t * p1.x + 3 * (1 - t) * t ^ 2 * p2.x
        + t ^ 3 * p3.x ∧
    (cubicPointControl p0 p1 p2 p3 t).y
      = (1 - t) ^ 3 * p0.y + 3 * (1 - t) ^ 2 * t * p1.y + 3 * (1 - t) * t ^ 2 * p2.y
        + t ^ 3 * p3.y ∧
    cubicPointControl p0 p1 p2 p3 t = deCasteljau p0 p1 p2 p3 t ∧
    cubicPointNfo p0 p1 p2 p3 0 = p0 ∧ cubicPointControl p0 p1 p2 p3 0 = p0 ∧
    cubicPointNfo p0 p1 p2 p3 1 = p3 ∧ cubicPointControl p0 p1 p2 p3 1 = p3 ∧
    sampleSegment segment t true = sampleSegment segment (1 - t) false ∧
    sampleSegment segment t false
      = cubicPointControl segment.start segment.c1 segment.c2 segment.finish t := by
  refine ⟨rfl, ?_, ?_, ?_, ?_, ?_, ?_, ?_, rfl, rfl⟩
  · simp only [cubicPointControl]
    ring
  · simp only [cubicPointControl]
    ring
  · simp only [cubicPointControl, deCasteljau, lerp]
    congr 1 <;> ring
  · cases p0
    simp [cubicPointNfo]
  · cases p0
    simp [cubicPointControl]
  · cases p3
    simp [cubicPointNfo]
  · cases p3
    simp [cubicPointControl]

/-- Claim C26 (easeInOut on the clamped domain): `easeInOut 0 = 0`,
`easeInOut 1 = 1`, the two branches agree at `t = 0.5` with value 0.5, for
every `t` in `[0, 1]` the value is in `[0, 1]`, the function is monotone
non-decreasing on `[0, 1]`, `easeInOut (1 - t) = 1 - easeInOut t`, and
`lerp a b (easeInOut (clamp p 0 1))` lies between `a` and `b` for every `p`. -/
theorem easeInOut_properties :
    easeInOut 0 = 0 ∧ easeInOut 1 = 1 ∧
    (2 * (5 / 10 : ℚ) * (5 / 10) = 5 / 10 ∧ 1 - (-2 * (5 / 10 : ℚ) + 2) ^ 2 / 2 = 5 / 10 ∧
      easeInOut (5 / 10) = 5 / 10) ∧
    (∀ t : ℚ, 0 ≤ t → t ≤ 1 → 0 ≤ easeInOut t ∧ easeInOut t ≤ 1) ∧
    (∀ s t : ℚ, 0 ≤ s → s ≤ t → t ≤ 1 → easeInOut s ≤ easeInOut t) ∧
    (∀ t : ℚ, easeInOut (1 - t) = 1 - easeInOut t) ∧
    (∀ a b p : ℚ, min a b ≤ lerp a b (easeInOut (clamp p 0 1)) ∧
      lerp a b (easeInOut (clamp p 0 1)) ≤ max a b) := by
  have hrange : ∀ t : ℚ, 0 ≤ t → t ≤ 1 → 0 ≤ easeInOut t ∧ easeInOut t ≤ 1 := by
    intro t h0 h1
    unfold easeInOut
    split_ifs with h
    · constructor <;> nlinarith
    · push_neg at h
      constructor <;> nlinarith
  refine ⟨by norm_num [easeInOut], by norm_num [easeInOut], ⟨by norm_num, by norm_num,
    by norm_num [easeInOut]⟩, hrange, ?_, ?_, ?_⟩
  · intro s t h0 hst h1
    unfold easeInOut
    split_ifs with hs ht ht
    · nlinarith
    · push_neg at ht
      nlinarith
    · push_neg at hs
      linarith
    · push_neg at hs ht
      nlinarith
  · intro t
    unfold easeInOut
    split_ifs with h1 h2 h2
    · linarith
    · ring
    · ring
    · push_neg at h1 h2
      have : t = 5 / 10 := by linarith
      rw [this]
      norm_num
  · intro a b p
    have hc : 0 ≤ clamp p 0 1 ∧ clamp p 0 1 ≤ 1 := by
      unfold clamp
      exact ⟨le_min (by norm_num) (le_max_left _ _), min_le_left _ _⟩
    obtain ⟨e0, e1⟩ := hrange _ hc.1 hc.2
    generalize easeInOut (clamp p 0 1) = e at e0 e1
    unfold lerp
    rcases le_total a b with hab | hab
    · rw [min_eq_left hab, max_eq_right hab]
      constructor <;> nlinarith
    · rw [min_eq_right hab, max_eq_left hab]
      constructor <;> nlinarith

/-! ## Elastic rings: one relaxation pass and the focal dot -/

theorem foldl_set_length (f : ℕ → ℚ) (is : List ℕ) :
    ∀ radii : List ℚ, (is.foldl (fun radii i => radii.set i (f i)) radii).length
      = radii.length := by
  induction is with
  | nil => intro radii; rfl
  | cons i rest ih =>
    intro radii
    rw [List.foldl_cons, ih, List.length_set]

theorem resetRings_length (fr : CharterFrame) (a : RenderArgs) (st : CharterState) :
    (resetRings fr a st).ringRadii.length = st.ringRadii.length := by
  unfold resetRings
  split_ifs
  · exact foldl_set_length (fun i => fr.minRadius + fr.ringGap * (i : ℚ)) _ _
  · rfl

/-- Ring `i` after one pass of the relaxation loop: it has moved 0.12 of the
way to its target, and the target was computed from the radii as the loop had
updated them when it reached ring `i`, in which ring `i - 1` already has its
final value. -/
theorem pass_getD (M : JsMath) (fr : CharterFrame) (t : ℚ) (radii : List ℚ) (i : ℕ)
    (hi : i < ringCount) (hlen : i < radii.length) :
    ((List.range ringCount).foldl (relaxRing M fr t) radii).getD i 0
        = radii.getD i 0 +
          (ringTarget M fr t ((List.range i).foldl (relaxRing M fr t) radii) i
            - radii.getD i 0) * (12 / 100) ∧
      (0 < i →
        ((List.range ringCount).foldl (relaxRing M fr t) radii).getD (i - 1) 0
          = ((List.range i).foldl (relaxRing M fr t) radii).getD (i - 1) 0) := by
  have hsplit : List.range ringCount
      = List.range i ++ (i :: List.range' (i + 1) (ringCount - i - 1)) := by
    have h1 : List.range' i (ringCount - i - 1 + 1)
        = i :: List.range' (i + 1) (ringCount - i - 1) := rfl
    have h2 := List.range'_append_1 0 i (ringCount - i - 1 + 1)
    rw [Nat.zero_add] at h2
    rw [List.range_eq_range', List.range_eq_range', ← h1, h2]
    congr 1
    omega
  have hnot : ∀ j, j ≤ i → j ∉ List.range' (i + 1) (ringCount - i - 1) := by
    intro j hj hmem
    rw [List.mem_range'_1] at hmem
    omega
  rw [hsplit, List.foldl_append, List.foldl_cons]
  constructor
  · rw [foldl_relaxRing_getD_of_not_mem M fr t _ i (hnot i le_rfl),
      relaxRing_getD_self M fr t _ i (by rw [foldl_relaxRing_length]; exact hlen),
      foldl_relaxRing_getD_of_not_mem M fr t (List.range i) i (by simp)]
  · intro hpos
    rw [foldl_relaxRing_getD_of_not_mem M fr t _ (i - 1) (hnot (i - 1) (by omega)),
      relaxRing_getD_of_ne M fr t _ i (i - 1) (by omega)]

/-- Claim C22 (ring relaxation step): in one render of the charter scene, with
`old` the radii after the reset step, every ring `i` ends at
`old[i] + 0.12 * (target - old[i])`, between `old[i]` and its target; the
target of ring 0 is at least `desiredDist + dotPadding`, and the target of a
ring `i > 0` is at least the final radius of ring `i - 1` in this render plus
`minGap`. -/
theorem ring_relaxation_step (M : JsMath) (a : RenderArgs) (st : CharterState)
    (hlen : st.ringRadii.length = ringCount) (i : ℕ) (hi : i < ringCount) :
    ∃ target : ℚ,
      target = ringTarget M (charterFrame M a) a.time
        ((List.range i).foldl (relaxRing M (charterFrame M a) a.time)
          (resetRings (charterFrame M a) a st).ringRadii) i ∧
      (charterRender M a st).ringRadii.getD i 0
        = (resetRings (charterFrame M a) a st).ringRadii.getD i 0
          + (target - (resetRings (charterFrame M a) a st).ringRadii.getD i 0) * (12 / 100) ∧
      min ((resetRings (charterFrame M a) a st).ringRadii.getD i 0) target
        ≤ (charterRender M a st).ringRadii.getD i 0 ∧
      (charterRender M a st).ringRadii.getD i 0
        ≤ max ((resetRings (charterFrame M a) a st).ringRadii.getD i 0) target ∧
      (i = 0 → (charterFrame M a).desiredDist + (charterFrame M a).dotPadding ≤ target) ∧
      (0 < i → (charterRender M a st).ringRadii.getD (i - 1) 0 + (charterFrame M a).minGap
        ≤ target) := by
  have hl : i < (resetRings (charterFrame M a) a st).ringRadii.length := by
    rw [resetRings_length, hlen]
    exact hi
  obtain ⟨hnew, hprev⟩ := pass_getD M (charterFrame M a) a.time
    (resetRings (charterFrame M a) a st).ringRadii i hi hl
  have hrender : (charterRender M a st).ringRadii
      = (List.range ringCount).foldl (relaxRing M (charterFrame M a) a.time)
        (resetRings (charterFrame M a) a st).ringRadii := rfl
  refine ⟨_, rfl, ?_, ?_, ?_, ?_, ?_⟩
  · rw [hrender, hnew]
  · rw [hrender, hnew]
    rcases le_total ((resetRings (charterFrame M a) a st).ringRadii.getD i 0)
      (ringTarget M (charterFrame M a) a.time
        ((List.range i).foldl (relaxRing M (charterFrame M a) a.time)
          (resetRings (charterFrame M a) a st).ringRadii) i) with h | h
    · rw [min_eq_left h]
      linarith
    · rw [min_eq_right h]
      linarith
  · rw [hrender, hnew]
    rcases le_total ((resetRings (charterFrame M a) a st).ringRadii.getD i 0)
      (ringTarget M (charterFrame M a) a.time
        ((List.range i).foldl (relaxRing M (charterFrame M a) a.time)
          (resetRings (charterFrame M a) a st).ringRadii) i) with h | h
    · rw [max_eq_right h]
      linarith
    · rw [max_eq_left h]
      linarith
  · intro h0
    subst h0
    unfold ringTarget
    simp only [if_true]
    exact le_max_right _ _
  · intro hpos
    rw [hrender, hprev hpos]
    unfold ringTarget
    simp only
    rw [if_neg (by omega)]
    exact le_max_right _ _

/-- The relaxation step of C22 for ring 1 in the first render of a fresh scene. -/
theorem ring_relaxation_step_witness :
    ∃ target : ℚ,
      target = ringTarget JsMath.flat (charterFrame JsMath.flat (pointerFrame 300 400 0 0 0)) 0
        ((List.range 1).foldl
          (relaxRing JsMath.flat (charterFrame JsMath.flat (pointerFrame 300 400 0 0 0)) 0)
          (resetRings (charterFrame JsMath.flat (pointerFrame 300 400 0 0 0))
            (pointerFrame 300 400 0 0 0) CharterState.initial).ringRadii) 1 ∧
      (charterRender JsMath.flat (pointerFrame 300 400 0 0 0) CharterState.initial).ringRadii.getD
          1 0
        = (resetRings (charterFrame JsMath.flat (pointerFrame 300 400 0 0 0))
            (pointerFrame 300 400 0 0 0) CharterState.initial).ringRadii.getD 1 0
          + (target - (resetRings (charterFrame JsMath.flat (pointerFrame 300 400 0 0 0))
            (pointerFrame 300 400 0 0 0) CharterState.initial).ringRadii.getD 1 0)
            * (12 / 100) := by
  obtain ⟨target, h1, h2, -⟩ := ring_relaxation_step JsMath.flat (pointerFrame 300 400 0 0 0)
    CharterState.initial rfl 1 (by decide)
  exact ⟨target, h1, h2⟩

/-- Claim C30 (focal dot clearance): in a render of the charter scene, with
any radii left by the relaxation loop, the dot is drawn at
`centre + ratio * (desiredDx, desiredDy)` with `ratio` in `[0, 1]` and
`ratio * desiredDist = min desiredDist (max (ringRadii[0] - dotPadding) 0)`; it
is at the centre when `desiredDist = 0`; where `desiredDist` is the exact
length of `(desiredDx, desiredDy)`, the dot is at exactly that distance from
the centre; and when `ringRadii[0] >= dotPadding` that distance is at most
`ringRadii[0] - dotPadding`. -/
theorem dot_clearance (M : JsMath) (hM : M.Sound) (a : RenderArgs) (radii : List ℚ) :
    ∃ ratio dist : ℚ,
      dist = min (charterFrame M a).desiredDist
        (max (radii.getD 0 0 - (charterFrame M a).dotPadding) 0) ∧
      (0 ≤ ratio ∧ ratio ≤ 1) ∧ 0 ≤ dist ∧
      ratio * (charterFrame M a).desiredDist = dist ∧
      charterDot (charterFrame M a) radii
        = ((charterFrame M a).baseX + (charterFrame M a).desiredDx * ratio,
          (charterFrame M a).baseY + (charterFrame M a).desiredDy * ratio) ∧
      ((charterFrame M a).desiredDist = 0 →
        charterDot (charterFrame M a) radii
          = ((charterFrame M a).baseX, (charterFrame M a).baseY)) ∧
      ((charterFrame M a).desiredDist * (charterFrame M a).desiredDist
          = (charterFrame M a).desiredDx * (charterFrame M a).desiredDx
            + (charterFrame M a).desiredDy * (charterFrame M a).desiredDy →
        ((charterDot (charterFrame M a) radii).1 - (charterFrame M a).baseX) ^ 2
          + ((charterDot (charterFrame M a) radii).2 - (charterFrame M a).baseY) ^ 2
          = dist ^ 2) ∧
      ((charterFrame M a).dotPadding ≤ radii.getD 0 0 →
        dist + (charterFrame M a).dotPadding ≤ radii.getD 0 0) := by
  have hD : 0 ≤ (charterFrame M a).desiredDist := hM.2.2.1 _ _
  generalize charterFrame M a = fr at hD ⊢
  have hdist0 : 0 ≤ min fr.desiredDist (max (radii.getD 0 0 - fr.dotPadding) 0) :=
    le_min hD (le_max_right _ _)
  have hpad : fr.dotPadding ≤ radii.getD 0 0 →
      min fr.desiredDist (max (radii.getD 0 0 - fr.dotPadding) 0) + fr.dotPadding
        ≤ radii.getD 0 0 := by
    intro h
    have hmax : max (radii.getD 0 0 - fr.dotPadding) 0 = radii.getD 0 0 - fr.dotPadding :=
      max_eq_left (by linarith)
    rw [hmax]
    have h1 := min_le_right fr.desiredDist (radii.getD 0 0 - fr.dotPadding)
    linarith
  rcases hD.lt_or_eq with hpos | hzero
  · refine ⟨min fr.desiredDist (max (radii.getD 0 0 - fr.dotPadding) 0) / fr.desiredDist, _,
      rfl, ⟨div_nonneg hdist0 hD, ?_⟩, hdist0, ?_, ?_, ?_, ?_, hpad⟩
    · rw [div_le_one hpos]
      exact min_le_left _ _
    · field_simp
    · unfold charterDot
      simp only
      rw [if_pos hpos]
    · intro h0
      linarith
    · intro hexact
      unfold charterDot
      simp only
      rw [if_pos hpos]
      generalize min fr.desiredDist (max (radii.getD 0 0 - fr.dotPadding) 0) = c
      have hne : fr.desiredDist ≠ 0 := ne_of_gt hpos
      have e : (fr.baseX + fr.desiredDx * (c / fr.desiredDist) - fr.baseX) ^ 2
          + (fr.baseY + fr.desiredDy * (c / fr.desiredDist) - fr.baseY) ^ 2
          = (fr.desiredDx * fr.desiredDx + fr.desiredDy * fr.desiredDy)
            * (c / fr.desiredDist) ^ 2 := by ring
      rw [e, ← hexact]
      field_simp
      ring
  · have hmin : min fr.desiredDist (max (radii.getD 0 0 - fr.dotPadding) 0) = 0 := by
      rw [← hzero]
      exact min_eq_left (le_max_right _ _)
    have hdot : charterDot fr radii = (fr.baseX, fr.baseY) := by
      unfold charterDot
      simp only
      rw [if_neg (by rw [← hzero]; exact lt_irrefl _)]
      simp
    refine ⟨0, _, rfl, ⟨le_rfl, by norm_num⟩, hdist0, ?_, ?_, ?_, ?_, hpad⟩
    · rw [hmin]
      simp
    · rw [hdot]
      simp
    · intro _
      exact hdot
    · intro _
      rw [hdot, hmin]
      simp

/-- The focal dot of C30 on a 300 x 400 canvas with the pointer at
(0.96, 0.96) and rings at their base radii. -/
theorem dot_clearance_witness :
    ∃ ratio dist : ℚ,
      dist = min (charterFrame JsMath.flat (pointerFrame 300 400 0 (24 / 25) (24 / 25))).desiredDist
        (max ((List.replicate 9 (24 : ℚ)).getD 0 0
          - (charterFrame JsMath.flat (pointerFrame 300 400 0 (24 / 25) (24 / 25))).dotPadding)
          0) ∧
      (0 ≤ ratio ∧ ratio ≤ 1) ∧ 0 ≤ dist := by
  obtain ⟨ratio, dist, h1, h2, h3, -⟩ := dot_clearance JsMath.flat JsMath.flat_sound
    (pointerFrame 300 400 0 (24 / 25) (24 / 25)) (List.replicate 9 (24 : ℚ))
  exact ⟨ratio, dist, h1, h2, h3⟩

/-! ## Visibility scene: pulses -/

theorem spawnCards_pulses (prm cardStack : Bool) (st : VisibilityState) :
    (spawnCards prm cardStack st).pulses = st.pulses := by
  unfold spawnCards
  split_ifs <;> rfl

/-- The pulses after `spawnPulse`: a pulse started at the current time is pushed
at the end and, when that makes more than 7, the oldest one is shifted out. -/
theorem spawnPulse_pulses (prm cardStack : Bool) (time : ℚ) (st : VisibilityState) :
    ∃ pulse : Pulse, pulse.start = time ∧
      (spawnPulse prm cardStack time st).pulses
        = if (st.pulses ++ [pulse]).length > 7 then (st.pulses ++ [pulse]).tail
          else st.pulses ++ [pulse] :=
  ⟨{ nx := 16 / 100 + randomOutput (nextValue st.value) * (68 / 100),
     ny := 22 / 100 + randomOutput (nextValue (nextValue st.value)) * (56 / 100),
     start := time,
     seedTurns := randomOutput (nextValue (nextValue (nextValue st.value))) }, rfl,
    by simp only [spawnPulse, spawnCards_pulses]⟩

/-- The pulses after the spawn block: unchanged, or the old ones with a pulse
started at the current time pushed at the end and, when that makes more than 7,
the oldest one shifted out. -/
theorem spawnStep_pulses (prm cardStack : Bool) (a : RenderArgs) (st : VisibilityState) :
    (spawnStep prm cardStack a st).pulses = st.pulses ∨
    ∃ pulse : Pulse, pulse.start = a.time ∧ a.paused = false ∧
      (spawnStep prm cardStack a st).pulses
        = if (st.pulses ++ [pulse]).length > 7 then (st.pulses ++ [pulse]).tail
          else st.pulses ++ [pulse] := by
  by_cases hp : a.paused = true
  · left
    unfold spawnStep
    rw [if_pos hp]
  · have key : ∀ (st2 : VisibilityState) (interval : ℚ), st2.pulses = st.pulses →
        (if a.time ≥ st2.nextPulse then
            { spawnPulse prm cardStack a.time st2 with nextPulse := a.time + interval }
          else st2).pulses = st.pulses ∨
        ∃ pulse : Pulse, pulse.start = a.time ∧ a.paused = false ∧
          (if a.time ≥ st2.nextPulse then
              { spawnPulse prm cardStack a.time st2 with nextPulse := a.time + interval }
            else st2).pulses
            = if (st.pulses ++ [pulse]).length > 7 then (st.pulses ++ [pulse]).tail
              else st.pulses ++ [pulse] := by
      intro st2 interval h2
      by_cases ht : a.time ≥ st2.nextPulse
      · right
        obtain ⟨pulse, hs, hq⟩ := spawnPulse_pulses prm cardStack a.time st2
        refine ⟨pulse, hs, by simpa using hp, ?_⟩
        rw [if_pos ht, ← h2]
        exact hq
      · left
        rw [if_neg ht]
        exact h2
    unfold spawnStep
    rw [if_neg hp]
    refine key _ _ ?_
    split_ifs <;> rfl

theorem spawnStep_length (prm cardStack : Bool) (a : RenderArgs) (st : VisibilityState)
    (h7 : st.pulses.length ≤ 7) : (spawnStep prm cardStack a st).pulses.length ≤ 7 := by
  rcases spawnStep_pulses prm cardStack a st with h | ⟨pulse, -, -, h⟩
  · rw [h]
    exact h7
  · rw [h]
    split_ifs with hlen
    · simp only [List.length_tail, List.length_append, List.length_singleton]
      omega
    · omega

/-- The prune loop returns, and what it leaves is the array filtered by age:
from index `i` down, the entries whose progress exceeds 1.35 are spliced out
and the others stay in place. -/
theorem pruneLoop_eq (time : ℚ) :
    ∀ (i : ℕ) (pulses : List Pulse), i ≤ pulses.length →
      pruneLoop time i pulses
        = some ((pulses.take i).filter
            (fun p => decide ((time - p.start) / pulseDuration ≤ 135 / 100))
          ++ pulses.drop i) := by
  intro i
  induction i with
  | zero =>
    intro pulses _
    simp [pruneLoop]
  | succ i ih =>
    intro pulses hi
    have hlt : i < pulses.length := hi
    have hget : pulses.get? i = some pulses[i] := List.get?_eq_get hlt
    have htake : pulses.take (i + 1) = pulses.take i ++ [pulses[i]] := by
      rw [List.take_succ, List.getElem?_eq_getElem hlt]
      rfl
    have hdrop : pulses.drop i = pulses[i] :: pulses.drop (i + 1) :=
      List.drop_eq_getElem_cons hlt
    rw [pruneLoop, hget]
    simp only
    by_cases hold : (time - pulses[i].start) / pulseDuration > 135 / 100
    · rw [if_pos hold]
      have hlen : i ≤ (pulses.eraseIdx i).length := by
        rw [List.length_eraseIdx, if_pos hlt]
        omega
      rw [ih _ hlen, List.eraseIdx_eq_take_drop_succ, htake, List.filter_append]
      have h1 : List.take i (List.take i pulses ++ List.drop (i + 1) pulses)
          = List.take i pulses := by
        apply List.take_left'
        rw [List.length_take]
        omega
      have h2 : List.drop i (List.take i pulses ++ List.drop (i + 1) pulses)
          = List.drop (i + 1) pulses := by
        apply List.drop_left'
        rw [List.length_take]
        omega
      rw [h1, h2]
      have h3 : List.filter (fun p => decide ((time - p.start) / pulseDuration ≤ 135 / 100))
          [pulses[i]] = [] := by
        simp [List.filter, not_le.2 hold]
      rw [h3, List.append_nil]
    · rw [if_neg hold]
      rw [ih _ (by omega), htake, List.filter_append, hdrop]
      have h3 : List.filter (fun p => decide ((time - p.start) / pulseDuration ≤ 135 / 100))
          [pulses[i]] = [pulses[i]] := by
        simp [List.filter, not_lt.1 hold]
      rw [h3]
      simp

/-- One `render` call of the visibility scene from a state with at most 7
pulses. -/
theorem visibilityRender_spec (prm cardStack : Bool) (a : RenderArgs) (st : VisibilityState)
    (h7 : st.pulses.length ≤ 7) :
    ∃ st1, visibilityRender prm cardStack a st = some st1 ∧
      st1.pulses = (spawnStep prm cardStack a st).pulses.filter
        (fun p => decide (a.time - p.start ≤ 2025)) ∧
      st1.pulses.length ≤ 7 ∧ (∀ p ∈ st1.pulses, a.time - p.start ≤ 2025) := by
  have hfun : (fun p : Pulse => decide ((a.time - p.start) / pulseDuration ≤ 135 / 100))
      = (fun p : Pulse => decide (a.time - p.start ≤ 2025)) := by
    funext p
    congr 1
    unfold pulseDuration
    rw [div_le_iff₀ (by norm_num)]
    norm_num
  have hprune := pruneLoop_eq a.time (spawnStep prm cardStack a st).pulses.length
    (spawnStep prm cardStack a st).pulses le_rfl
  rw [List.take_length, List.drop_length, List.append_nil, hfun] at hprune
  refine ⟨{ spawnStep prm cardStack a st with
    pulses := (spawnStep prm cardStack a st).pulses.filter
      (fun p => decide (a.time - p.start ≤ 2025)) }, ?_, rfl, ?_, ?_⟩
  · unfold visibilityRender
    simp only [hprune]
  · exact le_trans (List.length_filter_le _ _) (spawnStep_length prm cardStack a st h7)
  · intro p hp
    have := (List.mem_filter.1 hp).2
    simpa using this

/-- Any sequence of `render` calls of the visibility scene returns, in a state
with at most 7 pulses. -/
theorem visibilityRun_spec :
    ∀ (calls : List (Bool × Bool × RenderArgs)) (st : VisibilityState),
      st.pulses.length ≤ 7 →
      ∃ st1, visibilityRun calls st = some st1 ∧ st1.pulses.length ≤ 7 := by
  intro calls
  induction calls with
  | nil =>
    intro st h7
    exact ⟨st, rfl, h7⟩
  | cons call rest ih =>
    intro st h7
    obtain ⟨prm, cardStack, a⟩ := call
    obtain ⟨st1, hr, -, h71, -⟩ := visibilityRender_spec prm cardStack a st h7
    obtain ⟨st2, hrun, h72⟩ := ih st1 h71
    refine ⟨st2, ?_, h72⟩
    unfold visibilityRun
    rw [hr]
    exact hrun

/-- Claim C21 (pulse set invariant): after any sequence of `render` calls from
the creation of the scene the array holds at most 7 pulses, and a further
`render` call at elapsed time `a.time` returns with at most 7 pulses, none of
them older than `1.35 * 1500 = 2025` ms; what it leaves is the array after the
spawn block filtered by age, so every pulse within the lifetime is kept, in
its place; and the array after the spawn block is the old one, or the old one
with a pulse started at `a.time` pushed at the end and, when that makes more
than 7, the oldest one shifted out. -/
theorem pulse_set_invariant (calls : List (Bool × Bool × RenderArgs))
    (prefersReducedMotion cardStack : Bool) (a : RenderArgs) :
    ∃ st st1, visibilityRun calls VisibilityState.initial = some st ∧
      st.pulses.length ≤ 7 ∧
      visibilityRender prefersReducedMotion cardStack a st = some st1 ∧
      st1.pulses.length ≤ 7 ∧
      (135 / 100 * pulseDuration = 2025 ∧ ∀ p ∈ st1.pulses, a.time - p.start ≤ 2025) ∧
      st1.pulses = (spawnStep prefersReducedMotion cardStack a st).pulses.filter
        (fun p => decide (a.time - p.start ≤ 2025)) ∧
      ((spawnStep prefersReducedMotion cardStack a st).pulses = st.pulses ∨
        ∃ pulse : Pulse, pulse.start = a.time ∧ a.paused = false ∧
          (spawnStep prefersReducedMotion cardStack a st).pulses
            = if (st.pulses ++ [pulse]).length > 7 then (st.pulses ++ [pulse]).tail
              else st.pulses ++ [pulse]) := by
  obtain ⟨st, hrun, h7⟩ := visibilityRun_spec calls VisibilityState.initial
    (by simp [VisibilityState.initial])
  obtain ⟨st1, hr, hfilter, h71, hage⟩ :=
    visibilityRender_spec prefersReducedMotion cardStack a st h7
  exact ⟨st, st1, hrun, h7, hr, h71, ⟨by norm_num [pulseDuration], hage⟩, hfilter,
    spawnStep_pulses prefersReducedMotion cardStack a st⟩

end IllustrationsLab
